import Mathlib

/-!
SwapManager (Source/ComputationNetworkLib/SwapManager.cpp, SwapManager.h)

A shallow embedding of the memory-swap scheduler.

Modelling conventions

* Pointers (`Matrix<ElemType>*`, `ComputationNodeBase*`, `SwapAction<ElemType>*`) are natural
  numbers; `0` is the null pointer.
* `std::unordered_map<K,V>` is an association list with pairwise distinct keys; the order of the
  list is the order in which a range-`for` visits the entries.  A table handed in by a caller is
  an arbitrary such list, so every iteration order is covered.
* `new` is a bump allocator over a free store (`heap`): the n-th object ever created lives at
  address `n` (starting at 1).  Nothing in the source deletes an action object, so the free store
  only grows.
* The calls the scheduler makes on its collaborators (`BeginAction`, `EndAction`, `Resize`,
  `ReleaseMemory`) are recorded, in order, as a trace of events.
* `assert` is modelled with assertions enabled: a failing assertion aborts the call.
* The hooks are those of the build in which `CPUONLY` is not defined.
* `float` quantities are exact rationals.
* `int` quantities are mathematical integers.  The only arithmetic on them is `i+1`, `i++` and
  `i--` in `CumulativeMemory`; where its loop is shown to end, `i` stays within
  `[0, m_maxTimeStep]`.
* The loop of `CumulativeMemory` is run with a bound on the number of iterations (fuel), and
  records each assignment to `step2CumulativeMemory` in a list of visits; `BufferSize` of a
  buffer is a parameter.
-/

namespace CNTK

/-- Address of a `Matrix<ElemType>` buffer. -/
abbrev Buffer := Nat

/-- Address of a `ComputationNodeBase` (a step). -/
abbrev Node := Nat

/-- Address of a `SwapAction<ElemType>` object in the free store. -/
abbrev ActionPtr := Nat

/-- A `std::unordered_map<K,V>`: its entries in iteration order. -/
abbrev UMap (K V : Type) := List (K × V)

namespace UMap

variable {K V : Type} [DecidableEq K]

/-- The keys, in iteration order. -/
def keys (m : UMap K V) : List K := m.map Prod.fst

/-- Read-only lookup (`find`): the value stored under `k`, if any. -/
def lookup? : UMap K V → K → Option V
  | [], _ => none
  | (k', v) :: m, k => if k' = k then some v else lookup? m k

/-- `count(k)`: 1 if the key is present, 0 otherwise. -/
def countKey (m : UMap K V) (k : K) : Nat :=
  match lookup? m k with
  | some _ => 1
  | none => 0

/-- `size()`: the number of entries. -/
def size (m : UMap K V) : Nat := m.length

/-- `m[k] = v`: overwrite the value of an existing key, or add a new entry. -/
def assign : UMap K V → K → V → UMap K V
  | [], k, v => [(k, v)]
  | (k', v') :: m, k, v => if k' = k then (k', v) :: m else (k', v') :: assign m k v

/-- `m[k]` used as a value: returns the stored value; when the key is absent a
value-initialised entry is inserted first.  The result is the value and the map afterwards. -/
def subscript [Inhabited V] (m : UMap K V) (k : K) : V × UMap K V :=
  match lookup? m k with
  | some v => (v, m)
  | none => (default, m ++ [(k, default)])

/-- The value stored under `k`, or the value-initialised `V` when `k` is absent; the map is
not changed. -/
def lookupD [Inhabited V] (m : UMap K V) (k : K) : V := (lookup? m k).getD default

end UMap

/-- Modelled from the spec: the classes `SwapOutAction` and `SwapInAction` (SwapOutAction.h,
SwapInAction.h are not part of the sources).  An action is bound to one target buffer; a swap-in
action carries a back-reference to the swap-out action that produced the host-side copy.  The
two constructors are the two constructor calls of `InitializeSwapping`. -/
inductive ActionObj where
  | SwapOutAction (buffer : Buffer)
  | SwapInAction (swpOut : ActionPtr) (buffer : Buffer)
  deriving DecidableEq

/-- The target buffer of an action (`GetGPUMatrix()`). -/
def ActionObj.buffer : ActionObj → Buffer
  | .SwapOutAction b => b
  | .SwapInAction _ b => b

/-- Whether the object is a swap-out action. -/
def ActionObj.isSwapOut : ActionObj → Bool
  | .SwapOutAction _ => true
  | .SwapInAction _ _ => false

/-- Whether the object is a swap-in action. -/
def ActionObj.isSwapIn : ActionObj → Bool
  | .SwapOutAction _ => false
  | .SwapInAction _ _ => true

/-- Dereference an action pointer in the free store; address `n + 1` holds the n-th object. -/
def deref (heap : List ActionObj) : ActionPtr → Option ActionObj
  | 0 => none
  | p + 1 => heap[p]?

/-- The calls made on the collaborators, as they appear in the source. -/
inductive Event where
  | BeginAction (action : ActionPtr)
  | EndAction (action : ActionPtr)
  | Resize (matrix : Buffer)
  | ReleaseMemory (action : ActionPtr)
  deriving DecidableEq

/-- The ways a call can abort: a failed `assert`, or a member call through an action pointer
that refers to no object of the free store. -/
inductive Failure where
  | assertionFailed
  | invalidPointer
  deriving DecidableEq

/-- The data members of `SwapManager<ElemType>` together with the free store of action
objects. -/
structure SwapManager where
  m_buffer2SwapIn : UMap Buffer ActionPtr
  m_buffer2SwapOut : UMap Buffer ActionPtr
  m_node2ForwardSwapOut : UMap Node (List ActionPtr)
  m_node2BackwardSwapin : UMap Node (List ActionPtr)
  m_node2BackwardFree : UMap Node (List Buffer)
  m_node2TimeStep : UMap Node Int
  m_timeStep2Node : UMap Int Node
  m_useMemorySwapping : Bool
  m_freeMemoryBase : ℚ
  m_totalMemoryBase : ℚ
  m_maxTimeStep : Int
  heap : List ActionObj

namespace SwapManager

/-- `Bytes2GB`: bytes divided three times by 1024. -/
def Bytes2GB (bytes : Nat) : ℚ := (bytes : ℚ) / 1024 / 1024 / 1024

/-- The constructor.  `g_useMemorySwapping` is the global flag, `free` and `total` are what
`cudaMemGetInfo` reports, `maxTimeStep` is the indeterminate initial content of the member the
constructor does not set, and `heap` is the free store at the time of construction. -/
def new (g_useMemorySwapping : Bool) (free total : Nat) (maxTimeStep : Int)
    (heap : List ActionObj) : SwapManager where
  m_buffer2SwapIn := []
  m_buffer2SwapOut := []
  m_node2ForwardSwapOut := []
  m_node2BackwardSwapin := []
  m_node2BackwardFree := []
  m_node2TimeStep := []
  m_timeStep2Node := []
  m_useMemorySwapping := g_useMemorySwapping
  m_freeMemoryBase := Bytes2GB free
  m_totalMemoryBase := Bytes2GB total
  m_maxTimeStep := maxTimeStep
  heap := heap

/-- `CleanUp`: `ReleaseMemory` on every registered swap-out action. -/
def CleanUp (s : SwapManager) : List Event :=
  s.m_buffer2SwapOut.map (fun pair => Event.ReleaseMemory pair.2)

/-- `ClearActionsAndTheirMemory`: `CleanUp`, then the two registries and the three per-step
tables are cleared.  (The log line is not modelled.) -/
def ClearActionsAndTheirMemory (s : SwapManager) : SwapManager × List Event :=
  ({ s with
      m_buffer2SwapIn := []
      m_buffer2SwapOut := []
      m_node2ForwardSwapOut := []
      m_node2BackwardSwapin := []
      m_node2BackwardFree := [] },
   CleanUp s)

/-- Body of the inner loop that sets up swap-out actions (lines 149-157), for one `buffer` of
the step `node`. -/
def swapOutBuffer (node : Node) (s : SwapManager) (buffer : Buffer) : SwapManager :=
  let s1 : SwapManager :=
    if UMap.countKey s.m_buffer2SwapOut buffer = 0 then
      let swpOut : ActionPtr := s.heap.length + 1
      let swpIn : ActionPtr := s.heap.length + 2
      { s with
          heap := s.heap ++ [ActionObj.SwapOutAction buffer, ActionObj.SwapInAction swpOut buffer]
          m_buffer2SwapOut := UMap.assign s.m_buffer2SwapOut buffer swpOut
          m_buffer2SwapIn := UMap.assign s.m_buffer2SwapIn buffer swpIn }
    else s
  let action := UMap.subscript s1.m_buffer2SwapOut buffer
  let list := UMap.subscript s1.m_node2ForwardSwapOut node
  { s1 with
      m_buffer2SwapOut := action.2
      m_node2ForwardSwapOut := UMap.assign list.2 node (list.1 ++ [action.1]) }

/-- Body of the inner loop that sets up swap-in actions (lines 167-175), for one `buffer` of
the step `node`. -/
def swapInBuffer (node : Node) (s : SwapManager) (buffer : Buffer) : SwapManager :=
  let s1 : SwapManager :=
    if UMap.countKey s.m_buffer2SwapIn buffer = 0 then
      let swpOut : ActionPtr := s.heap.length + 1
      let swpIn : ActionPtr := s.heap.length + 2
      { s with
          heap := s.heap ++ [ActionObj.SwapOutAction buffer, ActionObj.SwapInAction swpOut buffer]
          m_buffer2SwapOut := UMap.assign s.m_buffer2SwapOut buffer swpOut
          m_buffer2SwapIn := UMap.assign s.m_buffer2SwapIn buffer swpIn }
    else s
  let action := UMap.subscript s1.m_buffer2SwapIn buffer
  let list := UMap.subscript s1.m_node2BackwardSwapin node
  { s1 with
      m_buffer2SwapIn := action.2
      m_node2BackwardSwapin := UMap.assign list.2 node (list.1 ++ [action.1]) }

/-- The loop over the forward-swap-out table (lines 145-159). -/
def setupSwapOut (s : SwapManager) (table : UMap Node (List Buffer)) : SwapManager :=
  table.foldl (fun st pair => pair.2.foldl (swapOutBuffer pair.1) st) s

/-- The loop over the backward-swap-in table (lines 163-177). -/
def setupSwapIn (s : SwapManager) (table : UMap Node (List Buffer)) : SwapManager :=
  table.foldl (fun st pair => pair.2.foldl (swapInBuffer pair.1) st) s

/-- The loop `m_timeStep2Node[pair.second] = pair.first` (lines 185-186). -/
def setupTimeStep2Node (m : UMap Int Node) (node2TimeStep : UMap Node Int) : UMap Int Node :=
  node2TimeStep.foldl (fun acc pair => UMap.assign acc pair.2 pair.1) m

/-- The loop computing `m_maxTimeStep`, started at 0 (lines 188-190). -/
def computeMaxTimeStep (node2TimeStep : UMap Node Int) : Int :=
  node2TimeStep.foldl (fun acc pair => if pair.2 > acc then pair.2 else acc) 0

/-- `InitializeSwapping`.  The result is the state after the call and the events of the
call, or the failure of the cardinality assertion. -/
def InitializeSwapping (s : SwapManager)
    (forwardSwapOutNodes2matrices backwardSwapInNodes2matrices
      lastBackwardNodes2matrices : UMap Node (List Buffer))
    (node2TimeStep : UMap Node Int) : Except Failure (SwapManager × List Event) :=
  let cleared := ClearActionsAndTheirMemory s
  let s1 := setupSwapOut cleared.1 forwardSwapOutNodes2matrices
  let s2 := setupSwapIn s1 backwardSwapInNodes2matrices
  let s3 : SwapManager := { s2 with m_node2BackwardFree := lastBackwardNodes2matrices }
  if UMap.size forwardSwapOutNodes2matrices = UMap.size backwardSwapInNodes2matrices then
    let s4 : SwapManager := { s3 with m_node2TimeStep := node2TimeStep }
    let s5 : SwapManager :=
      { s4 with m_timeStep2Node := setupTimeStep2Node s4.m_timeStep2Node node2TimeStep }
    let s6 : SwapManager := { s5 with m_maxTimeStep := computeMaxTimeStep node2TimeStep }
    Except.ok (s6, cleared.2)
  else
    Except.error Failure.assertionFailed

/-- The events of running a list of actions: each one begun, then ended. -/
def runActions (actions : List ActionPtr) : List Event :=
  actions.flatMap (fun action => [Event.BeginAction action, Event.EndAction action])

/-- `BeginSynchronizeState`: the state afterwards and the events of the call. -/
def BeginSynchronizeState (s : SwapManager) (node : Node) (isForward isTraining : Bool) :
    SwapManager × List Event :=
  if !s.m_useMemorySwapping || !isTraining then (s, [])
  else if !isForward then
    let list := UMap.subscript s.m_node2BackwardSwapin node
    ({ s with m_node2BackwardSwapin := list.2 }, runActions list.1)
  else (s, [])

/-- `EndSynchronizeState`: the state afterwards and the events of the call. -/
def EndSynchronizeState (s : SwapManager) (node : Node) (isForward isTraining : Bool) :
    SwapManager × List Event :=
  if !s.m_useMemorySwapping || !isTraining then (s, [])
  else if isForward then
    let list := UMap.subscript s.m_node2ForwardSwapOut node
    ({ s with m_node2ForwardSwapOut := list.2 }, runActions list.1)
  else
    let list := UMap.subscript s.m_node2BackwardFree node
    ({ s with m_node2BackwardFree := list.2 }, list.1.map Event.Resize)

end SwapManager

/-- A call of one of the public member functions of `SwapManager`. -/
inductive Call where
  | InitializeSwapping (forwardSwapOutNodes2matrices backwardSwapInNodes2matrices
      lastBackwardNodes2matrices : UMap Node (List Buffer)) (node2TimeStep : UMap Node Int)
  | BeginSynchronizeState (node : Node) (isForward isTraining : Bool)
  | EndSynchronizeState (node : Node) (isForward isTraining : Bool)
  | ClearActionsAndTheirMemory

/-- Whether the call is a call of `InitializeSwapping`. -/
def Call.isInitializeSwapping : Call → Bool
  | .InitializeSwapping _ _ _ _ => true
  | _ => false

/-- The effect of one call. -/
def Call.run (s : SwapManager) : Call → Except Failure (SwapManager × List Event)
  | .InitializeSwapping fwd bwd free idx => s.InitializeSwapping fwd bwd free idx
  | .BeginSynchronizeState node isForward isTraining =>
      Except.ok (s.BeginSynchronizeState node isForward isTraining)
  | .EndSynchronizeState node isForward isTraining =>
      Except.ok (s.EndSynchronizeState node isForward isTraining)
  | .ClearActionsAndTheirMemory => Except.ok s.ClearActionsAndTheirMemory

/-- The effect of a sequence of calls, first to last: the final state and the whole trace.
A failed assertion ends the run. -/
def runCalls (s : SwapManager) : List Call → Except Failure (SwapManager × List Event)
  | [] => Except.ok (s, [])
  | c :: cs =>
    match c.run s with
    | Except.error e => Except.error e
    | Except.ok (s1, tr1) =>
      match runCalls s1 cs with
      | Except.error e => Except.error e
      | Except.ok (s2, tr2) => Except.ok (s2, tr1 ++ tr2)

/-- The objects created for a swap-out registry: for every entry, in order, the swap-out action
followed by the swap-in action that refers to it. -/
def createdObjects (out : UMap Buffer ActionPtr) : List ActionObj :=
  out.flatMap (fun p => [ActionObj.SwapOutAction p.1, ActionObj.SwapInAction p.2 p.1])

/-- Consistency of the two registries with each other and with the free store. -/
structure RegOK (s : SwapManager) : Prop where
  keys_eq : UMap.keys s.m_buffer2SwapIn = UMap.keys s.m_buffer2SwapOut
  nodup : (UMap.keys s.m_buffer2SwapOut).Nodup
  linked : ∀ b i, UMap.lookup? s.m_buffer2SwapIn b = some i →
    ∃ o, UMap.lookup? s.m_buffer2SwapOut b = some o ∧
      deref s.heap o = some (ActionObj.SwapOutAction b) ∧
      deref s.heap i = some (ActionObj.SwapInAction o b)

/-- Registry consistency, together with the account of what has been allocated on top of the
free store `pre`. -/
def RegInv (pre : List ActionObj) (s : SwapManager) : Prop :=
  RegOK s ∧ s.heap = pre ++ createdObjects s.m_buffer2SwapOut

/-- Both registries of `s1` extend those of `s`. -/
def RegMono (s s1 : SwapManager) : Prop :=
  (∀ b o, UMap.lookup? s.m_buffer2SwapOut b = some o → UMap.lookup? s1.m_buffer2SwapOut b = some o) ∧
  (∀ b i, UMap.lookup? s.m_buffer2SwapIn b = some i → UMap.lookup? s1.m_buffer2SwapIn b = some i)

/-- The state after `new SwapOutAction(buffer)`, `new SwapInAction(swpOut, buffer)` and the two
registrations. -/
def createPair (s : SwapManager) (buffer : Buffer) : SwapManager :=
  { s with
      heap := s.heap ++ [ActionObj.SwapOutAction buffer,
        ActionObj.SwapInAction (s.heap.length + 1) buffer]
      m_buffer2SwapOut := UMap.assign s.m_buffer2SwapOut buffer (s.heap.length + 1)
      m_buffer2SwapIn := UMap.assign s.m_buffer2SwapIn buffer (s.heap.length + 2) }

/-- A table as the list of its (step, buffer) pairs, in the order the nested loops visit them. -/
def flatten (table : UMap Node (List Buffer)) : List (Node × Buffer) :=
  table.flatMap (fun pair => pair.2.map (fun b => (pair.1, b)))

/-- The buffers paired with step `n` in a list of (step, buffer) pairs. -/
def buffersOf (ps : List (Node × Buffer)) (n : Node) : List Buffer :=
  (ps.filter (fun p => decide (p.1 = n))).map Prod.snd

/-- The list `actions` holds, position by position, the actions that `reg` registers for the
buffers of `buffers` (in particular the two lists have the same length). -/
def Mirrors (reg : UMap Buffer ActionPtr) (actions : List ActionPtr) (buffers : List Buffer) :
    Prop :=
  List.Forall₂ (fun a b => UMap.lookup? reg b = some a) actions buffers

/-- The members that the set-up loops of `InitializeSwapping` do not write are the same in
`s` and `s1`. -/
def SameOutsideSetup (s s1 : SwapManager) : Prop :=
  s1.m_node2BackwardFree = s.m_node2BackwardFree ∧
  s1.m_node2TimeStep = s.m_node2TimeStep ∧
  s1.m_timeStep2Node = s.m_timeStep2Node ∧
  s1.m_useMemorySwapping = s.m_useMemorySwapping ∧
  s1.m_freeMemoryBase = s.m_freeMemoryBase ∧
  s1.m_totalMemoryBase = s.m_totalMemoryBase ∧
  s1.m_maxTimeStep = s.m_maxTimeStep

/-- The value `m` is the maximum of the time-steps occurring in the table `idx`. -/
def IsMaxTimeStep (idx : UMap Node Int) (m : Int) : Prop :=
  (∃ p ∈ idx, p.2 = m) ∧ ∀ p ∈ idx, p.2 ≤ m

/-- The buffer `b` is listed for some step of the table. -/
def OccursIn (b : Buffer) (table : UMap Node (List Buffer)) : Prop :=
  ∃ p ∈ table, b ∈ p.2

/-- Every buffer listed for swap-out at some forward step is listed for swap-in at some
backward step. -/
def EverySwapOutHasSwapIn (fwd bwd : UMap Node (List Buffer)) : Prop :=
  ∀ p ∈ fwd, ∀ b ∈ p.2, OccursIn b bwd

/-- Whether a call hands no buffer to the set-up loops: true for every call except an
`InitializeSwapping` whose forward or backward table lists a buffer. -/
def Call.listsNoBuffer : Call → Bool
  | .InitializeSwapping fwd bwd _ _ =>
      fwd.all (fun p => p.2.isEmpty) && bwd.all (fun p => p.2.isEmpty)
  | _ => true

/-- The state after `InitializeSwapping` on a newly constructed scheduler (swapping enabled, no
memory reported) with forward table `1 ↦ [10, 11, 10], 2 ↦ [11]`, backward table
`2 ↦ [10], 1 ↦ [11]`, free table `1 ↦ [12]` and time-steps `1 ↦ 0, 2 ↦ 1`. -/
def exampleSchedule : SwapManager where
  m_buffer2SwapIn := [(10, 2), (11, 4)]
  m_buffer2SwapOut := [(10, 1), (11, 3)]
  m_node2ForwardSwapOut := [(1, [1, 3, 1]), (2, [3])]
  m_node2BackwardSwapin := [(2, [2]), (1, [4])]
  m_node2BackwardFree := [(1, [12])]
  m_node2TimeStep := [(1, 0), (2, 1)]
  m_timeStep2Node := [(0, 1), (1, 2)]
  m_useMemorySwapping := true
  m_freeMemoryBase := SwapManager.Bytes2GB 0
  m_totalMemoryBase := SwapManager.Bytes2GB 0
  m_maxTimeStep := 1
  heap := [ActionObj.SwapOutAction 10, ActionObj.SwapInAction 1 10,
    ActionObj.SwapOutAction 11, ActionObj.SwapInAction 3 11]

/-- Swapping is disabled and the scheduler holds no action: both registries and both per-step
action tables are empty. -/
def DisabledAndEmpty (s : SwapManager) : Prop :=
  s.m_useMemorySwapping = false ∧ s.m_buffer2SwapIn = [] ∧ s.m_buffer2SwapOut = [] ∧
  s.m_node2ForwardSwapOut = [] ∧ s.m_node2BackwardSwapin = []

/-- One assignment `step2CumulativeMemory[i] = value` of `CumulativeMemory`, with the mode the
loop was in when it visited the time-step. -/
structure Visit where
  timeStep : Int
  forwardMode : Bool
  value : ℚ

/-- The local variables of `CumulativeMemory` at the loop head, the scheduler (which the loop
changes through `operator[]`), and the record of the visits made so far. -/
structure CumulativeMemoryLoop where
  s : SwapManager
  i : Int
  forwardMode : Bool
  swapInSize : ℚ
  swapOutSize : ℚ
  freedSize : ℚ
  step2CumulativeMemory : UMap Int ℚ
  visits : List Visit

namespace SwapManager

/-- `action->GetGPUMatrix()`: the target buffer of the action object at `action`. -/
def GetGPUMatrix (heap : List ActionObj) (action : ActionPtr) : Except Failure Buffer :=
  match deref heap action with
  | some obj => Except.ok obj.buffer
  | none => Except.error Failure.invalidPointer

/-- The loops `for (auto a : list) size += Bytes2GB(a->GetGPUMatrix()->BufferSize())` over a
list of actions (lines 113-114 and 118-119); `BufferSize` gives the byte size of a buffer. -/
def addActionSizes (BufferSize : Buffer → Nat) (heap : List ActionObj) :
    ℚ → List ActionPtr → Except Failure ℚ
  | size, [] => Except.ok size
  | size, action :: rest =>
    match GetGPUMatrix heap action with
    | Except.error e => Except.error e
    | Except.ok matrix => addActionSizes BufferSize heap (size + Bytes2GB (BufferSize matrix)) rest

/-- The loop `for (auto freed : list) freedSize += Bytes2GB(freed->BufferSize())`
(lines 121-122). -/
def addBufferSizes (BufferSize : Buffer → Nat) (size : ℚ) (list : List Buffer) : ℚ :=
  list.foldl (fun acc freed => acc + Bytes2GB (BufferSize freed)) size

/-- Lines 125-129: the assignment to `step2CumulativeMemory[i]`, the test of
`m_timeStep2Node.count(i+1)` and the step of `i`, given the scheduler and the three running
sizes after the accumulation of this iteration. -/
def cumulativeMemoryAdvance (st : CumulativeMemoryLoop) (s1 : SwapManager)
    (swapInSize swapOutSize freedSize : ℚ) : CumulativeMemoryLoop :=
  let value : ℚ := s1.m_freeMemoryBase + swapInSize - swapOutSize - freedSize
  let forwardMode : Bool :=
    if UMap.countKey s1.m_timeStep2Node (st.i + 1) = 0 then false else st.forwardMode
  { s := s1
    i := if forwardMode then st.i + 1 else st.i - 1
    forwardMode := forwardMode
    swapInSize := swapInSize
    swapOutSize := swapOutSize
    freedSize := freedSize
    step2CumulativeMemory := UMap.assign st.step2CumulativeMemory st.i value
    visits := st.visits ++ [{ timeStep := st.i, forwardMode := st.forwardMode, value := value }] }

/-- One pass through the body of the `while` loop of `CumulativeMemory` (lines 109-129). -/
def cumulativeMemoryBody (BufferSize : Buffer → Nat) (st : CumulativeMemoryLoop) :
    Except Failure CumulativeMemoryLoop :=
  let node := UMap.subscript st.s.m_timeStep2Node st.i
  let s1 : SwapManager := { st.s with m_timeStep2Node := node.2 }
  if st.forwardMode then
    let list := UMap.subscript s1.m_node2ForwardSwapOut node.1
    let s2 : SwapManager := { s1 with m_node2ForwardSwapOut := list.2 }
    match addActionSizes BufferSize s2.heap st.swapOutSize list.1 with
    | Except.error e => Except.error e
    | Except.ok swapOutSize =>
      Except.ok (cumulativeMemoryAdvance st s2 st.swapInSize swapOutSize st.freedSize)
  else
    let list := UMap.subscript s1.m_node2BackwardSwapin node.1
    let s2 : SwapManager := { s1 with m_node2BackwardSwapin := list.2 }
    match addActionSizes BufferSize s2.heap st.swapInSize list.1 with
    | Except.error e => Except.error e
    | Except.ok swapInSize =>
      let freed := UMap.subscript s2.m_node2BackwardFree node.1
      let s3 : SwapManager := { s2 with m_node2BackwardFree := freed.2 }
      Except.ok (cumulativeMemoryAdvance st s3 swapInSize st.swapOutSize
        (addBufferSizes BufferSize st.freedSize freed.1))

/-- The loop `while (i != endStep)`, run for at most `fuel` iterations: `none` when the fuel
is used up before the loop ends, otherwise the failure or the state at the exit of the loop. -/
def cumulativeMemoryLoop (BufferSize : Buffer → Nat) (endStep : Int) :
    Nat → CumulativeMemoryLoop → Option (Except Failure CumulativeMemoryLoop)
  | 0, st => if st.i = endStep then some (Except.ok st) else none
  | fuel + 1, st =>
    if st.i = endStep then some (Except.ok st)
    else
      match cumulativeMemoryBody BufferSize st with
      | Except.error e => some (Except.error e)
      | Except.ok st1 => cumulativeMemoryLoop BufferSize endStep fuel st1

/-- `CumulativeMemory(startStep, endStep)`, its loop run for at most `fuel` iterations.  The
returned mapping is the field `step2CumulativeMemory` of the result; the result also holds the
scheduler after the call and the record of the visits. -/
def CumulativeMemory (s : SwapManager) (BufferSize : Buffer → Nat) (fuel : Nat)
    (startStep endStep : Int) : Option (Except Failure CumulativeMemoryLoop) :=
  if ¬ endStep ≤ s.m_maxTimeStep then some (Except.error Failure.assertionFailed)
  else if ¬ startStep ≤ s.m_maxTimeStep then some (Except.error Failure.assertionFailed)
  else
    cumulativeMemoryLoop BufferSize endStep fuel
      { s := s
        i := startStep
        forwardMode := if startStep = s.m_maxTimeStep then false else true
        swapInSize := 0
        swapOutSize := 0
        freedSize := 0
        step2CumulativeMemory := []
        visits := [] }

end SwapManager

/-- Modelled from the spec: `Matrix::Resize(0,0,0,false)` (the class `Matrix` is not part of the
sources) resizes the buffer to zero extent and leaves every other buffer alone; the calls on
actions do not change the extent of a buffer.  `extent` gives the extent of each buffer. -/
def applyEvent (extent : Buffer → Nat) : Event → Buffer → Nat
  | Event.Resize matrix => fun b => if b = matrix then 0 else extent b
  | _ => extent

/-- The extents after a trace of events. -/
def applyTrace (extent : Buffer → Nat) (trace : List Event) : Buffer → Nat :=
  trace.foldl applyEvent extent

/-- Every entry of a forward-swap-out list points to a swap-out action object and every entry
of a backward-swap-in list points to a swap-in action object. -/
def ActionsValid (s : SwapManager) : Prop :=
  (∀ n, ∀ a ∈ UMap.lookupD s.m_node2ForwardSwapOut n,
    ∃ b, deref s.heap a = some (ActionObj.SwapOutAction b)) ∧
  (∀ n, ∀ a ∈ UMap.lookupD s.m_node2BackwardSwapin n,
    ∃ o b, deref s.heap a = some (ActionObj.SwapInAction o b))

/-- What a hook may change in going from `s` to `s1` on behalf of the step `node`: nothing
but the addition, to a per-step table, of an empty entry for `node`.  The registries, the
step/time-step index in both directions and the free store are the same, and every table is
the same or has gained the entry `(node, [])` at its end. -/
def SameUpToEmptyEntry (node : Node) (s s1 : SwapManager) : Prop :=
  s1.m_buffer2SwapIn = s.m_buffer2SwapIn ∧
  s1.m_buffer2SwapOut = s.m_buffer2SwapOut ∧
  s1.m_node2TimeStep = s.m_node2TimeStep ∧
  s1.m_timeStep2Node = s.m_timeStep2Node ∧
  s1.heap = s.heap ∧
  (s1.m_node2ForwardSwapOut = s.m_node2ForwardSwapOut ∨
    s1.m_node2ForwardSwapOut = s.m_node2ForwardSwapOut ++ [(node, [])]) ∧
  (s1.m_node2BackwardSwapin = s.m_node2BackwardSwapin ∨
    s1.m_node2BackwardSwapin = s.m_node2BackwardSwapin ++ [(node, [])]) ∧
  (s1.m_node2BackwardFree = s.m_node2BackwardFree ∨
    s1.m_node2BackwardFree = s.m_node2BackwardFree ++ [(node, [])]) ∧
  (∀ n, UMap.lookupD s1.m_node2ForwardSwapOut n = UMap.lookupD s.m_node2ForwardSwapOut n) ∧
  (∀ n, UMap.lookupD s1.m_node2BackwardSwapin n = UMap.lookupD s.m_node2BackwardSwapin n) ∧
  (∀ n, UMap.lookupD s1.m_node2BackwardFree n = UMap.lookupD s.m_node2BackwardFree n)

/-- The step that the loop of `CumulativeMemory` reads for the time-step `i`:
`m_timeStep2Node[i]`, the null pointer when `i` has no entry. -/
def nodeOfTimeStep (s : SwapManager) (i : Int) : Node := UMap.lookupD s.m_timeStep2Node i

/-- The scheduler after the uses of `operator[]` of a forward-mode iteration at `i`. -/
def stateAfterForwardVisit (s : SwapManager) (i : Int) : SwapManager :=
  { s with
      m_timeStep2Node := (UMap.subscript s.m_timeStep2Node i).2
      m_node2ForwardSwapOut := (UMap.subscript s.m_node2ForwardSwapOut (nodeOfTimeStep s i)).2 }

/-- The scheduler after the uses of `operator[]` of a backward-mode iteration at `i`. -/
def stateAfterBackwardVisit (s : SwapManager) (i : Int) : SwapManager :=
  { s with
      m_timeStep2Node := (UMap.subscript s.m_timeStep2Node i).2
      m_node2BackwardSwapin := (UMap.subscript s.m_node2BackwardSwapin (nodeOfTimeStep s i)).2
      m_node2BackwardFree := (UMap.subscript s.m_node2BackwardFree (nodeOfTimeStep s i)).2 }

/-- The size in gigabytes of the target buffers of a list of actions, summed. -/
def sizeOfActions (BufferSize : Buffer → Nat) (heap : List ActionObj) (l : List ActionPtr) : ℚ :=
  (l.map (fun a =>
    match deref heap a with
    | some obj => SwapManager.Bytes2GB (BufferSize obj.buffer)
    | none => 0)).sum

/-- The size in gigabytes of a list of buffers, summed. -/
def sizeOfBuffers (BufferSize : Buffer → Nat) (l : List Buffer) : ℚ :=
  (l.map (fun b => SwapManager.Bytes2GB (BufferSize b))).sum

/-- What a visit adds to the swapped-out total: for a forward-mode visit the sizes of the
buffers of the step's forward-swap-out list, for a backward-mode visit nothing. -/
def swapOutOfVisit (s : SwapManager) (BufferSize : Buffer → Nat) (v : Visit) : ℚ :=
  if v.forwardMode then
    sizeOfActions BufferSize s.heap
      (UMap.lookupD s.m_node2ForwardSwapOut (nodeOfTimeStep s v.timeStep))
  else 0

/-- What a visit adds to the swapped-in total: for a backward-mode visit the sizes of the
buffers of the step's backward-swap-in list, for a forward-mode visit nothing. -/
def swapInOfVisit (s : SwapManager) (BufferSize : Buffer → Nat) (v : Visit) : ℚ :=
  if v.forwardMode then 0
  else
    sizeOfActions BufferSize s.heap
      (UMap.lookupD s.m_node2BackwardSwapin (nodeOfTimeStep s v.timeStep))

/-- What a visit adds to the freed total: for a backward-mode visit the sizes of the buffers
of the step's free list, for a forward-mode visit nothing. -/
def freedOfVisit (s : SwapManager) (BufferSize : Buffer → Nat) (v : Visit) : ℚ :=
  if v.forwardMode then 0
  else sizeOfBuffers BufferSize (UMap.lookupD s.m_node2BackwardFree (nodeOfTimeStep s v.timeStep))

/-- The swapped-out total of a sequence of visits. -/
def cumulativeSwapOut (s : SwapManager) (BufferSize : Buffer → Nat) (vs : List Visit) : ℚ :=
  (vs.map (swapOutOfVisit s BufferSize)).sum

/-- The swapped-in total of a sequence of visits. -/
def cumulativeSwapIn (s : SwapManager) (BufferSize : Buffer → Nat) (vs : List Visit) : ℚ :=
  (vs.map (swapInOfVisit s BufferSize)).sum

/-- The freed total of a sequence of visits. -/
def cumulativeFreed (s : SwapManager) (BufferSize : Buffer → Nat) (vs : List Visit) : ℚ :=
  (vs.map (freedOfVisit s BufferSize)).sum

/-- The value recorded by the last visit of the time-step `i`, if `i` was visited. -/
def lastValue (vs : List Visit) (i : Int) : Option ℚ :=
  ((vs.filter (fun v => decide (v.timeStep = i))).getLast?).map Visit.value

/-- The time-steps and modes of a sequence of visits. -/
def visitOrder (vs : List Visit) : List (Int × Bool) :=
  vs.map (fun v => (v.timeStep, v.forwardMode))

/-- The scheduler `s1` reads like `s`: same free store and baseline, and the same value for
every lookup in the time-step index and in the three per-step tables. -/
def ReadsLike (s s1 : SwapManager) : Prop :=
  s1.heap = s.heap ∧
  s1.m_freeMemoryBase = s.m_freeMemoryBase ∧
  (∀ i, UMap.lookupD s1.m_timeStep2Node i = UMap.lookupD s.m_timeStep2Node i) ∧
  (∀ n, UMap.lookupD s1.m_node2ForwardSwapOut n = UMap.lookupD s.m_node2ForwardSwapOut n) ∧
  (∀ n, UMap.lookupD s1.m_node2BackwardSwapin n = UMap.lookupD s.m_node2BackwardSwapin n) ∧
  (∀ n, UMap.lookupD s1.m_node2BackwardFree n = UMap.lookupD s.m_node2BackwardFree n)

/-- The accumulation invariant of the loop of `CumulativeMemory`, relative to the scheduler
`s` at the call: the running sizes are the totals of the visits made, every recorded value is
the baseline plus swapped-in minus swapped-out minus freed total of the visits up to and
including its own, and the mapping holds for each time-step the value of its last visit. -/
def AccumulationInv (s : SwapManager) (BufferSize : Buffer → Nat) (st : CumulativeMemoryLoop) :
    Prop :=
  ReadsLike s st.s ∧
  st.swapInSize = cumulativeSwapIn s BufferSize st.visits ∧
  st.swapOutSize = cumulativeSwapOut s BufferSize st.visits ∧
  st.freedSize = cumulativeFreed s BufferSize st.visits ∧
  (∀ pre v post, st.visits = pre ++ v :: post →
    v.value = s.m_freeMemoryBase + cumulativeSwapIn s BufferSize (pre ++ [v])
      - cumulativeSwapOut s BufferSize (pre ++ [v]) - cumulativeFreed s BufferSize (pre ++ [v])) ∧
  (∀ i, UMap.lookup? st.step2CumulativeMemory i = lastValue st.visits i)

/-- The time-step index of `s` holds exactly the time-steps `0, …, m_maxTimeStep`. -/
def IndexIsRange (s : SwapManager) : Prop :=
  ∀ i, i ∈ UMap.keys s.m_timeStep2Node ↔ 0 ≤ i ∧ i ≤ s.m_maxTimeStep

/-- The control invariant of the loop of `CumulativeMemory`, relative to the scheduler `s` at
the call: the time-step index has not been changed, the scheduler reads like `s`, and every
visit made was of a time-step in `[0, m_maxTimeStep]`. -/
def ControlInv (s : SwapManager) (st : CumulativeMemoryLoop) : Prop :=
  st.s.m_timeStep2Node = s.m_timeStep2Node ∧
  ReadsLike s st.s ∧
  ∀ v ∈ st.visits, 0 ≤ v.timeStep ∧ v.timeStep ≤ s.m_maxTimeStep

/-- The state of the loop of `CumulativeMemory` at its first test. -/
def cumulativeMemoryStart (s : SwapManager) (startStep : Int) : CumulativeMemoryLoop :=
  { s := s
    i := startStep
    forwardMode := if startStep = s.m_maxTimeStep then false else true
    swapInSize := 0
    swapOutSize := 0
    freedSize := 0
    step2CumulativeMemory := []
    visits := [] }

/-- Every action pointer that the visit `v` reads (the forward-swap-out list of its step for a
forward-mode visit, the backward-swap-in list for a backward-mode visit) refers to an action
object of the free store. -/
def VisitReadsObjects (s : SwapManager) (v : Visit) : Prop :=
  (v.forwardMode = true →
    ∀ a ∈ UMap.lookupD s.m_node2ForwardSwapOut (nodeOfTimeStep s v.timeStep),
      ∃ obj, deref s.heap a = some obj) ∧
  (v.forwardMode = false →
    ∀ a ∈ UMap.lookupD s.m_node2BackwardSwapin (nodeOfTimeStep s v.timeStep),
      ∃ obj, deref s.heap a = some obj)

/-- The invariant of the loop of `CumulativeMemory` on a scheduler `s` whose per-step tables
are empty: nothing has been accumulated and every value of the mapping is the baseline. -/
def BaselineInv (s : SwapManager) (st : CumulativeMemoryLoop) : Prop :=
  ReadsLike s st.s ∧ st.swapInSize = 0 ∧ st.swapOutSize = 0 ∧ st.freedSize = 0 ∧
  ∀ p ∈ st.step2CumulativeMemory, p.2 = s.m_freeMemoryBase

/-- The scheduler of the concrete scenario: baseline free memory 8 GB; step 1 has time-step 0
and step 2 has time-step 1; the forward visit of step 1 swaps out buffer 10, its backward visit
frees buffer 12 and swaps nothing in.  It is the state after `InitializeSwapping` with forward
table `1 ↦ [10]`, backward table `1 ↦ []`, free table `1 ↦ [12]` and time-steps
`1 ↦ 0, 2 ↦ 1` on a new scheduler. -/
def scenarioSchedule : SwapManager where
  m_buffer2SwapIn := [(10, 2)]
  m_buffer2SwapOut := [(10, 1)]
  m_node2ForwardSwapOut := [(1, [1])]
  m_node2BackwardSwapin := []
  m_node2BackwardFree := [(1, [12])]
  m_node2TimeStep := [(1, 0), (2, 1)]
  m_timeStep2Node := [(0, 1), (1, 2)]
  m_useMemorySwapping := true
  m_freeMemoryBase := SwapManager.Bytes2GB (8 * 1024 * 1024 * 1024)
  m_totalMemoryBase := SwapManager.Bytes2GB (8 * 1024 * 1024 * 1024)
  m_maxTimeStep := 1
  heap := [ActionObj.SwapOutAction 10, ActionObj.SwapInAction 1 10]

/-- The buffer sizes of the concrete scenario: buffer 10 has 2 GB, buffer 12 has 1 GB. -/
def scenarioBufferSize : Buffer → Nat := fun b =>
  if b = 10 then 2 * 1024 * 1024 * 1024 else if b = 12 then 1024 * 1024 * 1024 else 0

/-- The loop `while (i != endStep)` of `CumulativeMemory` observed after at most `n`
iterations: the state at the exit of the loop when the loop ends within `n` iterations,
otherwise the state at the loop head after the n-th iteration; or the failure met on the
way. -/
def cumulativeMemoryIterate (BufferSize : Buffer → Nat) (endStep : Int) :
    Nat → CumulativeMemoryLoop → Except Failure CumulativeMemoryLoop
  | 0, st => Except.ok st
  | n + 1, st =>
    if st.i = endStep then Except.ok st
    else
      match SwapManager.cumulativeMemoryBody BufferSize st with
      | Except.error e => Except.error e
      | Except.ok st1 => cumulativeMemoryIterate BufferSize endStep n st1

/-- The accumulation rule for a state of the loop of `CumulativeMemory` called on the
scheduler `s`: the value stored at every visit made so far is the baseline plus the
swapped-in total minus the swapped-out total minus the freed total of the visits up to and
including that visit; the mapping holds for every time-step the value of its last visit (and
no entry for a time-step not visited); and every action pointer read by a visit was valid. -/
def AccumulationRule (s : SwapManager) (BufferSize : Buffer → Nat) (st : CumulativeMemoryLoop) :
    Prop :=
  (∀ pre v post, st.visits = pre ++ v :: post →
    v.value = s.m_freeMemoryBase + cumulativeSwapIn s BufferSize (pre ++ [v])
      - cumulativeSwapOut s BufferSize (pre ++ [v]) - cumulativeFreed s BufferSize (pre ++ [v])) ∧
  (∀ i, UMap.lookup? st.step2CumulativeMemory i = lastValue st.visits i) ∧
  (∀ v ∈ st.visits, VisitReadsObjects s v)

/-- The state after `InitializeSwapping` on a new scheduler with the tables of the example
schedule and the time-steps `1 ↦ 0, 2 ↦ 1, 3 ↦ 3`: the time-step index `0, 1, 3` has a gap
at 2. -/
def gappedSchedule : SwapManager where
  m_buffer2SwapIn := [(10, 2), (11, 4)]
  m_buffer2SwapOut := [(10, 1), (11, 3)]
  m_node2ForwardSwapOut := [(1, [1, 3, 1]), (2, [3])]
  m_node2BackwardSwapin := [(2, [2]), (1, [4])]
  m_node2BackwardFree := [(1, [12])]
  m_node2TimeStep := [(1, 0), (2, 1), (3, 3)]
  m_timeStep2Node := [(0, 1), (1, 2), (3, 3)]
  m_useMemorySwapping := true
  m_freeMemoryBase := SwapManager.Bytes2GB 0
  m_totalMemoryBase := SwapManager.Bytes2GB 0
  m_maxTimeStep := 3
  heap := [ActionObj.SwapOutAction 10, ActionObj.SwapInAction 1 10,
    ActionObj.SwapOutAction 11, ActionObj.SwapInAction 3 11]

open UMap SwapManager

namespace UMap
variable {K V : Type} [DecidableEq K]

theorem lookup?_eq_none_iff (m : UMap K V) (k : K) : lookup? m k = none ↔ k ∉ keys m := by
  induction m with
  | nil => simp [lookup?, keys]
  | cons p m ih =>
    obtain ⟨k', v⟩ := p
    by_cases h : k' = k
    · simp [lookup?, keys, h]
    · have h' : ¬ k = k' := fun e => h e.symm
      simpa [lookup?, keys, h, h'] using ih

theorem countKey_eq_zero_iff (m : UMap K V) (k : K) : countKey m k = 0 ↔ lookup? m k = none := by
  unfold countKey
  cases lookup? m k <;> simp

theorem lookup?_assign_self (m : UMap K V) (k : K) (v : V) : lookup? (assign m k v) k = some v := by
  induction m with
  | nil => simp [assign, lookup?]
  | cons p m ih =>
    obtain ⟨k', v'⟩ := p
    by_cases h : k' = k
    · simp [assign, lookup?, h]
    · simp [assign, lookup?, h, ih]

theorem lookup?_assign_ne (m : UMap K V) (k k' : K) (v : V) (h : k' ≠ k) :
    lookup? (assign m k v) k' = lookup? m k' := by
  induction m with
  | nil =>
    have : ¬ k = k' := fun e => h e.symm
    simp [assign, lookup?, this]
  | cons p m ih =>
    obtain ⟨k₁, v₁⟩ := p
    by_cases h₁ : k₁ = k
    · subst h₁
      have : ¬ k₁ = k' := fun e => h e.symm
      simp [assign, lookup?, this]
    · by_cases h₂ : k₁ = k'
      · subst h₂
        simp [assign, lookup?, h₁]
      · simp [assign, lookup?, h₁, h₂, ih]

theorem assign_of_lookup?_none (m : UMap K V) (k : K) (v : V) (h : lookup? m k = none) :
    assign m k v = m ++ [(k, v)] := by
  induction m with
  | nil => rfl
  | cons p m ih =>
    obtain ⟨k', v'⟩ := p
    by_cases h' : k' = k
    · simp [lookup?, h'] at h
    · simp only [lookup?, h', if_false] at h
      simp [assign, h', ih h]

theorem keys_assign_of_lookup?_some (m : UMap K V) (k : K) (v w : V) (h : lookup? m k = some w) :
    keys (assign m k v) = keys m := by
  induction m with
  | nil => simp [lookup?] at h
  | cons p m ih =>
    obtain ⟨k', v'⟩ := p
    by_cases h' : k' = k
    · simp [assign, keys, h']
    · simp only [lookup?, h', if_false] at h
      have := ih h
      simp only [keys] at this
      simp [assign, keys, h', this]

theorem subscript_of_lookup?_some [Inhabited V] (m : UMap K V) (k : K) (v : V)
    (h : lookup? m k = some v) : subscript m k = (v, m) := by
  simp [subscript, h]

theorem subscript_of_lookup?_none [Inhabited V] (m : UMap K V) (k : K)
    (h : lookup? m k = none) : subscript m k = (default, m ++ [(k, default)]) := by
  simp [subscript, h]

theorem lookup?_append_of_none (m m' : UMap K V) (k : K) (h : lookup? m k = none) :
    lookup? (m ++ m') k = lookup? m' k := by
  induction m with
  | nil => rfl
  | cons p m ih =>
    obtain ⟨k', v'⟩ := p
    by_cases h' : k' = k
    · simp [lookup?, h'] at h
    · simp only [lookup?, h', if_false] at h
      simp [lookup?, h', ih h]

theorem lookup?_append_of_some (m m' : UMap K V) (k : K) (v : V) (h : lookup? m k = some v) :
    lookup? (m ++ m') k = some v := by
  induction m with
  | nil => simp [lookup?] at h
  | cons p m ih =>
    obtain ⟨k', v'⟩ := p
    by_cases h' : k' = k
    · simpa [lookup?, h'] using h
    · simp only [lookup?, h', if_false] at h
      simp [lookup?, h', ih h]

/-- Appending to the list stored under `n` (the effect of `m[n].push_back(x)`). -/
theorem lookupD_push (m : UMap K (List V)) (n n' : K) (x : V) :
    lookupD (assign (subscript m n).2 n ((subscript m n).1 ++ [x])) n' =
      if n' = n then lookupD m n ++ [x] else lookupD m n' := by
  by_cases h : n' = n
  · subst h
    simp only [lookupD, lookup?_assign_self, if_true, Option.getD_some]
    cases hm : lookup? m n' with
    | none => simp [subscript, hm]
    | some v => simp [subscript, hm]
  · simp only [lookupD, lookup?_assign_ne _ _ _ _ h, if_neg h]
    cases hm : lookup? m n with
    | none =>
      simp only [subscript, hm]
      cases hm' : lookup? m n' with
      | none =>
        rw [lookup?_append_of_none _ _ _ hm']
        have : ¬ n = n' := fun e => h e.symm
        simp [lookup?, this]
      | some v => rw [lookup?_append_of_some _ _ _ _ hm']
    | some v => simp [subscript, hm]

theorem filter_key_of_lookup? (m : UMap K V) (k : K) (v : V) (hn : (keys m).Nodup)
    (h : lookup? m k = some v) : m.filter (fun p => decide (p.1 = k)) = [(k, v)] := by
  induction m with
  | nil => simp [lookup?] at h
  | cons p m ih =>
    obtain ⟨k', v'⟩ := p
    simp only [keys, List.map_cons, List.nodup_cons] at hn
    by_cases h' : k' = k
    · subst h'
      simp only [lookup?, if_true, Option.some.injEq] at h
      subst h
      have : ∀ q ∈ m, ¬ q.1 = k' := by
        intro q hq e
        exact hn.1 (List.mem_map.2 ⟨q, hq, e⟩)
      have this' : ∀ (a : K) (b : V), (a, b) ∈ m → ¬ a = k' := fun a b hab => this (a, b) hab
      simp only [List.filter_cons, decide_True, if_true, List.cons.injEq, true_and,
        List.filter_eq_nil_iff, decide_eq_true_eq]
      exact this
    · simp only [lookup?, h', if_false] at h
      simp [List.filter_cons, h', ih hn.2 h]

end UMap

theorem deref_append {heap : List ActionObj} {p : ActionPtr} {x : ActionObj} (t : List ActionObj)
    (h : deref heap p = some x) : deref (heap ++ t) p = some x := by
  cases p with
  | zero => simp [deref] at h
  | succ p =>
    simp only [deref] at h ⊢
    have hlt : p < heap.length := by
      by_contra hc
      rw [List.getElem?_eq_none (by omega)] at h
      cases h
    rw [List.getElem?_append_left hlt]
    exact h

theorem deref_append_fst (heap : List ActionObj) (x y : ActionObj) :
    deref (heap ++ [x, y]) (heap.length + 1) = some x := by
  show (heap ++ [x, y])[heap.length]? = some x
  rw [List.getElem?_append_right (le_refl _)]
  simp

theorem deref_append_snd (heap : List ActionObj) (x y : ActionObj) :
    deref (heap ++ [x, y]) (heap.length + 2) = some y := by
  show (heap ++ [x, y])[heap.length + 1]? = some y
  rw [List.getElem?_append_right (by omega)]
  simp

theorem keys_append {K V : Type} (m m' : UMap K V) : keys (m ++ m') = keys m ++ keys m' := by
  simp [keys]

theorem regMono_refl (s : SwapManager) : RegMono s s := ⟨fun _ _ h => h, fun _ _ h => h⟩

theorem regMono_trans {s s1 s2 : SwapManager} (h1 : RegMono s s1) (h2 : RegMono s1 s2) :
    RegMono s s2 :=
  ⟨fun b o h => h2.1 b o (h1.1 b o h), fun b i h => h2.2 b i (h1.2 b i h)⟩

theorem regOK_lookup_in_none {s : SwapManager} (h : RegOK s) (b : Buffer) :
    lookup? s.m_buffer2SwapIn b = none ↔ lookup? s.m_buffer2SwapOut b = none := by
  rw [lookup?_eq_none_iff, lookup?_eq_none_iff, h.keys_eq]

theorem createPair_spec (pre : List ActionObj) (s : SwapManager) (b : Buffer)
    (h : RegInv pre s) (hb : lookup? s.m_buffer2SwapOut b = none) :
    RegInv pre (createPair s b) ∧ RegMono s (createPair s b) ∧
      lookup? (createPair s b).m_buffer2SwapOut b = some (s.heap.length + 1) ∧
      lookup? (createPair s b).m_buffer2SwapIn b = some (s.heap.length + 2) := by
  obtain ⟨hok, hheap⟩ := h
  have hbi : lookup? s.m_buffer2SwapIn b = none := (regOK_lookup_in_none hok b).2 hb
  have hout : (createPair s b).m_buffer2SwapOut = s.m_buffer2SwapOut ++ [(b, s.heap.length + 1)] :=
    assign_of_lookup?_none _ _ _ hb
  have hin : (createPair s b).m_buffer2SwapIn = s.m_buffer2SwapIn ++ [(b, s.heap.length + 2)] :=
    assign_of_lookup?_none _ _ _ hbi
  have hhp : (createPair s b).heap = s.heap ++ [ActionObj.SwapOutAction b,
      ActionObj.SwapInAction (s.heap.length + 1) b] := rfl
  have hmono : RegMono s (createPair s b) := by
    constructor
    · intro b' o ho
      rw [hout]; exact lookup?_append_of_some _ _ _ _ ho
    · intro b' i hi
      rw [hin]; exact lookup?_append_of_some _ _ _ _ hi
  have hbo : lookup? (createPair s b).m_buffer2SwapOut b = some (s.heap.length + 1) :=
    lookup?_assign_self _ _ _
  have hbin : lookup? (createPair s b).m_buffer2SwapIn b = some (s.heap.length + 2) :=
    lookup?_assign_self _ _ _
  refine ⟨⟨⟨?_, ?_, ?_⟩, ?_⟩, hmono, hbo, hbin⟩
  · rw [hout, hin, keys_append, keys_append, hok.keys_eq]; rfl
  · rw [hout, keys_append]
    have hnot : b ∉ keys s.m_buffer2SwapOut := (lookup?_eq_none_iff _ _).1 hb
    have : keys ([(b, s.heap.length + 1)] : UMap Buffer ActionPtr) = [b] := rfl
    rw [this]
    exact List.Nodup.append hok.nodup (List.nodup_singleton b) (by simpa using hnot)
  · intro b' i hi
    by_cases hbb : b' = b
    · subst hbb
      rw [hbin] at hi
      cases hi
      exact ⟨_, hbo, by rw [hhp]; exact deref_append_fst _ _ _,
        by rw [hhp]; exact deref_append_snd _ _ _⟩
    · have hi' : lookup? s.m_buffer2SwapIn b' = some i := by
        have := lookup?_assign_ne s.m_buffer2SwapIn b b' (s.heap.length + 2) hbb
        rw [← this]; exact hi
      obtain ⟨o, ho, hd1, hd2⟩ := hok.linked b' i hi'
      exact ⟨o, hmono.1 b' o ho, by rw [hhp]; exact deref_append _ hd1,
        by rw [hhp]; exact deref_append _ hd2⟩
  · rw [hhp, hout, hheap]
    simp [createdObjects, hheap]

theorem swapOutBuffer_of_some (n : Node) (s : SwapManager) (b : Buffer) (o : ActionPtr)
    (h : lookup? s.m_buffer2SwapOut b = some o) :
    swapOutBuffer n s b = { s with
      m_node2ForwardSwapOut := assign (subscript s.m_node2ForwardSwapOut n).2 n
        ((subscript s.m_node2ForwardSwapOut n).1 ++ [o]) } := by
  have hc : countKey s.m_buffer2SwapOut b ≠ 0 := by
    rw [Ne, countKey_eq_zero_iff, h]; simp
  simp only [swapOutBuffer, if_neg hc, subscript_of_lookup?_some _ _ _ h]

theorem swapOutBuffer_of_none (n : Node) (s : SwapManager) (b : Buffer)
    (h : lookup? s.m_buffer2SwapOut b = none) :
    swapOutBuffer n s b = { createPair s b with
      m_node2ForwardSwapOut := assign (subscript s.m_node2ForwardSwapOut n).2 n
        ((subscript s.m_node2ForwardSwapOut n).1 ++ [s.heap.length + 1]) } := by
  have hc : countKey s.m_buffer2SwapOut b = 0 := (countKey_eq_zero_iff _ _).2 h
  have hs : lookup? (assign s.m_buffer2SwapOut b (s.heap.length + 1)) b = some (s.heap.length + 1) :=
    lookup?_assign_self _ _ _
  simp only [swapOutBuffer, if_pos hc, subscript_of_lookup?_some _ _ _ hs, createPair]

theorem swapInBuffer_of_some (n : Node) (s : SwapManager) (b : Buffer) (i : ActionPtr)
    (h : lookup? s.m_buffer2SwapIn b = some i) :
    swapInBuffer n s b = { s with
      m_node2BackwardSwapin := assign (subscript s.m_node2BackwardSwapin n).2 n
        ((subscript s.m_node2BackwardSwapin n).1 ++ [i]) } := by
  have hc : countKey s.m_buffer2SwapIn b ≠ 0 := by
    rw [Ne, countKey_eq_zero_iff, h]; simp
  simp only [swapInBuffer, if_neg hc, subscript_of_lookup?_some _ _ _ h]

theorem swapInBuffer_of_none (n : Node) (s : SwapManager) (b : Buffer)
    (h : lookup? s.m_buffer2SwapIn b = none) :
    swapInBuffer n s b = { createPair s b with
      m_node2BackwardSwapin := assign (subscript s.m_node2BackwardSwapin n).2 n
        ((subscript s.m_node2BackwardSwapin n).1 ++ [s.heap.length + 2]) } := by
  have hc : countKey s.m_buffer2SwapIn b = 0 := (countKey_eq_zero_iff _ _).2 h
  have hs : lookup? (assign s.m_buffer2SwapIn b (s.heap.length + 2)) b = some (s.heap.length + 2) :=
    lookup?_assign_self _ _ _
  simp only [swapInBuffer, if_pos hc, subscript_of_lookup?_some _ _ _ hs, createPair]

theorem regInv_of_eq {pre : List ActionObj} {s s1 : SwapManager} (h : RegInv pre s)
    (hin : s1.m_buffer2SwapIn = s.m_buffer2SwapIn) (hout : s1.m_buffer2SwapOut = s.m_buffer2SwapOut)
    (hheap : s1.heap = s.heap) : RegInv pre s1 := by
  obtain ⟨⟨h1, h2, h3⟩, h4⟩ := h
  refine ⟨⟨?_, ?_, ?_⟩, ?_⟩
  · rw [hin, hout]; exact h1
  · rw [hout]; exact h2
  · rw [hin, hout, hheap]; exact h3
  · rw [hout, hheap]; exact h4

theorem regMono_of_eq {s s1 s2 : SwapManager} (h : RegMono s s1)
    (hin : s2.m_buffer2SwapIn = s1.m_buffer2SwapIn)
    (hout : s2.m_buffer2SwapOut = s1.m_buffer2SwapOut) : RegMono s s2 := by
  refine ⟨?_, ?_⟩
  · rw [hout]; exact h.1
  · rw [hin]; exact h.2

/-- What one pass through the body of the swap-out loop does to a consistent state. -/
theorem swapOutBuffer_spec (pre : List ActionObj) (n : Node) (s : SwapManager) (b : Buffer)
    (h : RegInv pre s) :
    ∃ o, RegInv pre (swapOutBuffer n s b) ∧ RegMono s (swapOutBuffer n s b) ∧
      lookup? (swapOutBuffer n s b).m_buffer2SwapOut b = some o ∧
      (∀ n', lookupD (swapOutBuffer n s b).m_node2ForwardSwapOut n' =
        if n' = n then lookupD s.m_node2ForwardSwapOut n ++ [o]
        else lookupD s.m_node2ForwardSwapOut n') ∧
      (swapOutBuffer n s b).m_node2BackwardSwapin = s.m_node2BackwardSwapin := by
  cases hb : lookup? s.m_buffer2SwapOut b with
  | some o =>
    rw [swapOutBuffer_of_some n s b o hb]
    exact ⟨o, regInv_of_eq h rfl rfl rfl, regMono_of_eq (regMono_refl s) rfl rfl, hb, fun n' => lookupD_push _ _ _ _, rfl⟩
  | none =>
    rw [swapOutBuffer_of_none n s b hb]
    obtain ⟨hinv, hmono, ho, _⟩ := createPair_spec pre s b h hb
    exact ⟨s.heap.length + 1, regInv_of_eq hinv rfl rfl rfl, regMono_of_eq hmono rfl rfl, ho, fun n' => lookupD_push _ _ _ _, rfl⟩

/-- What one pass through the body of the swap-in loop does to a consistent state. -/
theorem swapInBuffer_spec (pre : List ActionObj) (n : Node) (s : SwapManager) (b : Buffer)
    (h : RegInv pre s) :
    ∃ i, RegInv pre (swapInBuffer n s b) ∧ RegMono s (swapInBuffer n s b) ∧
      lookup? (swapInBuffer n s b).m_buffer2SwapIn b = some i ∧
      (∀ n', lookupD (swapInBuffer n s b).m_node2BackwardSwapin n' =
        if n' = n then lookupD s.m_node2BackwardSwapin n ++ [i]
        else lookupD s.m_node2BackwardSwapin n') ∧
      (swapInBuffer n s b).m_node2ForwardSwapOut = s.m_node2ForwardSwapOut := by
  cases hb : lookup? s.m_buffer2SwapIn b with
  | some i =>
    rw [swapInBuffer_of_some n s b i hb]
    exact ⟨i, regInv_of_eq h rfl rfl rfl, regMono_of_eq (regMono_refl s) rfl rfl, hb, fun n' => lookupD_push _ _ _ _, rfl⟩
  | none =>
    rw [swapInBuffer_of_none n s b hb]
    obtain ⟨hinv, hmono, _, hi⟩ := createPair_spec pre s b h ((regOK_lookup_in_none h.1 b).1 hb)
    exact ⟨s.heap.length + 2, regInv_of_eq hinv rfl rfl rfl, regMono_of_eq hmono rfl rfl, hi, fun n' => lookupD_push _ _ _ _, rfl⟩

theorem setupSwapOut_eq_foldl (s : SwapManager) (table : UMap Node (List Buffer)) :
    setupSwapOut s table = (flatten table).foldl (fun st p => swapOutBuffer p.1 st p.2) s := by
  unfold setupSwapOut
  induction table generalizing s with
  | nil => rfl
  | cons pair t ih =>
    simp only [List.foldl_cons, flatten, List.flatMap_cons, List.foldl_append, List.foldl_map]
    exact ih _

theorem setupSwapIn_eq_foldl (s : SwapManager) (table : UMap Node (List Buffer)) :
    setupSwapIn s table = (flatten table).foldl (fun st p => swapInBuffer p.1 st p.2) s := by
  unfold setupSwapIn
  induction table generalizing s with
  | nil => rfl
  | cons pair t ih =>
    simp only [List.foldl_cons, flatten, List.flatMap_cons, List.foldl_append, List.foldl_map]
    exact ih _

theorem buffersOf_append (ps qs : List (Node × Buffer)) (n : Node) :
    buffersOf (ps ++ qs) n = buffersOf ps n ++ buffersOf qs n := by
  simp [buffersOf]

theorem buffersOf_singleton (p : Node × Buffer) (n : Node) :
    buffersOf [p] n = if p.1 = n then [p.2] else [] := by
  by_cases h : p.1 = n <;> simp [buffersOf, h]

theorem buffersOf_map_pair (k : Node) (l : List Buffer) (n : Node) :
    buffersOf (l.map (fun b => (k, b))) n = if k = n then l else [] := by
  by_cases h : k = n
  · simp [buffersOf, h, List.filter_map, Function.comp_def]
  · simp [buffersOf, h, List.filter_map, Function.comp_def]

theorem buffersOf_flatten_of_not_mem (table : UMap Node (List Buffer)) (n : Node)
    (h : n ∉ keys table) : buffersOf (flatten table) n = [] := by
  induction table with
  | nil => rfl
  | cons pair t ih =>
    obtain ⟨k, l⟩ := pair
    simp only [keys, List.map_cons, List.mem_cons, not_or] at h
    have hk : ¬ k = n := fun e => h.1 e.symm
    have : flatten ((k, l) :: t) = l.map (fun b => (k, b)) ++ flatten t := by
      simp [flatten]
    rw [this, buffersOf_append, buffersOf_map_pair, if_neg hk, ih h.2]
    rfl

/-- For a table with distinct keys, the buffers the nested loops visit for step `n` are the
entry of `n` (none when `n` has no entry). -/
theorem buffersOf_flatten (table : UMap Node (List Buffer)) (n : Node)
    (hn : (keys table).Nodup) : buffersOf (flatten table) n = lookupD table n := by
  induction table with
  | nil => rfl
  | cons pair t ih =>
    obtain ⟨k, l⟩ := pair
    simp only [keys, List.map_cons, List.nodup_cons] at hn
    have : flatten ((k, l) :: t) = l.map (fun b => (k, b)) ++ flatten t := by
      simp [flatten]
    rw [this, buffersOf_append, buffersOf_map_pair]
    by_cases hk : k = n
    · subst hk
      rw [if_pos rfl, buffersOf_flatten_of_not_mem t k hn.1]
      simp [lookupD, lookup?]
    · rw [if_neg hk, ih hn.2]
      simp [lookupD, lookup?, hk]

theorem mirrors_mono {reg reg1 : UMap Buffer ActionPtr} {as : List ActionPtr} {bs : List Buffer}
    (h : Mirrors reg as bs) (hm : ∀ b a, lookup? reg b = some a → lookup? reg1 b = some a) :
    Mirrors reg1 as bs :=
  List.Forall₂.imp (fun _ _ hab => hm _ _ hab) h

theorem mirrors_snoc {reg : UMap Buffer ActionPtr} {as : List ActionPtr} {bs : List Buffer}
    {a : ActionPtr} {b : Buffer} (h : Mirrors reg as bs) (hab : lookup? reg b = some a) :
    Mirrors reg (as ++ [a]) (bs ++ [b]) :=
  List.rel_append h (List.Forall₂.cons hab List.Forall₂.nil)

theorem mirrors_map_eq {reg : UMap Buffer ActionPtr} {as : List ActionPtr} {bs : List Buffer}
    (h : Mirrors reg as bs) : as.map some = bs.map (lookup? reg) := by
  induction h with
  | nil => rfl
  | cons hab _ ih => simp [hab, ih]

/-- The swap-out loop, run over any list of (step, buffer) pairs from a consistent state. -/
theorem foldl_swapOut_spec (pre : List ActionObj) (ps done : List (Node × Buffer))
    (s : SwapManager) (h : RegInv pre s)
    (hl : ∀ n, Mirrors s.m_buffer2SwapOut (lookupD s.m_node2ForwardSwapOut n) (buffersOf done n)) :
    RegInv pre (ps.foldl (fun st p => swapOutBuffer p.1 st p.2) s) ∧
    RegMono s (ps.foldl (fun st p => swapOutBuffer p.1 st p.2) s) ∧
    (ps.foldl (fun st p => swapOutBuffer p.1 st p.2) s).m_node2BackwardSwapin =
      s.m_node2BackwardSwapin ∧
    (∀ p ∈ ps, ∃ o,
      lookup? (ps.foldl (fun st p => swapOutBuffer p.1 st p.2) s).m_buffer2SwapOut p.2 = some o) ∧
    ∀ n, Mirrors (ps.foldl (fun st p => swapOutBuffer p.1 st p.2) s).m_buffer2SwapOut
      (lookupD (ps.foldl (fun st p => swapOutBuffer p.1 st p.2) s).m_node2ForwardSwapOut n)
      (buffersOf (done ++ ps) n) := by
  induction ps generalizing s done with
  | nil =>
    refine ⟨h, regMono_refl s, rfl, ?_, ?_⟩
    · intro p hp; cases hp
    · simpa using hl
  | cons p ps ih =>
    obtain ⟨o, hinv, hmono, ho, hlist, hbwd⟩ := swapOutBuffer_spec pre p.1 s p.2 h
    have hl1 : ∀ n, Mirrors (swapOutBuffer p.1 s p.2).m_buffer2SwapOut
        (lookupD (swapOutBuffer p.1 s p.2).m_node2ForwardSwapOut n)
        (buffersOf (done ++ [p]) n) := by
      intro n
      rw [hlist n, buffersOf_append, buffersOf_singleton]
      by_cases hn : n = p.1
      · subst hn
        rw [if_pos rfl, if_pos rfl]
        exact mirrors_snoc (mirrors_mono (hl p.1) hmono.1) ho
      · have hn' : ¬ p.1 = n := fun e => hn e.symm
        rw [if_neg hn, if_neg hn', List.append_nil]
        exact mirrors_mono (hl n) hmono.1
    obtain ⟨h1, h2, h3, h4, h5⟩ := ih (done ++ [p]) (swapOutBuffer p.1 s p.2) hinv hl1
    simp only [List.foldl_cons]
    refine ⟨h1, regMono_trans hmono h2, h3.trans hbwd, ?_, ?_⟩
    · intro q hq
      rcases List.mem_cons.1 hq with rfl | hq
      · exact ⟨o, h2.1 _ _ ho⟩
      · exact h4 q hq
    · intro n
      have := h5 n
      rwa [List.append_assoc, List.singleton_append] at this

/-- The swap-in loop, run over any list of (step, buffer) pairs from a consistent state. -/
theorem foldl_swapIn_spec (pre : List ActionObj) (ps done : List (Node × Buffer))
    (s : SwapManager) (h : RegInv pre s)
    (hl : ∀ n, Mirrors s.m_buffer2SwapIn (lookupD s.m_node2BackwardSwapin n) (buffersOf done n)) :
    RegInv pre (ps.foldl (fun st p => swapInBuffer p.1 st p.2) s) ∧
    RegMono s (ps.foldl (fun st p => swapInBuffer p.1 st p.2) s) ∧
    (ps.foldl (fun st p => swapInBuffer p.1 st p.2) s).m_node2ForwardSwapOut =
      s.m_node2ForwardSwapOut ∧
    (∀ p ∈ ps, ∃ i,
      lookup? (ps.foldl (fun st p => swapInBuffer p.1 st p.2) s).m_buffer2SwapIn p.2 = some i) ∧
    ∀ n, Mirrors (ps.foldl (fun st p => swapInBuffer p.1 st p.2) s).m_buffer2SwapIn
      (lookupD (ps.foldl (fun st p => swapInBuffer p.1 st p.2) s).m_node2BackwardSwapin n)
      (buffersOf (done ++ ps) n) := by
  induction ps generalizing s done with
  | nil =>
    refine ⟨h, regMono_refl s, rfl, ?_, ?_⟩
    · intro p hp; cases hp
    · simpa using hl
  | cons p ps ih =>
    obtain ⟨i, hinv, hmono, hi, hlist, hfwd⟩ := swapInBuffer_spec pre p.1 s p.2 h
    have hl1 : ∀ n, Mirrors (swapInBuffer p.1 s p.2).m_buffer2SwapIn
        (lookupD (swapInBuffer p.1 s p.2).m_node2BackwardSwapin n)
        (buffersOf (done ++ [p]) n) := by
      intro n
      rw [hlist n, buffersOf_append, buffersOf_singleton]
      by_cases hn : n = p.1
      · subst hn
        rw [if_pos rfl, if_pos rfl]
        exact mirrors_snoc (mirrors_mono (hl p.1) hmono.2) hi
      · have hn' : ¬ p.1 = n := fun e => hn e.symm
        rw [if_neg hn, if_neg hn', List.append_nil]
        exact mirrors_mono (hl n) hmono.2
    obtain ⟨h1, h2, h3, h4, h5⟩ := ih (done ++ [p]) (swapInBuffer p.1 s p.2) hinv hl1
    simp only [List.foldl_cons]
    refine ⟨h1, regMono_trans hmono h2, h3.trans hfwd, ?_, ?_⟩
    · intro q hq
      rcases List.mem_cons.1 hq with rfl | hq
      · exact ⟨i, h2.2 _ _ hi⟩
      · exact h4 q hq
    · intro n
      have := h5 n
      rwa [List.append_assoc, List.singleton_append] at this

theorem sameOutsideSetup_refl (s : SwapManager) : SameOutsideSetup s s :=
  ⟨rfl, rfl, rfl, rfl, rfl, rfl, rfl⟩

theorem sameOutsideSetup_trans {s s1 s2 : SwapManager} (h1 : SameOutsideSetup s s1)
    (h2 : SameOutsideSetup s1 s2) : SameOutsideSetup s s2 := by
  obtain ⟨a1, a2, a3, a4, a5, a6, a7⟩ := h1
  obtain ⟨b1, b2, b3, b4, b5, b6, b7⟩ := h2
  exact ⟨b1.trans a1, b2.trans a2, b3.trans a3, b4.trans a4, b5.trans a5, b6.trans a6,
    b7.trans a7⟩

theorem swapOutBuffer_same (n : Node) (s : SwapManager) (b : Buffer) :
    SameOutsideSetup s (swapOutBuffer n s b) := by
  cases hb : lookup? s.m_buffer2SwapOut b with
  | some o => rw [swapOutBuffer_of_some n s b o hb]; exact ⟨rfl, rfl, rfl, rfl, rfl, rfl, rfl⟩
  | none => rw [swapOutBuffer_of_none n s b hb]; exact ⟨rfl, rfl, rfl, rfl, rfl, rfl, rfl⟩

theorem swapInBuffer_same (n : Node) (s : SwapManager) (b : Buffer) :
    SameOutsideSetup s (swapInBuffer n s b) := by
  cases hb : lookup? s.m_buffer2SwapIn b with
  | some i => rw [swapInBuffer_of_some n s b i hb]; exact ⟨rfl, rfl, rfl, rfl, rfl, rfl, rfl⟩
  | none => rw [swapInBuffer_of_none n s b hb]; exact ⟨rfl, rfl, rfl, rfl, rfl, rfl, rfl⟩

theorem setupSwapOut_same (s : SwapManager) (table : UMap Node (List Buffer)) :
    SameOutsideSetup s (setupSwapOut s table) := by
  rw [setupSwapOut_eq_foldl]
  generalize flatten table = ps
  induction ps generalizing s with
  | nil => exact sameOutsideSetup_refl s
  | cons p ps ih => exact sameOutsideSetup_trans (swapOutBuffer_same p.1 s p.2) (ih _)

theorem setupSwapIn_same (s : SwapManager) (table : UMap Node (List Buffer)) :
    SameOutsideSetup s (setupSwapIn s table) := by
  rw [setupSwapIn_eq_foldl]
  generalize flatten table = ps
  induction ps generalizing s with
  | nil => exact sameOutsideSetup_refl s
  | cons p ps ih => exact sameOutsideSetup_trans (swapInBuffer_same p.1 s p.2) (ih _)

theorem setup_same (s : SwapManager) (fwd bwd : UMap Node (List Buffer)) :
    SameOutsideSetup s (setupSwapIn (setupSwapOut s fwd) bwd) :=
  sameOutsideSetup_trans (setupSwapOut_same s fwd) (setupSwapIn_same _ bwd)

theorem regInv_cleared (s : SwapManager) : RegInv s.heap (ClearActionsAndTheirMemory s).1 := by
  refine ⟨⟨rfl, List.nodup_nil, ?_⟩, ?_⟩
  · intro b i hi
    simp [ClearActionsAndTheirMemory, lookup?] at hi
  · simp [ClearActionsAndTheirMemory, createdObjects]

/-- The two set-up loops of `InitializeSwapping`, run after the clearing of the state. -/
theorem setup_spec (s : SwapManager) (fwd bwd : UMap Node (List Buffer)) :
    RegInv s.heap (setupSwapIn (setupSwapOut (ClearActionsAndTheirMemory s).1 fwd) bwd) ∧
    (∀ n, Mirrors (setupSwapIn (setupSwapOut (ClearActionsAndTheirMemory s).1 fwd) bwd).m_buffer2SwapOut
      (lookupD (setupSwapIn (setupSwapOut (ClearActionsAndTheirMemory s).1 fwd)
        bwd).m_node2ForwardSwapOut n)
      (buffersOf (flatten fwd) n)) ∧
    (∀ n, Mirrors (setupSwapIn (setupSwapOut (ClearActionsAndTheirMemory s).1 fwd) bwd).m_buffer2SwapIn
      (lookupD (setupSwapIn (setupSwapOut (ClearActionsAndTheirMemory s).1 fwd)
        bwd).m_node2BackwardSwapin n)
      (buffersOf (flatten bwd) n)) ∧
    (∀ p ∈ flatten fwd, ∃ o,
      lookup? (setupSwapIn (setupSwapOut (ClearActionsAndTheirMemory s).1 fwd)
        bwd).m_buffer2SwapOut p.2 = some o) ∧
    (∀ p ∈ flatten bwd, ∃ i,
      lookup? (setupSwapIn (setupSwapOut (ClearActionsAndTheirMemory s).1 fwd)
        bwd).m_buffer2SwapIn p.2 = some i) := by
  have h0 := regInv_cleared s
  have hl0 : ∀ n, Mirrors (ClearActionsAndTheirMemory s).1.m_buffer2SwapOut
      (lookupD (ClearActionsAndTheirMemory s).1.m_node2ForwardSwapOut n) (buffersOf [] n) :=
    fun n => List.Forall₂.nil
  obtain ⟨a1, a2, a3, a4, a5⟩ :=
    foldl_swapOut_spec s.heap (flatten fwd) [] (ClearActionsAndTheirMemory s).1 h0 hl0
  rw [← setupSwapOut_eq_foldl] at a1 a2 a3 a4 a5
  have hl1 : ∀ n, Mirrors (setupSwapOut (ClearActionsAndTheirMemory s).1 fwd).m_buffer2SwapIn
      (lookupD (setupSwapOut (ClearActionsAndTheirMemory s).1 fwd).m_node2BackwardSwapin n)
      (buffersOf [] n) := by
    intro n
    rw [a3]
    exact List.Forall₂.nil
  obtain ⟨b1, b2, b3, b4, b5⟩ :=
    foldl_swapIn_spec s.heap (flatten bwd) [] (setupSwapOut (ClearActionsAndTheirMemory s).1 fwd)
      a1 hl1
  rw [← setupSwapIn_eq_foldl] at b1 b2 b3 b4 b5
  refine ⟨b1, ?_, ?_, ?_, b4⟩
  · intro n
    rw [b3]
    have := a5 n
    rw [List.nil_append] at this
    exact mirrors_mono this b2.1
  · intro n
    have := b5 n
    rwa [List.nil_append] at this
  · intro p hp
    obtain ⟨o, ho⟩ := a4 p hp
    exact ⟨o, b2.1 _ _ ho⟩

/-- A successful `InitializeSwapping` unfolded: the sizes agree, and the state afterwards is the
state after the two set-up loops with the free table, the index and the maximum stored. -/
theorem InitializeSwapping_ok {s s1 : SwapManager} {fwd bwd free : UMap Node (List Buffer)}
    {idx : UMap Node Int} {tr : List Event}
    (h : s.InitializeSwapping fwd bwd free idx = Except.ok (s1, tr)) :
    size fwd = size bwd ∧ tr = CleanUp s ∧
    s1 = { setupSwapIn (setupSwapOut (ClearActionsAndTheirMemory s).1 fwd) bwd with
      m_node2BackwardFree := free
      m_node2TimeStep := idx
      m_timeStep2Node := setupTimeStep2Node s.m_timeStep2Node idx
      m_maxTimeStep := computeMaxTimeStep idx } := by
  unfold InitializeSwapping at h
  by_cases hs : size fwd = size bwd
  · simp only [if_pos hs] at h
    injection h with h
    injection h with h1 h2
    refine ⟨hs, h2.symm, ?_⟩
    rw [← h1, (setup_same (ClearActionsAndTheirMemory s).1 fwd bwd).2.2.1]
    rfl
  · simp only [if_neg hs] at h
    cases h

theorem mem_flatten {table : UMap Node (List Buffer)} {n : Node} {b : Buffer} :
    (n, b) ∈ flatten table ↔ ∃ p ∈ table, p.1 = n ∧ b ∈ p.2 := by
  simp only [flatten, List.mem_flatMap, List.mem_map, Prod.mk.injEq]
  constructor
  · rintro ⟨p, hp, b', hb', h1, h2⟩
    exact ⟨p, hp, h1, h2 ▸ hb'⟩
  · rintro ⟨p, hp, h1, h2⟩
    exact ⟨p, hp, b, h2, h1, rfl⟩

theorem mirrors_getElem? {reg : UMap Buffer ActionPtr} {as : List ActionPtr} {bs : List Buffer}
    (h : Mirrors reg as bs) (k : Nat) (b : Buffer) (hb : bs[k]? = some b) :
    ∃ a, as[k]? = some a ∧ lookup? reg b = some a := by
  induction h generalizing k with
  | nil => simp at hb
  | cons hab _ ih =>
    cases k with
    | zero =>
      simp only [List.getElem?_cons_zero, Option.some.injEq] at hb
      subst hb
      exact ⟨_, by simp, hab⟩
    | succ k =>
      simp only [List.getElem?_cons_succ] at hb ⊢
      exact ih k hb

theorem createdObjects_filter_swapOut (m : UMap Buffer ActionPtr) (b : Buffer) :
    (createdObjects m).filter (fun x => x.isSwapOut && decide (x.buffer = b)) =
      (m.filter (fun p => decide (p.1 = b))).map (fun p => ActionObj.SwapOutAction p.1) := by
  induction m with
  | nil => rfl
  | cons p m ih =>
    have hc : createdObjects (p :: m) = [ActionObj.SwapOutAction p.1,
        ActionObj.SwapInAction p.2 p.1] ++ createdObjects m := by
      simp [createdObjects]
    rw [hc, List.filter_append, ih]
    by_cases h : p.1 = b
    · simp [List.filter_cons, h, ActionObj.isSwapOut, ActionObj.buffer]
    · simp [List.filter_cons, h, ActionObj.isSwapOut, ActionObj.buffer]

theorem createdObjects_filter_swapIn (m : UMap Buffer ActionPtr) (b : Buffer) :
    (createdObjects m).filter (fun x => x.isSwapIn && decide (x.buffer = b)) =
      (m.filter (fun p => decide (p.1 = b))).map (fun p => ActionObj.SwapInAction p.2 p.1) := by
  induction m with
  | nil => rfl
  | cons p m ih =>
    have hc : createdObjects (p :: m) = [ActionObj.SwapOutAction p.1,
        ActionObj.SwapInAction p.2 p.1] ++ createdObjects m := by
      simp [createdObjects]
    rw [hc, List.filter_append, ih]
    by_cases h : p.1 = b
    · simp [List.filter_cons, h, ActionObj.isSwapIn, ActionObj.buffer]
    · simp [List.filter_cons, h, ActionObj.isSwapIn, ActionObj.buffer]

/-- After a successful `InitializeSwapping` the registries are consistent, the free store has
grown by exactly the objects of the registry, and the per-step lists mirror the tables. -/
theorem InitializeSwapping_spec {s s1 : SwapManager} {fwd bwd free : UMap Node (List Buffer)}
    {idx : UMap Node Int} {tr : List Event}
    (h : s.InitializeSwapping fwd bwd free idx = Except.ok (s1, tr)) :
    RegInv s.heap s1 ∧
    (∀ n, Mirrors s1.m_buffer2SwapOut (lookupD s1.m_node2ForwardSwapOut n)
      (buffersOf (flatten fwd) n)) ∧
    (∀ n, Mirrors s1.m_buffer2SwapIn (lookupD s1.m_node2BackwardSwapin n)
      (buffersOf (flatten bwd) n)) ∧
    (∀ p ∈ flatten fwd, ∃ o, lookup? s1.m_buffer2SwapOut p.2 = some o) ∧
    (∀ p ∈ flatten bwd, ∃ i, lookup? s1.m_buffer2SwapIn p.2 = some i) := by
  obtain ⟨_, _, hs1⟩ := InitializeSwapping_ok h
  obtain ⟨a1, a2, a3, a4, a5⟩ := setup_spec s fwd bwd
  subst hs1
  exact ⟨regInv_of_eq a1 rfl rfl rfl, a2, a3, a4, a5⟩

theorem regOK_lookup_out_of_in {s : SwapManager} (h : RegOK s) {b : Buffer} {o : ActionPtr}
    (ho : lookup? s.m_buffer2SwapOut b = some o) : ∃ i, lookup? s.m_buffer2SwapIn b = some i := by
  cases hi : lookup? s.m_buffer2SwapIn b with
  | some i => exact ⟨i, rfl⟩
  | none =>
    rw [(regOK_lookup_in_none h b).1 hi] at ho
    cases ho

/-- C1: after InitializeSwapping, every buffer `b` listed in the forward-swap-out table or in
the backward-swap-in table has exactly one entry in the swap-out registry and exactly one in
the swap-in registry; they point to a swap-out action for `b` and to a swap-in action for `b`
whose source is that swap-out action; among the objects the call created there is exactly one
swap-out action and exactly one swap-in action for `b`; and wherever `b` stands in a step's
forward (backward) table entry, the same position of that step's forward (backward) action list
holds that one swap-out (swap-in) action. -/
theorem C1_one_action_pair_per_buffer (s s1 : SwapManager)
    (fwd bwd free : UMap Node (List Buffer)) (idx : UMap Node Int) (tr : List Event)
    (hfwd : (keys fwd).Nodup) (hbwd : (keys bwd).Nodup)
    (h : s.InitializeSwapping fwd bwd free idx = Except.ok (s1, tr))
    (b : Buffer) (hb : OccursIn b fwd ∨ OccursIn b bwd) :
    ∃ o i : ActionPtr,
      s1.m_buffer2SwapOut.filter (fun p => decide (p.1 = b)) = [(b, o)] ∧
      s1.m_buffer2SwapIn.filter (fun p => decide (p.1 = b)) = [(b, i)] ∧
      deref s1.heap o = some (ActionObj.SwapOutAction b) ∧
      deref s1.heap i = some (ActionObj.SwapInAction o b) ∧
      (∃ created, s1.heap = s.heap ++ created ∧
        created.filter (fun x => x.isSwapOut && decide (x.buffer = b)) =
          [ActionObj.SwapOutAction b] ∧
        created.filter (fun x => x.isSwapIn && decide (x.buffer = b)) =
          [ActionObj.SwapInAction o b]) ∧
      (∀ (n : Node) (k : Nat), (lookupD fwd n)[k]? = some b →
        (lookupD s1.m_node2ForwardSwapOut n)[k]? = some o) ∧
      (∀ (n : Node) (k : Nat), (lookupD bwd n)[k]? = some b →
        (lookupD s1.m_node2BackwardSwapin n)[k]? = some i) := by
  obtain ⟨⟨hok, hheap⟩, hmf, hmb, hrf, hrb⟩ := InitializeSwapping_spec h
  have hin : ∃ i, lookup? s1.m_buffer2SwapIn b = some i := by
    rcases hb with ⟨p, hp, hbp⟩ | ⟨p, hp, hbp⟩
    · obtain ⟨o, ho⟩ := hrf (p.1, b) (mem_flatten.2 ⟨p, hp, rfl, hbp⟩)
      exact regOK_lookup_out_of_in hok ho
    · exact hrb (p.1, b) (mem_flatten.2 ⟨p, hp, rfl, hbp⟩)
  obtain ⟨i, hi⟩ := hin
  obtain ⟨o, ho, hdo, hdi⟩ := hok.linked b i hi
  have hfo := filter_key_of_lookup? _ _ _ hok.nodup ho
  have hfi := filter_key_of_lookup? _ _ _ (hok.keys_eq ▸ hok.nodup) hi
  refine ⟨o, i, hfo, hfi, hdo, hdi, ⟨createdObjects s1.m_buffer2SwapOut, hheap, ?_, ?_⟩, ?_, ?_⟩
  · rw [createdObjects_filter_swapOut, hfo]; rfl
  · rw [createdObjects_filter_swapIn, hfo]; rfl
  · intro n k hk
    have hm := hmf n
    rw [buffersOf_flatten fwd n hfwd] at hm
    obtain ⟨a, ha, hab⟩ := mirrors_getElem? hm k b hk
    rw [ho] at hab
    cases hab
    exact ha
  · intro n k hk
    have hm := hmb n
    rw [buffersOf_flatten bwd n hbwd] at hm
    obtain ⟨a, ha, hab⟩ := mirrors_getElem? hm k b hk
    rw [hi] at hab
    cases hab
    exact ha

/-- Witness for C1: a schedule in which buffer 10 is listed twice for step 1 and again for the
backward visit of step 2. -/
theorem C1_one_action_pair_per_buffer_witness :
    (SwapManager.new true 0 0 0 []).InitializeSwapping
        [(1, [10, 11, 10]), (2, [11])] [(2, [10]), (1, [11])] [(1, [12])] [(1, 0), (2, 1)] =
      Except.ok (exampleSchedule, []) ∧
    ∃ o i : ActionPtr,
      exampleSchedule.m_buffer2SwapOut.filter (fun p => decide (p.1 = 10)) = [(10, o)] ∧
      exampleSchedule.m_buffer2SwapIn.filter (fun p => decide (p.1 = 10)) = [(10, i)] ∧
      deref exampleSchedule.heap o = some (ActionObj.SwapOutAction 10) ∧
      deref exampleSchedule.heap i = some (ActionObj.SwapInAction o 10) ∧
      (∃ created, exampleSchedule.heap = (SwapManager.new true 0 0 0 []).heap ++ created ∧
        created.filter (fun x => x.isSwapOut && decide (x.buffer = 10)) =
          [ActionObj.SwapOutAction 10] ∧
        created.filter (fun x => x.isSwapIn && decide (x.buffer = 10)) =
          [ActionObj.SwapInAction o 10]) ∧
      (∀ (n : Node) (k : Nat), (lookupD [(1, [10, 11, 10]), (2, [11])] n)[k]? = some 10 →
        (lookupD exampleSchedule.m_node2ForwardSwapOut n)[k]? = some o) ∧
      (∀ (n : Node) (k : Nat), (lookupD [(2, [10]), (1, [11])] n)[k]? = some 10 →
        (lookupD exampleSchedule.m_node2BackwardSwapin n)[k]? = some i) :=
  ⟨rfl,
    C1_one_action_pair_per_buffer (SwapManager.new true 0 0 0 []) exampleSchedule
      [(1, [10, 11, 10]), (2, [11])] [(2, [10]), (1, [11])] [(1, [12])] [(1, 0), (2, 1)] []
      (by decide) (by decide) rfl 10
      (Or.inl ⟨(1, [10, 11, 10]), by simp, by simp⟩)⟩

theorem regOK_of_eq {s s1 : SwapManager} (h : RegOK s)
    (hin : s1.m_buffer2SwapIn = s.m_buffer2SwapIn) (hout : s1.m_buffer2SwapOut = s.m_buffer2SwapOut)
    (hheap : s1.heap = s.heap) : RegOK s1 := by
  obtain ⟨h1, h2, h3⟩ := h
  refine ⟨?_, ?_, ?_⟩
  · rw [hin, hout]; exact h1
  · rw [hout]; exact h2
  · rw [hin, hout, hheap]; exact h3

theorem BeginSynchronizeState_registry (s : SwapManager) (node : Node) (isForward isTraining : Bool) :
    (s.BeginSynchronizeState node isForward isTraining).1.m_buffer2SwapIn = s.m_buffer2SwapIn ∧
    (s.BeginSynchronizeState node isForward isTraining).1.m_buffer2SwapOut = s.m_buffer2SwapOut ∧
    (s.BeginSynchronizeState node isForward isTraining).1.heap = s.heap := by
  unfold BeginSynchronizeState
  split_ifs <;> exact ⟨rfl, rfl, rfl⟩

theorem EndSynchronizeState_registry (s : SwapManager) (node : Node) (isForward isTraining : Bool) :
    (s.EndSynchronizeState node isForward isTraining).1.m_buffer2SwapIn = s.m_buffer2SwapIn ∧
    (s.EndSynchronizeState node isForward isTraining).1.m_buffer2SwapOut = s.m_buffer2SwapOut ∧
    (s.EndSynchronizeState node isForward isTraining).1.heap = s.heap := by
  unfold EndSynchronizeState
  split_ifs <;> exact ⟨rfl, rfl, rfl⟩

theorem regOK_new (g : Bool) (free total : Nat) (maxTimeStep : Int) (heap : List ActionObj) :
    RegOK (SwapManager.new g free total maxTimeStep heap) := by
  refine ⟨rfl, List.nodup_nil, ?_⟩
  intro b i hi
  simp [SwapManager.new, lookup?] at hi

/-- Every public call keeps the registries consistent. -/
theorem call_run_regOK {s s1 : SwapManager} {tr : List Event} (c : Call) (hs : RegOK s)
    (h : c.run s = Except.ok (s1, tr)) : RegOK s1 := by
  cases c with
  | InitializeSwapping fwd bwd free idx =>
    exact (InitializeSwapping_spec h).1.1
  | BeginSynchronizeState node isForward isTraining =>
    simp only [Call.run, Except.ok.injEq] at h
    obtain ⟨h1, h2, h3⟩ := BeginSynchronizeState_registry s node isForward isTraining
    rw [h] at h1 h2 h3
    exact regOK_of_eq hs h1 h2 h3
  | EndSynchronizeState node isForward isTraining =>
    simp only [Call.run, Except.ok.injEq] at h
    obtain ⟨h1, h2, h3⟩ := EndSynchronizeState_registry s node isForward isTraining
    rw [h] at h1 h2 h3
    exact regOK_of_eq hs h1 h2 h3
  | ClearActionsAndTheirMemory =>
    simp only [Call.run, Except.ok.injEq] at h
    have := (regInv_cleared s).1
    rw [h] at this
    exact this

/-- One step of `runCalls` that succeeds, taken apart. -/
theorem runCalls_cons_ok {s s2 : SwapManager} {c : Call} {cs : List Call} {tr : List Event}
    (h : runCalls s (c :: cs) = Except.ok (s2, tr)) :
    ∃ s1 tr1 tr2, c.run s = Except.ok (s1, tr1) ∧ runCalls s1 cs = Except.ok (s2, tr2) ∧
      tr = tr1 ++ tr2 := by
  unfold runCalls at h
  cases hc : c.run s with
  | error e => rw [hc] at h; cases h
  | ok r =>
    obtain ⟨s1, tr1⟩ := r
    rw [hc] at h
    simp only at h
    cases hr : runCalls s1 cs with
    | error e => rw [hr] at h; cases h
    | ok r2 =>
      obtain ⟨s2', tr2⟩ := r2
      rw [hr] at h
      simp only [Except.ok.injEq, Prod.mk.injEq] at h
      obtain ⟨rfl, rfl⟩ := h
      exact ⟨s1, tr1, tr2, rfl, hr, rfl⟩

theorem runCalls_regOK {s s1 : SwapManager} {tr : List Event} (calls : List Call) (hs : RegOK s)
    (h : runCalls s calls = Except.ok (s1, tr)) : RegOK s1 := by
  induction calls generalizing s tr with
  | nil =>
    simp only [runCalls, Except.ok.injEq, Prod.mk.injEq] at h
    rw [← h.1]; exact hs
  | cons c cs ih =>
    obtain ⟨s', tr1, tr2, h1, h2, _⟩ := runCalls_cons_ok h
    exact ih (call_run_regOK c hs h1) h2

/-- C2: in every state reached from a newly constructed scheduler by any sequence of public
calls (InitializeSwapping, ClearActionsAndTheirMemory, and the two hooks), the swap-in and the
swap-out registry have the same keys, each key once, and for every registered buffer `b` the
registered swap-in action is a swap-in action for `b` whose source is the swap-out action
registered for `b`, which is a swap-out action for `b`. -/
theorem C2_registries_paired (g : Bool) (free total : Nat) (maxTimeStep : Int)
    (heap : List ActionObj) (calls : List Call) (s : SwapManager) (tr : List Event)
    (h : runCalls (SwapManager.new g free total maxTimeStep heap) calls = Except.ok (s, tr)) :
    keys s.m_buffer2SwapIn = keys s.m_buffer2SwapOut ∧
    (keys s.m_buffer2SwapOut).Nodup ∧
    (∀ b, b ∈ keys s.m_buffer2SwapIn ↔ b ∈ keys s.m_buffer2SwapOut) ∧
    ∀ b i, lookup? s.m_buffer2SwapIn b = some i →
      ∃ o, lookup? s.m_buffer2SwapOut b = some o ∧
        deref s.heap o = some (ActionObj.SwapOutAction b) ∧
        deref s.heap i = some (ActionObj.SwapInAction o b) := by
  have hok := runCalls_regOK calls (regOK_new g free total maxTimeStep heap) h
  exact ⟨hok.keys_eq, hok.nodup, fun b => by rw [hok.keys_eq], hok.linked⟩

/-- C3: after a successful InitializeSwapping from any prior state, for every step `n` the
forward-swap-out list of `n` has the length of the table entry of `n` and holds, position by
position, the swap-out actions registered for the buffers of that entry; the backward-swap-in
list mirrors the backward table in the same way with swap-in actions; the free table is stored
verbatim; and a step without an entry in a table has an empty list. -/
theorem C3_lists_mirror_tables (s s1 : SwapManager)
    (fwd bwd free : UMap Node (List Buffer)) (idx : UMap Node Int) (tr : List Event)
    (hfwd : (keys fwd).Nodup) (hbwd : (keys bwd).Nodup)
    (h : s.InitializeSwapping fwd bwd free idx = Except.ok (s1, tr)) (n : Node) :
    (lookupD s1.m_node2ForwardSwapOut n).length = (lookupD fwd n).length ∧
    (lookupD s1.m_node2ForwardSwapOut n).map some =
      (lookupD fwd n).map (lookup? s1.m_buffer2SwapOut) ∧
    (lookupD s1.m_node2BackwardSwapin n).length = (lookupD bwd n).length ∧
    (lookupD s1.m_node2BackwardSwapin n).map some =
      (lookupD bwd n).map (lookup? s1.m_buffer2SwapIn) ∧
    s1.m_node2BackwardFree = free ∧
    lookupD s1.m_node2BackwardFree n = lookupD free n ∧
    (n ∉ keys fwd → lookupD s1.m_node2ForwardSwapOut n = []) ∧
    (n ∉ keys bwd → lookupD s1.m_node2BackwardSwapin n = []) ∧
    (n ∉ keys free → lookupD s1.m_node2BackwardFree n = []) := by
  obtain ⟨_, hmf, hmb, _, _⟩ := InitializeSwapping_spec h
  obtain ⟨_, _, hs1⟩ := InitializeSwapping_ok h
  have hfree : s1.m_node2BackwardFree = free := by rw [hs1]
  have hf := hmf n
  have hb := hmb n
  have hf0 := hmf n
  have hb0 := hmb n
  rw [buffersOf_flatten fwd n hfwd] at hf
  rw [buffersOf_flatten bwd n hbwd] at hb
  refine ⟨List.Forall₂.length_eq hf, mirrors_map_eq hf, List.Forall₂.length_eq hb,
    mirrors_map_eq hb, hfree, by rw [hfree], ?_, ?_, ?_⟩
  · intro hn
    rw [buffersOf_flatten_of_not_mem fwd n hn] at hf0
    exact List.forall₂_nil_right_iff.1 hf0
  · intro hn
    rw [buffersOf_flatten_of_not_mem bwd n hn] at hb0
    exact List.forall₂_nil_right_iff.1 hb0
  · intro hn
    rw [hfree]
    simp only [lookupD, (lookup?_eq_none_iff free n).2 hn, Option.getD_none]
    rfl

/-- C4: InitializeSwapping fails (with the failure of its assertion) exactly when the forward
and the backward table differ in size, and returns normally when the sizes are equal, whatever
the prior state, the free table and the step-to-time-step table. -/
theorem C4_assertion_iff_sizes_differ (s : SwapManager)
    (fwd bwd free : UMap Node (List Buffer)) (idx : UMap Node Int) :
    (s.InitializeSwapping fwd bwd free idx = Except.error Failure.assertionFailed ↔
      size fwd ≠ size bwd) ∧
    (size fwd = size bwd → ∃ s1 tr, s.InitializeSwapping fwd bwd free idx = Except.ok (s1, tr)) := by
  by_cases hs : size fwd = size bwd
  · have hok : ∃ s1 tr, s.InitializeSwapping fwd bwd free idx = Except.ok (s1, tr) := by
      unfold InitializeSwapping
      rw [if_pos hs]
      exact ⟨_, _, rfl⟩
    refine ⟨⟨fun h => ?_, fun h => absurd hs h⟩, fun _ => hok⟩
    obtain ⟨s1, tr, h1⟩ := hok
    rw [h1] at h
    cases h
  · have herr : s.InitializeSwapping fwd bwd free idx = Except.error Failure.assertionFailed := by
      unfold InitializeSwapping
      rw [if_neg hs]
    exact ⟨⟨fun _ => hs, fun _ => herr⟩, fun h => absurd h hs⟩

/-- Witness for C2: a clear followed by an initialization from a new scheduler. -/
theorem C2_registries_paired_witness :
    runCalls (SwapManager.new true 0 0 0 [])
        [Call.ClearActionsAndTheirMemory,
         Call.InitializeSwapping [(1, [10, 11, 10]), (2, [11])] [(2, [10]), (1, [11])]
           [(1, [12])] [(1, 0), (2, 1)]] = Except.ok (exampleSchedule, []) ∧
    (keys exampleSchedule.m_buffer2SwapIn = keys exampleSchedule.m_buffer2SwapOut ∧
    (keys exampleSchedule.m_buffer2SwapOut).Nodup ∧
    (∀ b, b ∈ keys exampleSchedule.m_buffer2SwapIn ↔ b ∈ keys exampleSchedule.m_buffer2SwapOut) ∧
    ∀ b i, lookup? exampleSchedule.m_buffer2SwapIn b = some i →
      ∃ o, lookup? exampleSchedule.m_buffer2SwapOut b = some o ∧
        deref exampleSchedule.heap o = some (ActionObj.SwapOutAction b) ∧
        deref exampleSchedule.heap i = some (ActionObj.SwapInAction o b)) :=
  ⟨rfl,
    C2_registries_paired true 0 0 0 []
      [Call.ClearActionsAndTheirMemory,
       Call.InitializeSwapping [(1, [10, 11, 10]), (2, [11])] [(2, [10]), (1, [11])]
         [(1, [12])] [(1, 0), (2, 1)]] exampleSchedule [] rfl⟩

/-- Witness for C3: step 1 of the example schedule. -/
theorem C3_lists_mirror_tables_witness :
    (SwapManager.new true 0 0 0 []).InitializeSwapping
        [(1, [10, 11, 10]), (2, [11])] [(2, [10]), (1, [11])] [(1, [12])] [(1, 0), (2, 1)] =
      Except.ok (exampleSchedule, []) ∧
    ((lookupD exampleSchedule.m_node2ForwardSwapOut 1).length =
      (lookupD [(1, [10, 11, 10]), (2, [11])] 1).length ∧
    (lookupD exampleSchedule.m_node2ForwardSwapOut 1).map some =
      (lookupD [(1, [10, 11, 10]), (2, [11])] 1).map (lookup? exampleSchedule.m_buffer2SwapOut) ∧
    (lookupD exampleSchedule.m_node2BackwardSwapin 1).length =
      (lookupD [(2, [10]), (1, [11])] 1).length ∧
    (lookupD exampleSchedule.m_node2BackwardSwapin 1).map some =
      (lookupD [(2, [10]), (1, [11])] 1).map (lookup? exampleSchedule.m_buffer2SwapIn) ∧
    exampleSchedule.m_node2BackwardFree = [(1, [12])] ∧
    lookupD exampleSchedule.m_node2BackwardFree 1 = lookupD [(1, [12])] 1 ∧
    (1 ∉ keys ([(1, [10, 11, 10]), (2, [11])] : UMap Node (List Buffer)) →
      lookupD exampleSchedule.m_node2ForwardSwapOut 1 = []) ∧
    (1 ∉ keys ([(2, [10]), (1, [11])] : UMap Node (List Buffer)) →
      lookupD exampleSchedule.m_node2BackwardSwapin 1 = []) ∧
    (1 ∉ keys ([(1, [12])] : UMap Node (List Buffer)) →
      lookupD exampleSchedule.m_node2BackwardFree 1 = [])) :=
  ⟨rfl,
    C3_lists_mirror_tables (SwapManager.new true 0 0 0 []) exampleSchedule
      [(1, [10, 11, 10]), (2, [11])] [(2, [10]), (1, [11])] [(1, [12])] [(1, 0), (2, 1)] []
      (by decide) (by decide) rfl 1⟩

/-- C5 (as stated) fails: with forward table `1 ↦ [10]` and backward table `2 ↦ [11]` the
sizes agree, so InitializeSwapping succeeds, although buffer 10 is swapped out at step 1 (action
1) and its swap-in action (action 2) is in no backward list. -/
theorem C5_counterexample :
    Except.map (fun r => (r.1.m_node2ForwardSwapOut, r.1.m_node2BackwardSwapin,
        r.1.m_buffer2SwapIn))
      ((SwapManager.new true 0 0 0 []).InitializeSwapping [(1, [10])] [(2, [11])] []
        [(1, 0), (2, 1)]) = Except.ok ([(1, [1])], [(2, [4])], [(10, 2), (11, 4)]) ∧
    ¬ EverySwapOutHasSwapIn [(1, [10])] [(2, [11])] := by
  refine ⟨rfl, ?_⟩
  simp [EverySwapOutHasSwapIn, OccursIn]

/-- C5 (amended): a successful InitializeSwapping means that the forward and the backward table
have the same size, and every buffer listed for swap-out has a swap-out and a swap-in action
registered, the swap-in action having that swap-out action as its source.  (Whether the
swap-in is listed for any backward step is not checked.) -/
theorem C5_success_gives_equal_sizes_and_registered_pair (s s1 : SwapManager)
    (fwd bwd free : UMap Node (List Buffer)) (idx : UMap Node Int) (tr : List Event)
    (h : s.InitializeSwapping fwd bwd free idx = Except.ok (s1, tr)) :
    size fwd = size bwd ∧
    ∀ b, OccursIn b fwd →
      ∃ o i, lookup? s1.m_buffer2SwapOut b = some o ∧ lookup? s1.m_buffer2SwapIn b = some i ∧
        deref s1.heap i = some (ActionObj.SwapInAction o b) := by
  obtain ⟨hsize, _, _⟩ := InitializeSwapping_ok h
  obtain ⟨⟨hok, _⟩, _, _, hrf, _⟩ := InitializeSwapping_spec h
  refine ⟨hsize, ?_⟩
  rintro b ⟨p, hp, hbp⟩
  obtain ⟨o, ho⟩ := hrf (p.1, b) (mem_flatten.2 ⟨p, hp, rfl, hbp⟩)
  obtain ⟨i, hi⟩ := regOK_lookup_out_of_in hok ho
  obtain ⟨o', ho', _, hdi⟩ := hok.linked b i hi
  rw [ho] at ho'
  cases ho'
  exact ⟨o, i, ho, hi, hdi⟩

/-- Witness for C5 (amended): the example schedule. -/
theorem C5_success_gives_equal_sizes_and_registered_pair_witness :
    (SwapManager.new true 0 0 0 []).InitializeSwapping
        [(1, [10, 11, 10]), (2, [11])] [(2, [10]), (1, [11])] [(1, [12])] [(1, 0), (2, 1)] =
      Except.ok (exampleSchedule, []) ∧
    (size ([(1, [10, 11, 10]), (2, [11])] : UMap Node (List Buffer)) =
      size ([(2, [10]), (1, [11])] : UMap Node (List Buffer)) ∧
    ∀ b, OccursIn b [(1, [10, 11, 10]), (2, [11])] →
      ∃ o i, lookup? exampleSchedule.m_buffer2SwapOut b = some o ∧
        lookup? exampleSchedule.m_buffer2SwapIn b = some i ∧
        deref exampleSchedule.heap i = some (ActionObj.SwapInAction o b)) :=
  ⟨rfl,
    C5_success_gives_equal_sizes_and_registered_pair (SwapManager.new true 0 0 0 [])
      exampleSchedule [(1, [10, 11, 10]), (2, [11])] [(2, [10]), (1, [11])] [(1, [12])]
      [(1, 0), (2, 1)] [] rfl⟩

/-- The maximum loop started at `a`: the result is at least `a` and at least every time-step,
and it is `a` or one of the time-steps. -/
theorem foldl_max_spec (idx : UMap Node Int) (a : Int) :
    a ≤ idx.foldl (fun acc pair => if pair.2 > acc then pair.2 else acc) a ∧
    (∀ p ∈ idx, p.2 ≤ idx.foldl (fun acc pair => if pair.2 > acc then pair.2 else acc) a) ∧
    (idx.foldl (fun acc pair => if pair.2 > acc then pair.2 else acc) a = a ∨
      ∃ p ∈ idx, p.2 = idx.foldl (fun acc pair => if pair.2 > acc then pair.2 else acc) a) := by
  induction idx generalizing a with
  | nil => simp
  | cons q t ih =>
    simp only [List.foldl_cons]
    obtain ⟨h1, h2, h3⟩ := ih (if q.2 > a then q.2 else a)
    have hq : a ≤ (if q.2 > a then q.2 else a) ∧ q.2 ≤ (if q.2 > a then q.2 else a) := by
      split_ifs <;> constructor <;> omega
    refine ⟨le_trans hq.1 h1, ?_, ?_⟩
    · intro p hp
      rcases List.mem_cons.1 hp with rfl | hp
      · exact le_trans hq.2 h1
      · exact h2 p hp
    · rcases h3 with h3 | ⟨p, hp, hpe⟩
      · by_cases hqa : q.2 > a
        · right
          refine ⟨q, List.mem_cons_self _ _, ?_⟩
          rw [h3, if_pos hqa]
        · left
          rw [h3, if_neg hqa]
      · exact Or.inr ⟨p, List.mem_cons_of_mem _ hp, hpe⟩

/-- C6 (as stated) fails: with the one-entry table `1 ↦ -1` InitializeSwapping succeeds and
leaves `m_maxTimeStep = 0`, which is not the maximum time-step (-1) of the table. -/
theorem C6_counterexample :
    Except.map (fun r => r.1.m_maxTimeStep)
      ((SwapManager.new true 0 0 0 []).InitializeSwapping [] [] [] [(1, -1)]) = Except.ok 0 ∧
    ([(1, -1)] : UMap Node Int) ≠ [] ∧
    IsMaxTimeStep [(1, -1)] (-1) ∧
    ¬ IsMaxTimeStep [(1, -1)] 0 := by
  refine ⟨rfl, by simp, ?_, ?_⟩
  · simp [IsMaxTimeStep]
  · simp [IsMaxTimeStep]

/-- C6 (amended): after a successful InitializeSwapping, `m_maxTimeStep` is the larger of 0 and
the time-steps of the table: it is non-negative, at least every time-step, and either 0 or one
of the time-steps; so it is the maximum time-step of the table whenever the table contains a
non-negative time-step. -/
theorem C6_maxTimeStep_is_max_with_zero (s s1 : SwapManager)
    (fwd bwd free : UMap Node (List Buffer)) (idx : UMap Node Int) (tr : List Event)
    (h : s.InitializeSwapping fwd bwd free idx = Except.ok (s1, tr)) :
    0 ≤ s1.m_maxTimeStep ∧
    (∀ p ∈ idx, p.2 ≤ s1.m_maxTimeStep) ∧
    (s1.m_maxTimeStep = 0 ∨ ∃ p ∈ idx, p.2 = s1.m_maxTimeStep) ∧
    ((∃ p ∈ idx, 0 ≤ p.2) → IsMaxTimeStep idx s1.m_maxTimeStep) := by
  obtain ⟨_, _, hs1⟩ := InitializeSwapping_ok h
  have hm : s1.m_maxTimeStep = computeMaxTimeStep idx := by rw [hs1]
  obtain ⟨h1, h2, h3⟩ := foldl_max_spec idx 0
  rw [hm]
  refine ⟨h1, h2, h3, ?_⟩
  rintro ⟨p, hp, hp0⟩
  refine ⟨?_, h2⟩
  rcases h3 with h3 | h3
  · refine ⟨p, hp, ?_⟩
    have := h2 p hp
    unfold computeMaxTimeStep
    omega
  · exact h3

/-- Witness for C6 (amended): the example schedule, whose time-steps are 0 and 1. -/
theorem C6_maxTimeStep_is_max_with_zero_witness :
    (SwapManager.new true 0 0 0 []).InitializeSwapping
        [(1, [10, 11, 10]), (2, [11])] [(2, [10]), (1, [11])] [(1, [12])] [(1, 0), (2, 1)] =
      Except.ok (exampleSchedule, []) ∧
    (0 ≤ exampleSchedule.m_maxTimeStep ∧
    (∀ p ∈ ([(1, 0), (2, 1)] : UMap Node Int), p.2 ≤ exampleSchedule.m_maxTimeStep) ∧
    (exampleSchedule.m_maxTimeStep = 0 ∨
      ∃ p ∈ ([(1, 0), (2, 1)] : UMap Node Int), p.2 = exampleSchedule.m_maxTimeStep) ∧
    ((∃ p ∈ ([(1, 0), (2, 1)] : UMap Node Int), 0 ≤ p.2) →
      IsMaxTimeStep [(1, 0), (2, 1)] exampleSchedule.m_maxTimeStep)) :=
  ⟨rfl,
    C6_maxTimeStep_is_max_with_zero (SwapManager.new true 0 0 0 []) exampleSchedule
      [(1, [10, 11, 10]), (2, [11])] [(2, [10]), (1, [11])] [(1, [12])] [(1, 0), (2, 1)] [] rfl⟩

/-- C7: the code at the failing input.  On a new scheduler, InitializeSwapping with time-steps
`1 ↦ 0` leaves the index `0 ↦ 1`.  Called with the same arguments on a scheduler that holds an
earlier schedule with time-steps `1 ↦ 0, 2 ↦ 1`, it leaves the index `0 ↦ 1, 1 ↦ 2`: the entry
of time-step 1 of the earlier schedule survives, although step 2 is not part of the new
schedule and `m_maxTimeStep` is 0. -/
theorem C7_stale_timeStep2Node_entry :
    Except.map (fun r => (r.1.m_node2TimeStep, r.1.m_timeStep2Node, r.1.m_maxTimeStep))
      (runCalls (SwapManager.new true 0 0 0 [])
        [Call.InitializeSwapping [] [] [] [(1, 0)]]) =
      Except.ok ([(1, 0)], [(0, 1)], 0) ∧
    Except.map (fun r => (r.1.m_node2TimeStep, r.1.m_timeStep2Node, r.1.m_maxTimeStep))
      (runCalls (SwapManager.new true 0 0 0 [])
        [Call.InitializeSwapping [] [] [] [(1, 0), (2, 1)],
         Call.InitializeSwapping [] [] [] [(1, 0)]]) =
      Except.ok ([(1, 0)], [(0, 1), (1, 2)], 0) :=
  ⟨rfl, rfl⟩

theorem BeginSynchronizeState_of_disabled (s : SwapManager) (node : Node)
    (isForward isTraining : Bool) (h : s.m_useMemorySwapping = false ∨ isTraining = false) :
    s.BeginSynchronizeState node isForward isTraining = (s, []) := by
  unfold BeginSynchronizeState
  rcases h with h | h <;> simp [h]

theorem EndSynchronizeState_of_disabled (s : SwapManager) (node : Node)
    (isForward isTraining : Bool) (h : s.m_useMemorySwapping = false ∨ isTraining = false) :
    s.EndSynchronizeState node isForward isTraining = (s, []) := by
  unfold EndSynchronizeState
  rcases h with h | h <;> simp [h]

/-- C8: when swapping is disabled or training is not active, BeginSynchronizeState and
EndSynchronizeState return at once, for every state, step and pass direction: the trace of
BeginAction, EndAction and Resize events is empty and the state is unchanged. -/
theorem C8_hooks_are_noops_when_disabled (s : SwapManager) (node : Node)
    (isForward isTraining : Bool) (h : s.m_useMemorySwapping = false ∨ isTraining = false) :
    (s.BeginSynchronizeState node isForward isTraining).2 = [] ∧
    (s.EndSynchronizeState node isForward isTraining).2 = [] ∧
    (s.BeginSynchronizeState node isForward isTraining).1 = s ∧
    (s.EndSynchronizeState node isForward isTraining).1 = s := by
  rw [BeginSynchronizeState_of_disabled s node isForward isTraining h,
    EndSynchronizeState_of_disabled s node isForward isTraining h]
  exact ⟨rfl, rfl, rfl, rfl⟩

/-- Witness for C8: the example schedule outside training, on the backward visit of step 2,
for which a swap-in is scheduled. -/
theorem C8_hooks_are_noops_when_disabled_witness :
    (exampleSchedule.m_useMemorySwapping = false ∨ false = false) ∧
    ((exampleSchedule.BeginSynchronizeState 2 false false).2 = [] ∧
    (exampleSchedule.EndSynchronizeState 2 false false).2 = [] ∧
    (exampleSchedule.BeginSynchronizeState 2 false false).1 = exampleSchedule ∧
    (exampleSchedule.EndSynchronizeState 2 false false).1 = exampleSchedule) :=
  ⟨Or.inr rfl, C8_hooks_are_noops_when_disabled exampleSchedule 2 false false (Or.inr rfl)⟩

theorem setupSwapOut_of_all_empty (s : SwapManager) (table : UMap Node (List Buffer))
    (h : table.all (fun p => p.2.isEmpty) = true) : setupSwapOut s table = s := by
  unfold setupSwapOut
  induction table with
  | nil => rfl
  | cons p t ih =>
    simp only [List.all_cons, Bool.and_eq_true, List.isEmpty_iff] at h
    simp only [List.foldl_cons, h.1, List.foldl_nil]
    exact ih h.2

theorem setupSwapIn_of_all_empty (s : SwapManager) (table : UMap Node (List Buffer))
    (h : table.all (fun p => p.2.isEmpty) = true) : setupSwapIn s table = s := by
  unfold setupSwapIn
  induction table with
  | nil => rfl
  | cons p t ih =>
    simp only [List.all_cons, Bool.and_eq_true, List.isEmpty_iff] at h
    simp only [List.foldl_cons, h.1, List.foldl_nil]
    exact ih h.2

/-- A call that hands no buffer to the set-up loops, made on a disabled scheduler without
actions, leaves it so, allocates nothing and produces no event. -/
theorem call_run_disabledAndEmpty {s s1 : SwapManager} {tr : List Event} (c : Call)
    (hc : c.listsNoBuffer = true) (hs : DisabledAndEmpty s)
    (h : c.run s = Except.ok (s1, tr)) :
    DisabledAndEmpty s1 ∧ s1.heap = s.heap ∧ tr = [] := by
  obtain ⟨hflag, hin, hout, hfwd, hbwd⟩ := hs
  cases c with
  | InitializeSwapping fwd bwd free idx =>
    simp only [Call.listsNoBuffer, Bool.and_eq_true] at hc
    obtain ⟨_, htr, hs1⟩ := InitializeSwapping_ok h
    rw [setupSwapOut_of_all_empty _ fwd hc.1, setupSwapIn_of_all_empty _ bwd hc.2] at hs1
    subst hs1
    refine ⟨⟨hflag, rfl, rfl, rfl, rfl⟩, rfl, ?_⟩
    rw [htr, CleanUp, hout]
    rfl
  | BeginSynchronizeState node isForward isTraining =>
    simp only [Call.run, Except.ok.injEq] at h
    rw [BeginSynchronizeState_of_disabled s node isForward isTraining (Or.inl hflag)] at h
    simp only [Prod.mk.injEq] at h
    obtain ⟨rfl, rfl⟩ := h
    exact ⟨⟨hflag, hin, hout, hfwd, hbwd⟩, rfl, rfl⟩
  | EndSynchronizeState node isForward isTraining =>
    simp only [Call.run, Except.ok.injEq] at h
    rw [EndSynchronizeState_of_disabled s node isForward isTraining (Or.inl hflag)] at h
    simp only [Prod.mk.injEq] at h
    obtain ⟨rfl, rfl⟩ := h
    exact ⟨⟨hflag, hin, hout, hfwd, hbwd⟩, rfl, rfl⟩
  | ClearActionsAndTheirMemory =>
    simp only [Call.run, Except.ok.injEq, ClearActionsAndTheirMemory, Prod.mk.injEq] at h
    obtain ⟨rfl, rfl⟩ := h
    refine ⟨⟨hflag, rfl, rfl, rfl, rfl⟩, rfl, ?_⟩
    rw [CleanUp, hout]
    rfl

theorem runCalls_disabledAndEmpty {s s1 : SwapManager} {tr : List Event} (calls : List Call)
    (hc : ∀ c ∈ calls, c.listsNoBuffer = true) (hs : DisabledAndEmpty s)
    (h : runCalls s calls = Except.ok (s1, tr)) :
    DisabledAndEmpty s1 ∧ s1.heap = s.heap ∧ tr = [] := by
  induction calls generalizing s tr with
  | nil =>
    simp only [runCalls, Except.ok.injEq, Prod.mk.injEq] at h
    obtain ⟨rfl, rfl⟩ := h
    exact ⟨hs, rfl, rfl⟩
  | cons c cs ih =>
    obtain ⟨s', tr1, tr2, h1, h2, htr⟩ := runCalls_cons_ok h
    obtain ⟨a1, a2, a3⟩ := call_run_disabledAndEmpty c (hc c (List.mem_cons_self _ _)) hs h1
    obtain ⟨b1, b2, b3⟩ := ih (fun c' hc' => hc c' (List.mem_cons_of_mem _ hc')) a1 h2
    exact ⟨b1, b2.trans a2, by rw [htr, a3, b3]; rfl⟩

/-- C9 (as stated) fails: on a scheduler constructed with swapping disabled, InitializeSwapping
with forward table `1 ↦ [10]` and backward table `1 ↦ [10]` creates a swap-out and a swap-in
action for buffer 10, registers them and lists them for step 1. -/
theorem C9_counterexample :
    (SwapManager.new false 0 0 0 []).m_useMemorySwapping = false ∧
    Except.map (fun r => (r.1.m_buffer2SwapOut, r.1.m_buffer2SwapIn, r.1.m_node2ForwardSwapOut,
        r.1.m_node2BackwardSwapin, r.1.heap))
      (runCalls (SwapManager.new false 0 0 0 [])
        [Call.InitializeSwapping [(1, [10])] [(1, [10])] [] [(1, 0)]]) =
      Except.ok ([(10, 1)], [(10, 2)], [(1, [1])], [(1, [2])],
        [ActionObj.SwapOutAction 10, ActionObj.SwapInAction 1 10]) :=
  ⟨rfl, rfl⟩

/-- C9 (amended): on a scheduler constructed with swapping disabled, after any sequence of hook
calls, clear calls and InitializeSwapping calls whose forward and backward tables list no
buffer, both registries and both per-step action tables are empty, no action object has been
created and no event has been produced.  (InitializeSwapping does not look at the flag.) -/
theorem C9_disabled_no_actions_without_listed_buffers (free total : Nat) (maxTimeStep : Int)
    (heap : List ActionObj) (calls : List Call) (s : SwapManager) (tr : List Event)
    (hc : ∀ c ∈ calls, c.listsNoBuffer = true)
    (h : runCalls (SwapManager.new false free total maxTimeStep heap) calls = Except.ok (s, tr)) :
    s.m_buffer2SwapOut = [] ∧ s.m_buffer2SwapIn = [] ∧
    s.m_node2ForwardSwapOut = [] ∧ s.m_node2BackwardSwapin = [] ∧
    (∀ n, lookupD s.m_node2ForwardSwapOut n = [] ∧ lookupD s.m_node2BackwardSwapin n = []) ∧
    s.heap = heap ∧ tr = [] ∧ s.m_useMemorySwapping = false := by
  obtain ⟨⟨h1, h2, h3, h4, h5⟩, h6, h7⟩ :=
    runCalls_disabledAndEmpty calls hc ⟨rfl, rfl, rfl, rfl, rfl⟩ h
  refine ⟨h3, h2, h4, h5, ?_, h6, h7, h1⟩
  intro n
  rw [h4, h5]
  exact ⟨rfl, rfl⟩

/-- Witness for C9 (amended): hooks, a clear and an InitializeSwapping whose tables have
entries without buffers, on a disabled scheduler. -/
theorem C9_disabled_no_actions_without_listed_buffers_witness :
    (∀ c ∈ [Call.BeginSynchronizeState 1 false true,
        Call.InitializeSwapping [(1, [])] [(2, [])] [(1, [12])] [(1, 0), (2, 1)],
        Call.EndSynchronizeState 1 true true, Call.ClearActionsAndTheirMemory],
      c.listsNoBuffer = true) ∧
    runCalls (SwapManager.new false 0 0 0 [])
      [Call.BeginSynchronizeState 1 false true,
        Call.InitializeSwapping [(1, [])] [(2, [])] [(1, [12])] [(1, 0), (2, 1)],
        Call.EndSynchronizeState 1 true true, Call.ClearActionsAndTheirMemory] =
      Except.ok ({ SwapManager.new false 0 0 1 [] with
        m_node2TimeStep := [(1, 0), (2, 1)], m_timeStep2Node := [(0, 1), (1, 2)] }, []) ∧
    (({ SwapManager.new false 0 0 1 [] with
        m_node2TimeStep := [(1, 0), (2, 1)], m_timeStep2Node := [(0, 1), (1, 2)] } :
      SwapManager).m_buffer2SwapOut = []) :=
  ⟨by simp [Call.listsNoBuffer], rfl,
    (C9_disabled_no_actions_without_listed_buffers 0 0 0 []
      [Call.BeginSynchronizeState 1 false true,
        Call.InitializeSwapping [(1, [])] [(2, [])] [(1, [12])] [(1, 0), (2, 1)],
        Call.EndSynchronizeState 1 true true, Call.ClearActionsAndTheirMemory]
      { SwapManager.new false 0 0 1 [] with
        m_node2TimeStep := [(1, 0), (2, 1)], m_timeStep2Node := [(0, 1), (1, 2)] } []
      (by simp [Call.listsNoBuffer]) rfl).1⟩

theorem subscript_fst {K V : Type} [DecidableEq K] [Inhabited V] (m : UMap K V) (k : K) :
    (subscript m k).1 = lookupD m k := by
  unfold subscript lookupD
  cases lookup? m k <;> rfl

theorem lookupD_subscript_snd {K V : Type} [DecidableEq K] [Inhabited V] (m : UMap K V)
    (k k' : K) : lookupD (subscript m k).2 k' = lookupD m k' := by
  unfold subscript
  cases hk : lookup? m k with
  | some v => rfl
  | none =>
    simp only [lookupD]
    cases hk' : lookup? m k' with
    | some v => rw [lookup?_append_of_some _ _ _ _ hk']
    | none =>
      rw [lookup?_append_of_none _ _ _ hk']
      by_cases h : k = k'
      · simp [lookup?, h]
      · simp [lookup?, h]

/-- C10: with swapping enabled and training active, BeginSynchronizeState on a backward pass
for a step whose backward-swap-in list is `[a1, …, an]` produces exactly the events
`BeginAction a1, EndAction a1, …, BeginAction an, EndAction an`; every event concerns an action
of that list; the registries, the free store, the forward lists, the free table and the
backward list of every step are unchanged; and on a forward pass there is no event and no
change at all. -/
theorem C10_begin_runs_swapins_in_order (s : SwapManager) (node : Node)
    (h : s.m_useMemorySwapping = true) :
    (s.BeginSynchronizeState node false true).2 =
      (lookupD s.m_node2BackwardSwapin node).flatMap
        (fun a => [Event.BeginAction a, Event.EndAction a]) ∧
    (∀ e ∈ (s.BeginSynchronizeState node false true).2,
      ∃ a ∈ lookupD s.m_node2BackwardSwapin node, e = Event.BeginAction a ∨ e = Event.EndAction a) ∧
    (s.BeginSynchronizeState node false true).2.length =
      2 * (lookupD s.m_node2BackwardSwapin node).length ∧
    ((s.BeginSynchronizeState node false true).1.m_buffer2SwapIn = s.m_buffer2SwapIn ∧
     (s.BeginSynchronizeState node false true).1.m_buffer2SwapOut = s.m_buffer2SwapOut ∧
     (s.BeginSynchronizeState node false true).1.heap = s.heap ∧
     (s.BeginSynchronizeState node false true).1.m_node2ForwardSwapOut = s.m_node2ForwardSwapOut ∧
     (s.BeginSynchronizeState node false true).1.m_node2BackwardFree = s.m_node2BackwardFree ∧
     ∀ n, lookupD (s.BeginSynchronizeState node false true).1.m_node2BackwardSwapin n =
       lookupD s.m_node2BackwardSwapin n) ∧
    s.BeginSynchronizeState node true true = (s, []) := by
  have hb : s.BeginSynchronizeState node false true =
      ({ s with m_node2BackwardSwapin := (subscript s.m_node2BackwardSwapin node).2 },
        runActions (subscript s.m_node2BackwardSwapin node).1) := by
    simp [BeginSynchronizeState, h]
  have hf : s.BeginSynchronizeState node true true = (s, []) := by
    simp [BeginSynchronizeState, h]
  have htr : runActions (subscript s.m_node2BackwardSwapin node).1 =
      (lookupD s.m_node2BackwardSwapin node).flatMap
        (fun a => [Event.BeginAction a, Event.EndAction a]) := by
    rw [subscript_fst]; rfl
  have h2 : (s.BeginSynchronizeState node false true).2 =
      (lookupD s.m_node2BackwardSwapin node).flatMap
        (fun a => [Event.BeginAction a, Event.EndAction a]) := by
    rw [hb]; exact htr
  have h1 : (s.BeginSynchronizeState node false true).1 =
      { s with m_node2BackwardSwapin := (subscript s.m_node2BackwardSwapin node).2 } := by
    rw [hb]
  rw [h1, h2]
  refine ⟨rfl, ?_, ?_, ⟨rfl, rfl, rfl, rfl, rfl, fun n => lookupD_subscript_snd _ _ _⟩, hf⟩
  · intro e he
    obtain ⟨a, ha, hea⟩ := List.mem_flatMap.1 he
    refine ⟨a, ha, ?_⟩
    simpa using hea
  · generalize lookupD s.m_node2BackwardSwapin node = l
    induction l with
    | nil => rfl
    | cons a t ih =>
      simp only [List.flatMap_cons, List.length_append, List.length_cons, List.length_nil, ih]
      omega

/-- Witness for C10: the backward visit of step 2 of the example schedule, whose swap-in list
is the single action 2. -/
theorem C10_begin_runs_swapins_in_order_witness :
    exampleSchedule.m_useMemorySwapping = true ∧
    (exampleSchedule.BeginSynchronizeState 2 false true).2 =
      [Event.BeginAction 2, Event.EndAction 2] ∧
    exampleSchedule.BeginSynchronizeState 2 true true = (exampleSchedule, []) :=
  ⟨rfl, (C10_begin_runs_swapins_in_order exampleSchedule 2 rfl).1,
    (C10_begin_runs_swapins_in_order exampleSchedule 2 rfl).2.2.2.2⟩

theorem mirrors_mem {reg : UMap Buffer ActionPtr} {as : List ActionPtr} {bs : List Buffer}
    (h : Mirrors reg as bs) {a : ActionPtr} (ha : a ∈ as) :
    ∃ b ∈ bs, lookup? reg b = some a := by
  induction h with
  | nil => cases ha
  | cons hab _ ih =>
    rcases List.mem_cons.1 ha with rfl | ha
    · exact ⟨_, List.mem_cons_self _ _, hab⟩
    · obtain ⟨b, hb, hba⟩ := ih ha
      exact ⟨b, List.mem_cons_of_mem _ hb, hba⟩

theorem regOK_deref_out {s : SwapManager} (h : RegOK s) {b : Buffer} {o : ActionPtr}
    (ho : lookup? s.m_buffer2SwapOut b = some o) :
    deref s.heap o = some (ActionObj.SwapOutAction b) := by
  obtain ⟨i, hi⟩ := regOK_lookup_out_of_in h ho
  obtain ⟨o', ho', hd, _⟩ := h.linked b i hi
  rw [ho] at ho'
  cases ho'
  exact hd

theorem regOK_deref_in {s : SwapManager} (h : RegOK s) {b : Buffer} {i : ActionPtr}
    (hi : lookup? s.m_buffer2SwapIn b = some i) :
    ∃ o, deref s.heap i = some (ActionObj.SwapInAction o b) := by
  obtain ⟨o, _, _, hd⟩ := h.linked b i hi
  exact ⟨o, hd⟩

/-- After a successful `InitializeSwapping` the per-step lists hold valid action pointers. -/
theorem InitializeSwapping_actionsValid {s s1 : SwapManager}
    {fwd bwd free : UMap Node (List Buffer)} {idx : UMap Node Int} {tr : List Event}
    (h : s.InitializeSwapping fwd bwd free idx = Except.ok (s1, tr)) : ActionsValid s1 := by
  obtain ⟨⟨hok, _⟩, hmf, hmb, _, _⟩ := InitializeSwapping_spec h
  constructor
  · intro n a ha
    obtain ⟨b, _, hb⟩ := mirrors_mem (hmf n) ha
    exact ⟨b, regOK_deref_out hok hb⟩
  · intro n a ha
    obtain ⟨b, _, hb⟩ := mirrors_mem (hmb n) ha
    obtain ⟨o, ho⟩ := regOK_deref_in hok hb
    exact ⟨o, b, ho⟩

/-- C11: with swapping enabled and training active, EndSynchronizeState on a forward pass for a
step whose forward-swap-out list is `[a1, …, an]` produces exactly the events
`BeginAction a1, EndAction a1, …, BeginAction an, EndAction an`: every event is the begin or
the end of an action of that list, so there is no Resize and no action of another step or of
a backward-swap-in list is run; when the schedule comes from InitializeSwapping the actions run
are swap-out action objects.  The registries, the free store, the backward lists, the free
table and the forward list of every step are unchanged. -/
theorem C11_end_forward_runs_swapouts_in_order (s : SwapManager) (node : Node)
    (h : s.m_useMemorySwapping = true) :
    (s.EndSynchronizeState node true true).2 =
      (lookupD s.m_node2ForwardSwapOut node).flatMap
        (fun a => [Event.BeginAction a, Event.EndAction a]) ∧
    (∀ e ∈ (s.EndSynchronizeState node true true).2,
      ∃ a ∈ lookupD s.m_node2ForwardSwapOut node, e = Event.BeginAction a ∨ e = Event.EndAction a) ∧
    (∀ (s0 : SwapManager) (fwd bwd free : UMap Node (List Buffer)) (idx : UMap Node Int)
      (tr0 : List Event), s0.InitializeSwapping fwd bwd free idx = Except.ok (s, tr0) →
      ∀ a ∈ lookupD s.m_node2ForwardSwapOut node,
        ∃ b, deref s.heap a = some (ActionObj.SwapOutAction b)) ∧
    ((s.EndSynchronizeState node true true).1.m_buffer2SwapIn = s.m_buffer2SwapIn ∧
     (s.EndSynchronizeState node true true).1.m_buffer2SwapOut = s.m_buffer2SwapOut ∧
     (s.EndSynchronizeState node true true).1.heap = s.heap ∧
     (s.EndSynchronizeState node true true).1.m_node2BackwardSwapin = s.m_node2BackwardSwapin ∧
     (s.EndSynchronizeState node true true).1.m_node2BackwardFree = s.m_node2BackwardFree ∧
     ∀ n, lookupD (s.EndSynchronizeState node true true).1.m_node2ForwardSwapOut n =
       lookupD s.m_node2ForwardSwapOut n) := by
  have he : s.EndSynchronizeState node true true =
      ({ s with m_node2ForwardSwapOut := (subscript s.m_node2ForwardSwapOut node).2 },
        runActions (subscript s.m_node2ForwardSwapOut node).1) := by
    simp [EndSynchronizeState, h]
  have htr : runActions (subscript s.m_node2ForwardSwapOut node).1 =
      (lookupD s.m_node2ForwardSwapOut node).flatMap
        (fun a => [Event.BeginAction a, Event.EndAction a]) := by
    rw [subscript_fst]; rfl
  have h2 : (s.EndSynchronizeState node true true).2 =
      (lookupD s.m_node2ForwardSwapOut node).flatMap
        (fun a => [Event.BeginAction a, Event.EndAction a]) := by
    rw [he]; exact htr
  have h1 : (s.EndSynchronizeState node true true).1 =
      { s with m_node2ForwardSwapOut := (subscript s.m_node2ForwardSwapOut node).2 } := by
    rw [he]
  rw [h1, h2]
  refine ⟨rfl, ?_, ?_, ⟨rfl, rfl, rfl, rfl, rfl, fun n => lookupD_subscript_snd _ _ _⟩⟩
  · intro e he
    obtain ⟨a, ha, hea⟩ := List.mem_flatMap.1 he
    refine ⟨a, ha, ?_⟩
    simpa using hea
  · intro s0 fwd bwd free idx tr0 hinit a ha
    exact (InitializeSwapping_actionsValid hinit).1 node a ha

/-- Witness for C11: the forward visit of step 1 of the example schedule, whose swap-out list
is the actions 1, 3, 1. -/
theorem C11_end_forward_runs_swapouts_in_order_witness :
    exampleSchedule.m_useMemorySwapping = true ∧
    (exampleSchedule.EndSynchronizeState 1 true true).2 =
      [Event.BeginAction 1, Event.EndAction 1, Event.BeginAction 3, Event.EndAction 3,
        Event.BeginAction 1, Event.EndAction 1] :=
  ⟨rfl, (C11_end_forward_runs_swapouts_in_order exampleSchedule 1 rfl).1⟩

theorem applyTrace_resize_of_mem (extent : Buffer → Nat) (l : List Buffer) (b : Buffer)
    (hb : b ∈ l) : applyTrace extent (l.map Event.Resize) b = 0 := by
  unfold applyTrace
  induction l using List.reverseRecOn with
  | nil => cases hb
  | append_singleton l x ih =>
    simp only [List.map_append, List.map_cons, List.map_nil, List.foldl_append, List.foldl_cons,
      List.foldl_nil, applyEvent]
    by_cases hx : b = x
    · simp [hx]
    · rcases List.mem_append.1 hb with hb | hb
      · simp only [if_neg hx]
        exact ih hb
      · simp at hb
        exact absurd hb hx

theorem applyTrace_resize_of_not_mem (extent : Buffer → Nat) (l : List Buffer) (b : Buffer)
    (hb : b ∉ l) : applyTrace extent (l.map Event.Resize) b = extent b := by
  unfold applyTrace
  induction l using List.reverseRecOn with
  | nil => rfl
  | append_singleton l x ih =>
    simp only [List.map_append, List.map_cons, List.map_nil, List.foldl_append, List.foldl_cons,
      List.foldl_nil, applyEvent]
    simp only [List.mem_append, List.mem_singleton, not_or] at hb
    rw [if_neg hb.2]
    exact ih hb.1

/-- C12: with swapping enabled and training active, EndSynchronizeState on a backward pass for
a step produces exactly one Resize event for every entry of the step's free list, in list
order, and no other event (so no action is begun or ended, whatever the step's forward list
holds); after the events every buffer of the list has extent zero and every buffer absent from
the list has the extent it had; the registries, the free store, both action tables and the
free list of every step are unchanged. -/
theorem C12_end_backward_frees_listed_buffers (s : SwapManager) (node : Node)
    (extent : Buffer → Nat) (h : s.m_useMemorySwapping = true) :
    (s.EndSynchronizeState node false true).2 =
      (lookupD s.m_node2BackwardFree node).map Event.Resize ∧
    (∀ e ∈ (s.EndSynchronizeState node false true).2,
      ∃ b ∈ lookupD s.m_node2BackwardFree node, e = Event.Resize b) ∧
    (∀ b ∈ lookupD s.m_node2BackwardFree node,
      applyTrace extent (s.EndSynchronizeState node false true).2 b = 0) ∧
    (∀ b, b ∉ lookupD s.m_node2BackwardFree node →
      applyTrace extent (s.EndSynchronizeState node false true).2 b = extent b) ∧
    ((s.EndSynchronizeState node false true).1.m_buffer2SwapIn = s.m_buffer2SwapIn ∧
     (s.EndSynchronizeState node false true).1.m_buffer2SwapOut = s.m_buffer2SwapOut ∧
     (s.EndSynchronizeState node false true).1.heap = s.heap ∧
     (s.EndSynchronizeState node false true).1.m_node2ForwardSwapOut = s.m_node2ForwardSwapOut ∧
     (s.EndSynchronizeState node false true).1.m_node2BackwardSwapin = s.m_node2BackwardSwapin ∧
     ∀ n, lookupD (s.EndSynchronizeState node false true).1.m_node2BackwardFree n =
       lookupD s.m_node2BackwardFree n) := by
  have he : s.EndSynchronizeState node false true =
      ({ s with m_node2BackwardFree := (subscript s.m_node2BackwardFree node).2 },
        (subscript s.m_node2BackwardFree node).1.map Event.Resize) := by
    simp [EndSynchronizeState, h]
  have h2 : (s.EndSynchronizeState node false true).2 =
      (lookupD s.m_node2BackwardFree node).map Event.Resize := by
    rw [he, ← subscript_fst]
  have h1 : (s.EndSynchronizeState node false true).1 =
      { s with m_node2BackwardFree := (subscript s.m_node2BackwardFree node).2 } := by
    rw [he]
  rw [h1, h2]
  refine ⟨rfl, ?_, ?_, ?_, ⟨rfl, rfl, rfl, rfl, rfl, fun n => lookupD_subscript_snd _ _ _⟩⟩
  · intro e he
    obtain ⟨b, hb, hbe⟩ := List.mem_map.1 he
    exact ⟨b, hb, hbe.symm⟩
  · intro b hb
    exact applyTrace_resize_of_mem extent _ b hb
  · intro b hb
    exact applyTrace_resize_of_not_mem extent _ b hb

/-- Witness for C12: the backward visit of step 1 of the example schedule, which frees buffer
12 although step 1 has three forward swap-outs scheduled. -/
theorem C12_end_backward_frees_listed_buffers_witness :
    exampleSchedule.m_useMemorySwapping = true ∧
    (exampleSchedule.EndSynchronizeState 1 false true).2 = [Event.Resize 12] ∧
    lookupD exampleSchedule.m_node2ForwardSwapOut 1 = [1, 3, 1] :=
  ⟨rfl, (C12_end_backward_frees_listed_buffers exampleSchedule 1 (fun _ => 5) rfl).1, rfl⟩

theorem mem_of_lookup? {K V : Type} [DecidableEq K] (m : UMap K V) (k : K) (v : V)
    (h : lookup? m k = some v) : (k, v) ∈ m := by
  induction m with
  | nil => simp [lookup?] at h
  | cons p m ih =>
    obtain ⟨k', v'⟩ := p
    by_cases hk : k' = k
    · simp only [lookup?, hk, if_true, Option.some.injEq] at h
      simp [hk, h]
    · simp only [lookup?, hk, if_false] at h
      exact List.mem_cons_of_mem _ (ih h)

theorem lookup?_of_mem {K V : Type} [DecidableEq K] (m : UMap K V) (k : K) (v : V)
    (hn : (keys m).Nodup) (h : (k, v) ∈ m) : lookup? m k = some v := by
  induction m with
  | nil => cases h
  | cons p m ih =>
    obtain ⟨k', v'⟩ := p
    simp only [keys, List.map_cons, List.nodup_cons] at hn
    rcases List.mem_cons.1 h with h | h
    · cases h
      simp [lookup?]
    · have hk : ¬ k' = k := by
        intro e
        subst e
        exact hn.1 (List.mem_map.2 ⟨(k', v), h, rfl⟩)
      simp only [lookup?, hk, if_false]
      exact ih hn.2 h

theorem values_nodup_of_injective {K V : Type} (m : UMap K V) (hn : (keys m).Nodup)
    (hinj : ∀ p ∈ m, ∀ q ∈ m, p.2 = q.2 → p.1 = q.1) : (m.map Prod.snd).Nodup := by
  induction m with
  | nil => exact List.nodup_nil
  | cons p m ih =>
    simp only [keys, List.map_cons, List.nodup_cons] at hn
    simp only [List.map_cons, List.nodup_cons]
    refine ⟨?_, ih hn.2 (fun a ha b hb => hinj a (List.mem_cons_of_mem _ ha) b
      (List.mem_cons_of_mem _ hb))⟩
    intro hmem
    obtain ⟨q, hq, hq2⟩ := List.mem_map.1 hmem
    have := hinj q (List.mem_cons_of_mem _ hq) p (List.mem_cons_self _ _) hq2
    exact hn.1 (List.mem_map.2 ⟨q, hq, this⟩)

/-- In a consistent state, distinct buffers are registered with distinct swap-out actions. -/
theorem regOK_swapOut_nodup {s : SwapManager} (h : RegOK s) :
    (s.m_buffer2SwapOut.map Prod.snd).Nodup := by
  refine values_nodup_of_injective _ h.nodup ?_
  intro p hp q hq hpq
  have h1 := regOK_deref_out h (lookup?_of_mem _ p.1 p.2 h.nodup hp)
  have h2 := regOK_deref_out h (lookup?_of_mem _ q.1 q.2 h.nodup hq)
  rw [hpq, h2] at h1
  simp only [Option.some.injEq, ActionObj.SwapOutAction.injEq] at h1
  exact h1.symm

theorem count_release (l : List ActionPtr) (o : ActionPtr) :
    (l.map Event.ReleaseMemory).count (Event.ReleaseMemory o) = l.count o := by
  induction l with
  | nil => rfl
  | cons a l ih =>
    by_cases ha : a = o
    · subst ha
      simp [ih]
    · have : ¬ Event.ReleaseMemory a = Event.ReleaseMemory o := by
        intro e
        cases e
        exact ha rfl
      simp [List.count_cons, ha, this, ih]

/-- C13 (as stated) fails: after InitializeSwapping with empty forward and backward tables and
the free table `1 ↦ [12]` both registries are empty and the free table is stored; a
ClearActionsAndTheirMemory on this state empties the free table, so it does change the
state. -/
theorem C13_counterexample :
    Except.map (fun r => (r.1.m_buffer2SwapOut, r.1.m_buffer2SwapIn, r.1.m_node2BackwardFree))
      (runCalls (SwapManager.new true 0 0 0 [])
        [Call.InitializeSwapping [] [] [(1, [12])] []]) =
      Except.ok ([], [], [(1, [12])]) ∧
    Except.map (fun r => (r.1.m_buffer2SwapOut, r.1.m_buffer2SwapIn, r.1.m_node2BackwardFree))
      (runCalls (SwapManager.new true 0 0 0 [])
        [Call.InitializeSwapping [] [] [(1, [12])] [], Call.ClearActionsAndTheirMemory]) =
      Except.ok ([], [], []) :=
  ⟨rfl, rfl⟩

/-- C13 (amended): in every state reached by public calls, ClearActionsAndTheirMemory produces
one ReleaseMemory event per entry of the swap-out registry and nothing else, so that every
registered swap-out action is released exactly once; afterwards both registries and all three
per-step tables are empty.  On a state with an empty swap-out registry nothing is released; on
a state whose registries and per-step tables are all empty nothing changes; and a clear after a
clear releases nothing and changes nothing. -/
theorem C13_clear_releases_once_and_empties (g : Bool) (free total : Nat) (maxTimeStep : Int)
    (heap : List ActionObj) (calls : List Call) (s : SwapManager) (tr : List Event)
    (h : runCalls (SwapManager.new g free total maxTimeStep heap) calls = Except.ok (s, tr)) :
    s.ClearActionsAndTheirMemory.2 =
      s.m_buffer2SwapOut.map (fun p => Event.ReleaseMemory p.2) ∧
    (∀ b o, lookup? s.m_buffer2SwapOut b = some o →
      s.ClearActionsAndTheirMemory.2.count (Event.ReleaseMemory o) = 1) ∧
    (∀ e ∈ s.ClearActionsAndTheirMemory.2,
      ∃ b o, lookup? s.m_buffer2SwapOut b = some o ∧ e = Event.ReleaseMemory o) ∧
    (s.ClearActionsAndTheirMemory.1.m_buffer2SwapIn = [] ∧
     s.ClearActionsAndTheirMemory.1.m_buffer2SwapOut = [] ∧
     s.ClearActionsAndTheirMemory.1.m_node2ForwardSwapOut = [] ∧
     s.ClearActionsAndTheirMemory.1.m_node2BackwardSwapin = [] ∧
     s.ClearActionsAndTheirMemory.1.m_node2BackwardFree = []) ∧
    (s.m_buffer2SwapOut = [] → s.ClearActionsAndTheirMemory.2 = []) ∧
    (s.m_buffer2SwapIn = [] → s.m_buffer2SwapOut = [] → s.m_node2ForwardSwapOut = [] →
      s.m_node2BackwardSwapin = [] → s.m_node2BackwardFree = [] →
      s.ClearActionsAndTheirMemory = (s, [])) ∧
    s.ClearActionsAndTheirMemory.1.ClearActionsAndTheirMemory =
      (s.ClearActionsAndTheirMemory.1, []) := by
  have hok := runCalls_regOK calls (regOK_new g free total maxTimeStep heap) h
  have htr : s.ClearActionsAndTheirMemory.2 =
      (s.m_buffer2SwapOut.map Prod.snd).map Event.ReleaseMemory := by
    simp [ClearActionsAndTheirMemory, CleanUp, List.map_map, Function.comp_def]
  refine ⟨rfl, ?_, ?_, ⟨rfl, rfl, rfl, rfl, rfl⟩, ?_, ?_, rfl⟩
  · intro b o ho
    rw [htr, count_release]
    exact List.count_eq_one_of_mem (regOK_swapOut_nodup hok)
      (List.mem_map.2 ⟨(b, o), mem_of_lookup? _ _ _ ho, rfl⟩)
  · intro e he
    obtain ⟨p, hp, hpe⟩ := List.mem_map.1 he
    exact ⟨p.1, p.2, lookup?_of_mem _ _ _ hok.nodup hp, hpe.symm⟩
  · intro ho
    simp [ClearActionsAndTheirMemory, CleanUp, ho]
  · intro h1 h2 h3 h4 h5
    obtain ⟨a1, a2, a3, a4, a5, a6, a7, a8, a9, a10, a11, a12⟩ := s
    simp only at h1 h2 h3 h4 h5
    subst h1 h2 h3 h4 h5
    rfl

/-- Witness for C13 (amended): the example schedule, whose swap-out registry holds the actions
1 and 3. -/
theorem C13_clear_releases_once_and_empties_witness :
    runCalls (SwapManager.new true 0 0 0 [])
        [Call.InitializeSwapping [(1, [10, 11, 10]), (2, [11])] [(2, [10]), (1, [11])]
           [(1, [12])] [(1, 0), (2, 1)]] = Except.ok (exampleSchedule, []) ∧
    exampleSchedule.ClearActionsAndTheirMemory.2 =
      [Event.ReleaseMemory 1, Event.ReleaseMemory 3] :=
  ⟨rfl,
    (C13_clear_releases_once_and_empties true 0 0 0 []
      [Call.InitializeSwapping [(1, [10, 11, 10]), (2, [11])] [(2, [10]), (1, [11])]
         [(1, [12])] [(1, 0), (2, 1)]] exampleSchedule [] rfl).1⟩

theorem addActionSizes_ne_assertionFailed (BufferSize : Buffer → Nat) (heap : List ActionObj)
    (size : ℚ) (l : List ActionPtr) :
    addActionSizes BufferSize heap size l ≠ Except.error Failure.assertionFailed := by
  induction l generalizing size with
  | nil => simp [addActionSizes]
  | cons a l ih =>
    unfold addActionSizes
    cases hg : GetGPUMatrix heap a with
    | error e =>
      unfold GetGPUMatrix at hg
      cases hd : deref heap a with
      | none =>
        rw [hd] at hg
        simp only [Except.error.injEq] at hg
        subst hg
        simp
      | some obj =>
        rw [hd] at hg
        cases hg
    | ok b => exact ih _

theorem cumulativeMemoryBody_forward_ok (BufferSize : Buffer → Nat) (st : CumulativeMemoryLoop)
    (r : ℚ) (hm : st.forwardMode = true)
    (h : addActionSizes BufferSize st.s.heap st.swapOutSize
      (lookupD st.s.m_node2ForwardSwapOut (nodeOfTimeStep st.s st.i)) = Except.ok r) :
    cumulativeMemoryBody BufferSize st =
      Except.ok (cumulativeMemoryAdvance st (stateAfterForwardVisit st.s st.i)
        st.swapInSize r st.freedSize) := by
  unfold nodeOfTimeStep at h
  simp only [cumulativeMemoryBody, hm, if_true, subscript_fst, h]
  rfl

theorem cumulativeMemoryBody_forward_error (BufferSize : Buffer → Nat)
    (st : CumulativeMemoryLoop) (e : Failure) (hm : st.forwardMode = true)
    (h : addActionSizes BufferSize st.s.heap st.swapOutSize
      (lookupD st.s.m_node2ForwardSwapOut (nodeOfTimeStep st.s st.i)) = Except.error e) :
    cumulativeMemoryBody BufferSize st = Except.error e := by
  unfold nodeOfTimeStep at h
  simp only [cumulativeMemoryBody, hm, if_true, subscript_fst, h]

theorem cumulativeMemoryBody_backward_ok (BufferSize : Buffer → Nat)
    (st : CumulativeMemoryLoop) (r : ℚ) (hm : st.forwardMode = false)
    (h : addActionSizes BufferSize st.s.heap st.swapInSize
      (lookupD st.s.m_node2BackwardSwapin (nodeOfTimeStep st.s st.i)) = Except.ok r) :
    cumulativeMemoryBody BufferSize st =
      Except.ok (cumulativeMemoryAdvance st (stateAfterBackwardVisit st.s st.i)
        r st.swapOutSize
        (addBufferSizes BufferSize st.freedSize
          (lookupD st.s.m_node2BackwardFree (nodeOfTimeStep st.s st.i)))) := by
  unfold nodeOfTimeStep at h
  simp only [cumulativeMemoryBody, hm, subscript_fst, h]
  rfl

theorem cumulativeMemoryBody_backward_error (BufferSize : Buffer → Nat)
    (st : CumulativeMemoryLoop) (e : Failure) (hm : st.forwardMode = false)
    (h : addActionSizes BufferSize st.s.heap st.swapInSize
      (lookupD st.s.m_node2BackwardSwapin (nodeOfTimeStep st.s st.i)) = Except.error e) :
    cumulativeMemoryBody BufferSize st = Except.error e := by
  unfold nodeOfTimeStep at h
  simp only [cumulativeMemoryBody, hm, subscript_fst, h]
  rfl

theorem cumulativeMemoryBody_ne_assertionFailed (BufferSize : Buffer → Nat)
    (st : CumulativeMemoryLoop) :
    cumulativeMemoryBody BufferSize st ≠ Except.error Failure.assertionFailed := by
  cases hm : st.forwardMode with
  | true =>
    cases h : addActionSizes BufferSize st.s.heap st.swapOutSize
        (lookupD st.s.m_node2ForwardSwapOut (nodeOfTimeStep st.s st.i)) with
    | ok r => rw [cumulativeMemoryBody_forward_ok BufferSize st r hm h]; simp
    | error e =>
      rw [cumulativeMemoryBody_forward_error BufferSize st e hm h]
      intro he
      simp only [Except.error.injEq] at he
      subst he
      exact addActionSizes_ne_assertionFailed _ _ _ _ h
  | false =>
    cases h : addActionSizes BufferSize st.s.heap st.swapInSize
        (lookupD st.s.m_node2BackwardSwapin (nodeOfTimeStep st.s st.i)) with
    | ok r => rw [cumulativeMemoryBody_backward_ok BufferSize st r hm h]; simp
    | error e =>
      rw [cumulativeMemoryBody_backward_error BufferSize st e hm h]
      intro he
      simp only [Except.error.injEq] at he
      subst he
      exact addActionSizes_ne_assertionFailed _ _ _ _ h

theorem cumulativeMemoryLoop_ne_assertionFailed (BufferSize : Buffer → Nat) (endStep : Int)
    (fuel : Nat) (st : CumulativeMemoryLoop) :
    cumulativeMemoryLoop BufferSize endStep fuel st ≠
      some (Except.error Failure.assertionFailed) := by
  induction fuel generalizing st with
  | zero =>
    unfold cumulativeMemoryLoop
    split_ifs <;> simp
  | succ fuel ih =>
    unfold cumulativeMemoryLoop
    split_ifs
    · simp
    · cases hb : cumulativeMemoryBody BufferSize st with
      | error e =>
        simp only [ne_eq, Option.some.injEq, Except.error.injEq]
        intro he
        subst he
        exact cumulativeMemoryBody_ne_assertionFailed _ _ hb
      | ok st1 => exact ih st1

/-- C16 (as stated) fails: on the example schedule (`m_maxTimeStep = 1`) the call
`CumulativeMemory(-1, -1)` passes both assertions and returns the empty mapping, and
`CumulativeMemory(-1, 1)` passes them too and visits the time-steps -1 and 0, although -1 lies
outside `[0, m_maxTimeStep]`. -/
theorem C16_counterexample :
    exampleSchedule.m_maxTimeStep = 1 ∧
    Option.map (Except.map (fun st => st.step2CumulativeMemory))
      (exampleSchedule.CumulativeMemory (fun _ => 0) 4 (-1) (-1)) = some (Except.ok []) ∧
    Option.map (Except.map (fun st => st.visits.map (fun v => v.timeStep)))
      (exampleSchedule.CumulativeMemory (fun _ => 0) 4 (-1) 1) = some (Except.ok [-1, 0]) :=
  ⟨rfl, rfl, rfl⟩

/-- C16 (amended): `CumulativeMemory(startStep, endStep)` fails an assertion exactly when
`startStep` or `endStep` is greater than `m_maxTimeStep` (it then fails before the loop, for
every state); when both are at most `m_maxTimeStep` no assertion fails, also when one of them
is negative. -/
theorem C16_assertion_iff_above_maxTimeStep (s : SwapManager) (BufferSize : Buffer → Nat)
    (fuel : Nat) (startStep endStep : Int) :
    (s.m_maxTimeStep < startStep ∨ s.m_maxTimeStep < endStep →
      s.CumulativeMemory BufferSize fuel startStep endStep =
        some (Except.error Failure.assertionFailed)) ∧
    (startStep ≤ s.m_maxTimeStep ∧ endStep ≤ s.m_maxTimeStep →
      s.CumulativeMemory BufferSize fuel startStep endStep ≠
        some (Except.error Failure.assertionFailed)) := by
  constructor
  · intro h
    unfold CumulativeMemory
    by_cases he : endStep ≤ s.m_maxTimeStep
    · have hs : ¬ startStep ≤ s.m_maxTimeStep := by omega
      simp [he, hs]
    · simp [he]
  · rintro ⟨hs, he⟩
    unfold CumulativeMemory
    simp only [he, hs, not_true_eq_false, if_false]
    exact cumulativeMemoryLoop_ne_assertionFailed _ _ _ _

/-- Witness for C16 (amended): on the example schedule, whose `m_maxTimeStep` is 1, the call
with `startStep = 2` fails the assertion and the call with the steps 0 and 1 does not. -/
theorem C16_assertion_iff_above_maxTimeStep_witness :
    (exampleSchedule.m_maxTimeStep < 2 ∨ exampleSchedule.m_maxTimeStep < 0) ∧
    exampleSchedule.CumulativeMemory (fun _ => 0) 4 2 0 =
      some (Except.error Failure.assertionFailed) ∧
    ((0 : Int) ≤ exampleSchedule.m_maxTimeStep ∧ (1 : Int) ≤ exampleSchedule.m_maxTimeStep) ∧
    exampleSchedule.CumulativeMemory (fun _ => 0) 4 0 1 ≠
      some (Except.error Failure.assertionFailed) :=
  ⟨Or.inl (by decide),
    (C16_assertion_iff_above_maxTimeStep exampleSchedule (fun _ => 0) 4 2 0).1
      (Or.inl (by decide)),
    ⟨by decide, by decide⟩,
    (C16_assertion_iff_above_maxTimeStep exampleSchedule (fun _ => 0) 4 0 1).2
      ⟨by decide, by decide⟩⟩

theorem subscript_snd_cases {K V : Type} [DecidableEq K] [Inhabited V] (m : UMap K V) (k : K) :
    (subscript m k).2 = m ∨ (subscript m k).2 = m ++ [(k, default)] := by
  unfold subscript
  cases lookup? m k with
  | some v => exact Or.inl rfl
  | none => exact Or.inr rfl

theorem subscript_snd_of_mem {K V : Type} [DecidableEq K] [Inhabited V] (m : UMap K V) (k : K)
    (h : k ∈ keys m) : (subscript m k).2 = m := by
  unfold subscript
  cases hk : lookup? m k with
  | some v => rfl
  | none => exact absurd h ((lookup?_eq_none_iff m k).1 hk)

theorem sameUpToEmptyEntry_refl (node : Node) (s : SwapManager) : SameUpToEmptyEntry node s s :=
  ⟨rfl, rfl, rfl, rfl, rfl, Or.inl rfl, Or.inl rfl, Or.inl rfl, fun _ => rfl, fun _ => rfl,
    fun _ => rfl⟩

theorem BeginSynchronizeState_sameUpTo (s : SwapManager) (node : Node)
    (isForward isTraining : Bool) :
    SameUpToEmptyEntry node s (s.BeginSynchronizeState node isForward isTraining).1 := by
  unfold BeginSynchronizeState
  split_ifs
  · exact sameUpToEmptyEntry_refl node s
  · exact ⟨rfl, rfl, rfl, rfl, rfl, Or.inl rfl, subscript_snd_cases _ _, Or.inl rfl,
      fun _ => rfl, fun n => lookupD_subscript_snd _ _ _, fun _ => rfl⟩
  · exact sameUpToEmptyEntry_refl node s

theorem EndSynchronizeState_sameUpTo (s : SwapManager) (node : Node)
    (isForward isTraining : Bool) :
    SameUpToEmptyEntry node s (s.EndSynchronizeState node isForward isTraining).1 := by
  unfold EndSynchronizeState
  split_ifs
  · exact sameUpToEmptyEntry_refl node s
  · exact ⟨rfl, rfl, rfl, rfl, rfl, subscript_snd_cases _ _, Or.inl rfl, Or.inl rfl,
      fun n => lookupD_subscript_snd _ _ _, fun _ => rfl, fun _ => rfl⟩
  · exact ⟨rfl, rfl, rfl, rfl, rfl, Or.inl rfl, Or.inl rfl, subscript_snd_cases _ _,
      fun _ => rfl, fun _ => rfl, fun n => lookupD_subscript_snd _ _ _⟩

/-- C19 (as stated) fails: on the example schedule, with swapping enabled and training active,
BeginSynchronizeState on the backward pass of step 3, which appears in no table, adds the
entry `3 ↦ []` to `m_node2BackwardSwapin`, and EndSynchronizeState adds such an entry to
`m_node2ForwardSwapOut` (forward pass) or `m_node2BackwardFree` (backward pass). -/
theorem C19_counterexample :
    exampleSchedule.m_node2BackwardSwapin = [(2, [2]), (1, [4])] ∧
    (exampleSchedule.BeginSynchronizeState 3 false true).1.m_node2BackwardSwapin =
      [(2, [2]), (1, [4]), (3, [])] ∧
    exampleSchedule.m_node2ForwardSwapOut = [(1, [1, 3, 1]), (2, [3])] ∧
    (exampleSchedule.EndSynchronizeState 3 true true).1.m_node2ForwardSwapOut =
      [(1, [1, 3, 1]), (2, [3]), (3, [])] ∧
    exampleSchedule.m_node2BackwardFree = [(1, [12])] ∧
    (exampleSchedule.EndSynchronizeState 3 false true).1.m_node2BackwardFree =
      [(1, [12]), (3, [])] :=
  ⟨rfl, rfl, rfl, rfl, rfl, rfl⟩

/-- C19 (amended): for every state, step, pass direction and flag value, BeginSynchronizeState
and EndSynchronizeState leave both registries, the step/time-step index in both directions and
the free store as they were, and the list read for any step from any of the three per-step
tables is the same before and after; a table is either unchanged or has gained an empty entry
for the step of the call.  When the step has an entry in all three tables the state is
exactly as it was. -/
theorem C19_hooks_change_at_most_an_empty_entry (s : SwapManager) (node : Node)
    (isForward isTraining : Bool) :
    SameUpToEmptyEntry node s (s.BeginSynchronizeState node isForward isTraining).1 ∧
    SameUpToEmptyEntry node s (s.EndSynchronizeState node isForward isTraining).1 ∧
    (node ∈ keys s.m_node2ForwardSwapOut → node ∈ keys s.m_node2BackwardSwapin →
      node ∈ keys s.m_node2BackwardFree →
      (s.BeginSynchronizeState node isForward isTraining).1 = s ∧
      (s.EndSynchronizeState node isForward isTraining).1 = s) := by
  refine ⟨BeginSynchronizeState_sameUpTo s node isForward isTraining,
    EndSynchronizeState_sameUpTo s node isForward isTraining, ?_⟩
  intro h1 h2 h3
  constructor
  · unfold BeginSynchronizeState
    split_ifs
    · rfl
    · simp only [subscript_snd_of_mem _ _ h2]
    · rfl
  · unfold EndSynchronizeState
    split_ifs
    · rfl
    · simp only [subscript_snd_of_mem _ _ h1]
    · simp only [subscript_snd_of_mem _ _ h3]

/-- Witness for C19 (amended): step 1 of the example schedule has an entry in all three
tables. -/
theorem C19_hooks_change_at_most_an_empty_entry_witness :
    (1 ∈ keys exampleSchedule.m_node2ForwardSwapOut ∧
      1 ∈ keys exampleSchedule.m_node2BackwardSwapin ∧
      1 ∈ keys exampleSchedule.m_node2BackwardFree) ∧
    (exampleSchedule.BeginSynchronizeState 1 false true).1 = exampleSchedule ∧
    (exampleSchedule.EndSynchronizeState 1 false true).1 = exampleSchedule :=
  ⟨⟨by decide, by decide, by decide⟩,
    (C19_hooks_change_at_most_an_empty_entry exampleSchedule 1 false true).2.2
      (by decide) (by decide) (by decide)⟩

theorem addActionSizes_ok (BufferSize : Buffer → Nat) (heap : List ActionObj) (size r : ℚ)
    (l : List ActionPtr) (h : addActionSizes BufferSize heap size l = Except.ok r) :
    r = size + sizeOfActions BufferSize heap l := by
  induction l generalizing size with
  | nil =>
    simp only [addActionSizes, Except.ok.injEq] at h
    simp [sizeOfActions, h]
  | cons a l ih =>
    unfold addActionSizes GetGPUMatrix at h
    cases hd : deref heap a with
    | none => rw [hd] at h; cases h
    | some obj =>
      rw [hd] at h
      have := ih _ h
      rw [this]
      simp only [sizeOfActions, List.map_cons, List.sum_cons, hd]
      ring

theorem addActionSizes_of_valid (BufferSize : Buffer → Nat) (heap : List ActionObj) (size : ℚ)
    (l : List ActionPtr) (h : ∀ a ∈ l, ∃ obj, deref heap a = some obj) :
    ∃ r, addActionSizes BufferSize heap size l = Except.ok r := by
  induction l generalizing size with
  | nil => exact ⟨size, rfl⟩
  | cons a l ih =>
    obtain ⟨obj, hobj⟩ := h a (List.mem_cons_self _ _)
    unfold addActionSizes GetGPUMatrix
    rw [hobj]
    exact ih _ (fun b hb => h b (List.mem_cons_of_mem _ hb))

theorem addBufferSizes_eq (BufferSize : Buffer → Nat) (size : ℚ) (l : List Buffer) :
    addBufferSizes BufferSize size l = size + sizeOfBuffers BufferSize l := by
  unfold addBufferSizes
  induction l generalizing size with
  | nil => simp [sizeOfBuffers]
  | cons b l ih =>
    simp only [List.foldl_cons, ih, sizeOfBuffers, List.map_cons, List.sum_cons]
    ring

/-- A successful pass through the loop body, taken apart by mode. -/
theorem cumulativeMemoryBody_ok_cases (BufferSize : Buffer → Nat)
    (st st1 : CumulativeMemoryLoop) (h : cumulativeMemoryBody BufferSize st = Except.ok st1) :
    (st.forwardMode = true ∧
      st1 = cumulativeMemoryAdvance st (stateAfterForwardVisit st.s st.i) st.swapInSize
        (st.swapOutSize + sizeOfActions BufferSize st.s.heap
          (lookupD st.s.m_node2ForwardSwapOut (nodeOfTimeStep st.s st.i))) st.freedSize) ∨
    (st.forwardMode = false ∧
      st1 = cumulativeMemoryAdvance st (stateAfterBackwardVisit st.s st.i)
        (st.swapInSize + sizeOfActions BufferSize st.s.heap
          (lookupD st.s.m_node2BackwardSwapin (nodeOfTimeStep st.s st.i))) st.swapOutSize
        (st.freedSize + sizeOfBuffers BufferSize
          (lookupD st.s.m_node2BackwardFree (nodeOfTimeStep st.s st.i)))) := by
  cases hm : st.forwardMode with
  | true =>
    left
    refine ⟨rfl, ?_⟩
    cases ha : addActionSizes BufferSize st.s.heap st.swapOutSize
        (lookupD st.s.m_node2ForwardSwapOut (nodeOfTimeStep st.s st.i)) with
    | error e =>
      rw [cumulativeMemoryBody_forward_error BufferSize st e hm ha] at h
      cases h
    | ok r =>
      rw [cumulativeMemoryBody_forward_ok BufferSize st r hm ha] at h
      rw [← addActionSizes_ok _ _ _ _ _ ha]
      injection h with h
      exact h.symm
  | false =>
    right
    refine ⟨rfl, ?_⟩
    cases ha : addActionSizes BufferSize st.s.heap st.swapInSize
        (lookupD st.s.m_node2BackwardSwapin (nodeOfTimeStep st.s st.i)) with
    | error e =>
      rw [cumulativeMemoryBody_backward_error BufferSize st e hm ha] at h
      cases h
    | ok r =>
      rw [cumulativeMemoryBody_backward_ok BufferSize st r hm ha] at h
      rw [← addActionSizes_ok _ _ _ _ _ ha, ← addBufferSizes_eq]
      injection h with h
      exact h.symm

theorem readsLike_refl (s : SwapManager) : ReadsLike s s :=
  ⟨rfl, rfl, fun _ => rfl, fun _ => rfl, fun _ => rfl, fun _ => rfl⟩

theorem readsLike_forwardVisit {s s1 : SwapManager} (h : ReadsLike s s1) (i : Int) :
    ReadsLike s (stateAfterForwardVisit s1 i) := by
  obtain ⟨h1, h2, h3, h4, h5, h6⟩ := h
  refine ⟨h1, h2, fun j => ?_, fun n => ?_, h5, h6⟩
  · exact (lookupD_subscript_snd _ _ _).trans (h3 j)
  · exact (lookupD_subscript_snd _ _ _).trans (h4 n)

theorem readsLike_backwardVisit {s s1 : SwapManager} (h : ReadsLike s s1) (i : Int) :
    ReadsLike s (stateAfterBackwardVisit s1 i) := by
  obtain ⟨h1, h2, h3, h4, h5, h6⟩ := h
  refine ⟨h1, h2, fun j => ?_, h4, fun n => ?_, fun n => ?_⟩
  · exact (lookupD_subscript_snd _ _ _).trans (h3 j)
  · exact (lookupD_subscript_snd _ _ _).trans (h5 n)
  · exact (lookupD_subscript_snd _ _ _).trans (h6 n)

theorem lastValue_snoc (vs : List Visit) (v : Visit) (i : Int) :
    lastValue (vs ++ [v]) i = if v.timeStep = i then some v.value else lastValue vs i := by
  unfold lastValue
  by_cases h : v.timeStep = i
  · simp [List.filter_append, h, List.getLast?_append]
  · simp [List.filter_append, h]

theorem lookup?_assign (m : UMap Int ℚ) (k k' : Int) (v : ℚ) :
    lookup? (assign m k v) k' = if k = k' then some v else lookup? m k' := by
  by_cases h : k = k'
  · subst h
    simp [lookup?_assign_self]
  · have h' : k' ≠ k := fun e => h e.symm
    simp [h, lookup?_assign_ne _ _ _ _ h']

theorem cumulative_snoc (f : Visit → ℚ) (vs : List Visit) (v : Visit) :
    ((vs ++ [v]).map f).sum = (vs.map f).sum + f v := by
  simp

/-- The value condition of the invariant survives a further visit that satisfies it. -/
theorem values_snoc (s : SwapManager) (BufferSize : Buffer → Nat) (vs : List Visit) (w : Visit)
    (h : ∀ pre v post, vs = pre ++ v :: post →
      v.value = s.m_freeMemoryBase + cumulativeSwapIn s BufferSize (pre ++ [v])
        - cumulativeSwapOut s BufferSize (pre ++ [v])
        - cumulativeFreed s BufferSize (pre ++ [v]))
    (hw : w.value = s.m_freeMemoryBase + cumulativeSwapIn s BufferSize (vs ++ [w])
        - cumulativeSwapOut s BufferSize (vs ++ [w]) - cumulativeFreed s BufferSize (vs ++ [w])) :
    ∀ pre v post, vs ++ [w] = pre ++ v :: post →
      v.value = s.m_freeMemoryBase + cumulativeSwapIn s BufferSize (pre ++ [v])
        - cumulativeSwapOut s BufferSize (pre ++ [v])
        - cumulativeFreed s BufferSize (pre ++ [v]) := by
  intro pre v post heq
  rcases List.eq_nil_or_concat post with hp | ⟨post1, x, hp⟩
  · subst hp
    have := List.append_inj' heq rfl
    obtain ⟨h1, h2⟩ := this
    simp only [List.cons.injEq, and_true] at h2
    subst h1 h2
    exact hw
  · subst hp
    have heq' : vs ++ [w] = (pre ++ v :: post1) ++ [x] := by
      rw [heq]; simp
    have := List.append_inj' heq' rfl
    exact h pre v post1 this.1

theorem cumulativeSwapIn_snoc (s : SwapManager) (BufferSize : Buffer → Nat) (vs : List Visit)
    (v : Visit) : cumulativeSwapIn s BufferSize (vs ++ [v]) =
      cumulativeSwapIn s BufferSize vs + swapInOfVisit s BufferSize v := by
  simp [cumulativeSwapIn]

theorem cumulativeSwapOut_snoc (s : SwapManager) (BufferSize : Buffer → Nat) (vs : List Visit)
    (v : Visit) : cumulativeSwapOut s BufferSize (vs ++ [v]) =
      cumulativeSwapOut s BufferSize vs + swapOutOfVisit s BufferSize v := by
  simp [cumulativeSwapOut]

theorem cumulativeFreed_snoc (s : SwapManager) (BufferSize : Buffer → Nat) (vs : List Visit)
    (v : Visit) : cumulativeFreed s BufferSize (vs ++ [v]) =
      cumulativeFreed s BufferSize vs + freedOfVisit s BufferSize v := by
  simp [cumulativeFreed]

/-- The loop body preserves the accumulation invariant. -/
theorem accumulationInv_body (s : SwapManager) (BufferSize : Buffer → Nat)
    (st st1 : CumulativeMemoryLoop) (hinv : AccumulationInv s BufferSize st)
    (h : cumulativeMemoryBody BufferSize st = Except.ok st1) :
    AccumulationInv s BufferSize st1 := by
  obtain ⟨hr, hin, hout, hfr, hval, hmap⟩ := hinv
  have hnode : nodeOfTimeStep st.s st.i = nodeOfTimeStep s st.i := hr.2.2.1 st.i
  rcases cumulativeMemoryBody_ok_cases BufferSize st st1 h with ⟨hm, hst⟩ | ⟨hm, hst⟩
  · have hsz : sizeOfActions BufferSize st.s.heap
        (lookupD st.s.m_node2ForwardSwapOut (nodeOfTimeStep st.s st.i)) =
        sizeOfActions BufferSize s.heap
          (lookupD s.m_node2ForwardSwapOut (nodeOfTimeStep s st.i)) := by
      rw [hnode, hr.1, hr.2.2.2.1]
    rw [hsz] at hst
    have hbase : (stateAfterForwardVisit st.s st.i).m_freeMemoryBase = s.m_freeMemoryBase := hr.2.1
    have e1 : st1.s = stateAfterForwardVisit st.s st.i := by rw [hst]; rfl
    have e2 : st1.swapInSize = st.swapInSize := by rw [hst]; rfl
    have e3 : st1.swapOutSize = st.swapOutSize + sizeOfActions BufferSize s.heap
        (lookupD s.m_node2ForwardSwapOut (nodeOfTimeStep s st.i)) := by rw [hst]; rfl
    have e4 : st1.freedSize = st.freedSize := by rw [hst]; rfl
    have e5 : st1.step2CumulativeMemory = assign st.step2CumulativeMemory st.i
        (s.m_freeMemoryBase + st.swapInSize - (st.swapOutSize + sizeOfActions BufferSize s.heap
          (lookupD s.m_node2ForwardSwapOut (nodeOfTimeStep s st.i))) - st.freedSize) := by
      rw [hst, ← hbase]; rfl
    have e6 : st1.visits = st.visits ++ [Visit.mk st.i true
        (s.m_freeMemoryBase + st.swapInSize - (st.swapOutSize +
          sizeOfActions BufferSize s.heap
            (lookupD s.m_node2ForwardSwapOut (nodeOfTimeStep s st.i))) - st.freedSize)] := by
      rw [hst, ← hbase, ← hm]; rfl
    refine ⟨?_, ?_, ?_, ?_, ?_, ?_⟩
    · rw [e1]; exact readsLike_forwardVisit hr st.i
    · rw [e2, e6, cumulativeSwapIn_snoc, hin]
      simp [swapInOfVisit]
    · rw [e3, e6, cumulativeSwapOut_snoc, hout]
      simp [swapOutOfVisit]
    · rw [e4, e6, cumulativeFreed_snoc, hfr]
      simp [freedOfVisit]
    · rw [e6]
      refine values_snoc s BufferSize st.visits _ hval ?_
      rw [cumulativeSwapIn_snoc, cumulativeSwapOut_snoc, cumulativeFreed_snoc, ← hin, ← hout,
        ← hfr]
      simp [swapInOfVisit, swapOutOfVisit, freedOfVisit]
    · intro j
      rw [e5, e6, lookup?_assign, lastValue_snoc, hmap j]
  · have hsz : sizeOfActions BufferSize st.s.heap
        (lookupD st.s.m_node2BackwardSwapin (nodeOfTimeStep st.s st.i)) =
        sizeOfActions BufferSize s.heap
          (lookupD s.m_node2BackwardSwapin (nodeOfTimeStep s st.i)) := by
      rw [hnode, hr.1, hr.2.2.2.2.1]
    have hfz : sizeOfBuffers BufferSize
        (lookupD st.s.m_node2BackwardFree (nodeOfTimeStep st.s st.i)) =
        sizeOfBuffers BufferSize (lookupD s.m_node2BackwardFree (nodeOfTimeStep s st.i)) := by
      rw [hnode, hr.2.2.2.2.2]
    rw [hsz, hfz] at hst
    have hbase : (stateAfterBackwardVisit st.s st.i).m_freeMemoryBase = s.m_freeMemoryBase :=
      hr.2.1
    have e1 : st1.s = stateAfterBackwardVisit st.s st.i := by rw [hst]; rfl
    have e2 : st1.swapInSize = st.swapInSize + sizeOfActions BufferSize s.heap
        (lookupD s.m_node2BackwardSwapin (nodeOfTimeStep s st.i)) := by rw [hst]; rfl
    have e3 : st1.swapOutSize = st.swapOutSize := by rw [hst]; rfl
    have e4 : st1.freedSize = st.freedSize + sizeOfBuffers BufferSize
        (lookupD s.m_node2BackwardFree (nodeOfTimeStep s st.i)) := by rw [hst]; rfl
    have e5 : st1.step2CumulativeMemory = assign st.step2CumulativeMemory st.i
        (s.m_freeMemoryBase + (st.swapInSize + sizeOfActions BufferSize s.heap
          (lookupD s.m_node2BackwardSwapin (nodeOfTimeStep s st.i))) - st.swapOutSize
          - (st.freedSize + sizeOfBuffers BufferSize
            (lookupD s.m_node2BackwardFree (nodeOfTimeStep s st.i)))) := by
      rw [hst, ← hbase]; rfl
    have e6 : st1.visits = st.visits ++ [Visit.mk st.i false
        (s.m_freeMemoryBase + (st.swapInSize + sizeOfActions BufferSize s.heap
          (lookupD s.m_node2BackwardSwapin (nodeOfTimeStep s st.i))) - st.swapOutSize
          - (st.freedSize + sizeOfBuffers BufferSize
            (lookupD s.m_node2BackwardFree (nodeOfTimeStep s st.i))))] := by
      rw [hst, ← hbase, ← hm]; rfl
    refine ⟨?_, ?_, ?_, ?_, ?_, ?_⟩
    · rw [e1]; exact readsLike_backwardVisit hr st.i
    · rw [e2, e6, cumulativeSwapIn_snoc, hin]
      simp [swapInOfVisit]
    · rw [e3, e6, cumulativeSwapOut_snoc, hout]
      simp [swapOutOfVisit]
    · rw [e4, e6, cumulativeFreed_snoc, hfr]
      simp [freedOfVisit]
    · rw [e6]
      refine values_snoc s BufferSize st.visits _ hval ?_
      rw [cumulativeSwapIn_snoc, cumulativeSwapOut_snoc, cumulativeFreed_snoc, ← hin, ← hout,
        ← hfr]
      simp [swapInOfVisit, swapOutOfVisit, freedOfVisit]
    · intro j
      rw [e5, e6, lookup?_assign, lastValue_snoc, hmap j]

/-- Induction over the iterations of the loop: a property of the loop state that every
iteration (made with `i` different from `endStep`) preserves holds at the exit of the loop, and
there `i` is `endStep`. -/
theorem cumulativeMemoryLoop_induct (BufferSize : Buffer → Nat) (endStep : Int)
    (P : CumulativeMemoryLoop → Prop)
    (hP : ∀ st st1, P st → st.i ≠ endStep →
      cumulativeMemoryBody BufferSize st = Except.ok st1 → P st1)
    (fuel : Nat) (st st1 : CumulativeMemoryLoop) (h0 : P st)
    (h : cumulativeMemoryLoop BufferSize endStep fuel st = some (Except.ok st1)) :
    P st1 ∧ st1.i = endStep := by
  induction fuel generalizing st with
  | zero =>
    unfold cumulativeMemoryLoop at h
    by_cases hi : st.i = endStep
    · simp only [hi, if_true, Option.some.injEq, Except.ok.injEq] at h
      subst h
      exact ⟨h0, hi⟩
    · simp [hi] at h
  | succ fuel ih =>
    unfold cumulativeMemoryLoop at h
    by_cases hi : st.i = endStep
    · simp only [hi, if_true, Option.some.injEq, Except.ok.injEq] at h
      subst h
      exact ⟨h0, hi⟩
    · simp only [hi, if_false] at h
      cases hb : cumulativeMemoryBody BufferSize st with
      | error e => rw [hb] at h; simp at h
      | ok st2 =>
        rw [hb] at h
        exact ih st2 (hP st st2 h0 hi hb) h

/-- A call of `CumulativeMemory` that returns has passed both assertions and left the loop. -/
theorem CumulativeMemory_ok {s : SwapManager} {BufferSize : Buffer → Nat} {fuel : Nat}
    {startStep endStep : Int} {st : CumulativeMemoryLoop}
    (h : s.CumulativeMemory BufferSize fuel startStep endStep = some (Except.ok st)) :
    startStep ≤ s.m_maxTimeStep ∧ endStep ≤ s.m_maxTimeStep ∧
    cumulativeMemoryLoop BufferSize endStep fuel
      { s := s, i := startStep,
        forwardMode := if startStep = s.m_maxTimeStep then false else true,
        swapInSize := 0, swapOutSize := 0, freedSize := 0, step2CumulativeMemory := [],
        visits := [] } = some (Except.ok st) := by
  unfold CumulativeMemory at h
  by_cases he : endStep ≤ s.m_maxTimeStep
  · by_cases hs : startStep ≤ s.m_maxTimeStep
    · simp only [he, hs, not_true_eq_false, if_false] at h
      exact ⟨hs, he, h⟩
    · simp [he, hs] at h
  · simp [he] at h

/-- The accumulation invariant holds for the result of every call that returns. -/
theorem CumulativeMemory_accumulation {s : SwapManager} {BufferSize : Buffer → Nat} {fuel : Nat}
    {startStep endStep : Int} {st : CumulativeMemoryLoop}
    (h : s.CumulativeMemory BufferSize fuel startStep endStep = some (Except.ok st)) :
    AccumulationInv s BufferSize st ∧ st.i = endStep := by
  obtain ⟨_, _, hloop⟩ := CumulativeMemory_ok h
  refine cumulativeMemoryLoop_induct BufferSize endStep (AccumulationInv s BufferSize)
    (fun st st1 hst _ => accumulationInv_body s BufferSize st st1 hst) fuel _ st ?_ hloop
  refine ⟨readsLike_refl s, rfl, rfl, rfl, ?_, fun i => rfl⟩
  intro pre v post hv
  simp at hv

theorem cumulativeMemoryLoop_exit (BufferSize : Buffer → Nat) (endStep : Int) (fuel : Nat)
    (st : CumulativeMemoryLoop) (h : st.i = endStep) :
    cumulativeMemoryLoop BufferSize endStep fuel st = some (Except.ok st) := by
  cases fuel <;> simp [cumulativeMemoryLoop, h]

theorem cumulativeMemoryLoop_step (BufferSize : Buffer → Nat) (endStep : Int) (fuel : Nat)
    (st st1 : CumulativeMemoryLoop) (h : st.i ≠ endStep)
    (hb : cumulativeMemoryBody BufferSize st = Except.ok st1) :
    cumulativeMemoryLoop BufferSize endStep (fuel + 1) st =
      cumulativeMemoryLoop BufferSize endStep fuel st1 := by
  simp [cumulativeMemoryLoop, h, hb]

theorem countKey_eq_zero_iff_not_mem {K V : Type} [DecidableEq K] (m : UMap K V) (k : K) :
    countKey m k = 0 ↔ k ∉ keys m := by
  rw [countKey_eq_zero_iff, lookup?_eq_none_iff]

theorem visitOrder_snoc (vs : List Visit) (v : Visit) :
    visitOrder (vs ++ [v]) = visitOrder vs ++ [(v.timeStep, v.forwardMode)] := by
  simp [visitOrder]

/-- One iteration of the loop at a time-step of the index, on a scheduler whose index is
`0, …, m_maxTimeStep` and whose lists hold valid action pointers: the body succeeds, flips to
backward mode exactly when `i` is `m_maxTimeStep`, and steps `i` accordingly. -/
theorem control_step (s : SwapManager) (BufferSize : Buffer → Nat) (st : CumulativeMemoryLoop)
    (hidx : IndexIsRange s) (hvalid : ActionsValid s) (hinv : ControlInv s st)
    (h0 : 0 ≤ st.i) (hM : st.i ≤ s.m_maxTimeStep) :
    ∃ st1, cumulativeMemoryBody BufferSize st = Except.ok st1 ∧ ControlInv s st1 ∧
      st1.forwardMode = (st.forwardMode && decide (st.i < s.m_maxTimeStep)) ∧
      st1.i = (if (st.forwardMode && decide (st.i < s.m_maxTimeStep)) = true then st.i + 1
        else st.i - 1) ∧
      visitOrder st1.visits = visitOrder st.visits ++ [(st.i, st.forwardMode)] := by
  obtain ⟨hts, hr, hvis⟩ := hinv
  have hnode : nodeOfTimeStep st.s st.i = nodeOfTimeStep s st.i := hr.2.2.1 st.i
  have hmem : st.i ∈ keys st.s.m_timeStep2Node := by
    rw [hts]; exact (hidx st.i).2 ⟨h0, hM⟩
  have hsub : (subscript st.s.m_timeStep2Node st.i).2 = s.m_timeStep2Node := by
    rw [subscript_snd_of_mem _ _ hmem, hts]
  have hcount : (countKey s.m_timeStep2Node (st.i + 1) = 0) ↔ ¬ st.i < s.m_maxTimeStep := by
    rw [countKey_eq_zero_iff_not_mem, hidx]
    constructor
    · intro h hlt
      exact h ⟨by omega, by omega⟩
    · intro h hc
      exact h (by omega)
  cases hm : st.forwardMode with
  | true =>
    have hv : ∀ a ∈ lookupD st.s.m_node2ForwardSwapOut (nodeOfTimeStep st.s st.i),
        ∃ obj, deref st.s.heap a = some obj := by
      intro a ha
      rw [hnode, hr.2.2.2.1] at ha
      obtain ⟨b, hb⟩ := hvalid.1 _ a ha
      exact ⟨_, by rw [hr.1]; exact hb⟩
    obtain ⟨r, hr1⟩ := addActionSizes_of_valid BufferSize st.s.heap st.swapOutSize _ hv
    refine ⟨_, cumulativeMemoryBody_forward_ok BufferSize st r hm hr1, ?_, ?_, ?_, ?_⟩
    · refine ⟨hsub, readsLike_forwardVisit hr st.i, ?_⟩
      intro v hv
      rcases List.mem_append.1 hv with hv | hv
      · exact hvis v hv
      · simp only [List.mem_singleton] at hv
        subst hv
        exact ⟨h0, hM⟩
    · show (if countKey (subscript st.s.m_timeStep2Node st.i).2 (st.i + 1) = 0 then false
        else st.forwardMode) = _
      rw [hsub, hm]
      by_cases hlt : st.i < s.m_maxTimeStep
      · simp [hlt, (not_congr hcount).2 (not_not.2 hlt)]
      · simp [hlt, hcount.2 hlt]
    · show (if (if countKey (subscript st.s.m_timeStep2Node st.i).2 (st.i + 1) = 0 then false
        else st.forwardMode) = true then st.i + 1 else st.i - 1) = _
      rw [hsub, hm]
      by_cases hlt : st.i < s.m_maxTimeStep
      · simp [hlt, (not_congr hcount).2 (not_not.2 hlt)]
      · simp [hlt, hcount.2 hlt]
    · show visitOrder (st.visits ++ [_]) = _
      rw [visitOrder_snoc, hm]
  | false =>
    have hv : ∀ a ∈ lookupD st.s.m_node2BackwardSwapin (nodeOfTimeStep st.s st.i),
        ∃ obj, deref st.s.heap a = some obj := by
      intro a ha
      rw [hnode, hr.2.2.2.2.1] at ha
      obtain ⟨o, b, hb⟩ := hvalid.2 _ a ha
      exact ⟨_, by rw [hr.1]; exact hb⟩
    obtain ⟨r, hr1⟩ := addActionSizes_of_valid BufferSize st.s.heap st.swapInSize _ hv
    refine ⟨_, cumulativeMemoryBody_backward_ok BufferSize st r hm hr1, ?_, ?_, ?_, ?_⟩
    · refine ⟨hsub, readsLike_backwardVisit hr st.i, ?_⟩
      intro v hv
      rcases List.mem_append.1 hv with hv | hv
      · exact hvis v hv
      · simp only [List.mem_singleton] at hv
        subst hv
        exact ⟨h0, hM⟩
    · show (if countKey (subscript st.s.m_timeStep2Node st.i).2 (st.i + 1) = 0 then false
        else st.forwardMode) = _
      rw [hm]
      simp
    · show (if (if countKey (subscript st.s.m_timeStep2Node st.i).2 (st.i + 1) = 0 then false
        else st.forwardMode) = true then st.i + 1 else st.i - 1) = _
      rw [hm]
      simp
    · show visitOrder (st.visits ++ [_]) = _
      rw [visitOrder_snoc, hm]

/-- A run of `k` forward iterations below `m_maxTimeStep`. -/
theorem loop_forward_run (s : SwapManager) (BufferSize : Buffer → Nat) (endStep : Int)
    (hidx : IndexIsRange s) (hvalid : ActionsValid s) (k : Nat) (st : CumulativeMemoryLoop)
    (hinv : ControlInv s st) (hm : st.forwardMode = true) (h0 : 0 ≤ st.i)
    (hk : st.i + k ≤ s.m_maxTimeStep) (hne : ∀ j : Nat, j < k → st.i + j ≠ endStep) :
    ∃ st1, (∀ fuel, cumulativeMemoryLoop BufferSize endStep (fuel + k) st =
        cumulativeMemoryLoop BufferSize endStep fuel st1) ∧
      ControlInv s st1 ∧ st1.forwardMode = true ∧ st1.i = st.i + k ∧
      visitOrder st1.visits =
        visitOrder st.visits ++ (List.range k).map (fun (j : Nat) => (st.i + (j : Int), true)) := by
  induction k generalizing st with
  | zero => exact ⟨st, fun _ => rfl, hinv, hm, by simp, by simp⟩
  | succ k ih =>
    have hi : st.i ≠ endStep := by simpa using hne 0 (Nat.succ_pos k)
    have hlt : st.i < s.m_maxTimeStep := by push_cast at hk; omega
    obtain ⟨st1, hb, hinv1, hm1, hi1, hv1⟩ :=
      control_step s BufferSize st hidx hvalid hinv h0 (le_of_lt hlt)
    simp only [hm, hlt, decide_True, Bool.and_self, if_true] at hm1 hi1
    obtain ⟨st2, hrun, hinv2, hm2, hi2, hv2⟩ := ih st1 hinv1 hm1 (by omega)
      (by push_cast at hk; omega)
      (fun j hj => by
        have := hne (j + 1) (Nat.succ_lt_succ hj)
        push_cast at this
        rw [hi1]
        intro hc
        exact this (by omega))
    refine ⟨st2, ?_, hinv2, hm2, ?_, ?_⟩
    · intro fuel
      rw [← hrun fuel]
      exact cumulativeMemoryLoop_step BufferSize endStep (fuel + k) st st1 hi hb
    · rw [hi2, hi1]; push_cast; ring
    · rw [hv2, hv1, hm, hi1, List.range_succ_eq_map, List.map_cons, List.map_map,
        List.append_assoc]
      congr 1
      simp only [Nat.cast_zero, add_zero, List.singleton_append, List.cons.injEq, true_and]
      apply List.map_congr_left
      intro j _
      simp only [Function.comp_apply, Nat.succ_eq_add_one, Nat.cast_add, Nat.cast_one,
        Prod.mk.injEq, and_true]
      ring

/-- A run of `k` backward iterations inside the index. -/
theorem loop_backward_run (s : SwapManager) (BufferSize : Buffer → Nat) (endStep : Int)
    (hidx : IndexIsRange s) (hvalid : ActionsValid s) (k : Nat) (st : CumulativeMemoryLoop)
    (hinv : ControlInv s st) (hm : st.forwardMode = false) (hM : st.i ≤ s.m_maxTimeStep)
    (hk : (k : Int) ≤ st.i + 1) (hne : ∀ j : Nat, j < k → st.i - j ≠ endStep) :
    ∃ st1, (∀ fuel, cumulativeMemoryLoop BufferSize endStep (fuel + k) st =
        cumulativeMemoryLoop BufferSize endStep fuel st1) ∧
      ControlInv s st1 ∧ st1.forwardMode = false ∧ st1.i = st.i - k ∧
      visitOrder st1.visits =
        visitOrder st.visits ++ (List.range k).map (fun (j : Nat) => (st.i - (j : Int), false)) := by
  induction k generalizing st with
  | zero => exact ⟨st, fun _ => rfl, hinv, hm, by simp, by simp⟩
  | succ k ih =>
    have hi : st.i ≠ endStep := by simpa using hne 0 (Nat.succ_pos k)
    have h0 : 0 ≤ st.i := by push_cast at hk; omega
    obtain ⟨st1, hb, hinv1, hm1, hi1, hv1⟩ :=
      control_step s BufferSize st hidx hvalid hinv h0 hM
    simp only [hm, Bool.false_and, Bool.false_eq_true, if_false] at hm1 hi1
    obtain ⟨st2, hrun, hinv2, hm2, hi2, hv2⟩ := ih st1 hinv1 hm1 (by omega)
      (by push_cast at hk; omega)
      (fun j hj => by
        have := hne (j + 1) (Nat.succ_lt_succ hj)
        push_cast at this
        rw [hi1]
        intro hc
        exact this (by omega))
    refine ⟨st2, ?_, hinv2, hm2, ?_, ?_⟩
    · intro fuel
      rw [← hrun fuel]
      exact cumulativeMemoryLoop_step BufferSize endStep (fuel + k) st st1 hi hb
    · rw [hi2, hi1]; push_cast; ring
    · rw [hv2, hv1, hm, hi1, List.range_succ_eq_map, List.map_cons, List.map_map,
        List.append_assoc]
      congr 1
      simp only [Nat.cast_zero, sub_zero, List.singleton_append, List.cons.injEq, true_and]
      apply List.map_congr_left
      intro j _
      simp only [Function.comp_apply, Nat.succ_eq_add_one, Nat.cast_add, Nat.cast_one,
        Prod.mk.injEq, and_true]
      ring

theorem controlInv_start (s : SwapManager) (startStep : Int) :
    ControlInv s (cumulativeMemoryStart s startStep) :=
  ⟨rfl, readsLike_refl s, fun v hv => by cases hv⟩

theorem CumulativeMemory_eq_loop (s : SwapManager) (BufferSize : Buffer → Nat) (fuel : Nat)
    (startStep endStep : Int) (hs : startStep ≤ s.m_maxTimeStep)
    (he : endStep ≤ s.m_maxTimeStep) :
    s.CumulativeMemory BufferSize fuel startStep endStep =
      cumulativeMemoryLoop BufferSize endStep fuel (cumulativeMemoryStart s startStep) := by
  unfold CumulativeMemory
  simp only [he, hs, not_true_eq_false, if_false]
  rfl

theorem visitOrder_length (vs : List Visit) : (visitOrder vs).length = vs.length := by
  simp [visitOrder]

/-- The run of `CumulativeMemory` on a scheduler whose time-step index is
`0, …, m_maxTimeStep`, for steps within that range: the call returns after as many iterations
as it makes visits, at most `2 * (m_maxTimeStep + 1)`, and the visits are those of the three
cases of the direction inference. -/
theorem cumulativeMemory_control (s : SwapManager) (BufferSize : Buffer → Nat)
    (startStep endStep : Int) (hidx : IndexIsRange s) (hvalid : ActionsValid s)
    (ha0 : 0 ≤ startStep) (haM : startStep ≤ s.m_maxTimeStep)
    (he0 : 0 ≤ endStep) (heM : endStep ≤ s.m_maxTimeStep) :
    ∃ st, (∀ fuel, s.CumulativeMemory BufferSize (fuel + st.visits.length) startStep endStep =
        some (Except.ok st)) ∧
      ControlInv s st ∧ st.i = endStep ∧
      st.visits.length ≤ 2 * (s.m_maxTimeStep + 1).toNat ∧
      (startStep = s.m_maxTimeStep → visitOrder st.visits =
        (List.range (s.m_maxTimeStep - endStep).toNat).map
          (fun (j : Nat) => (s.m_maxTimeStep - (j : Int), false))) ∧
      (startStep ≠ s.m_maxTimeStep → startStep ≤ endStep → visitOrder st.visits =
        (List.range (endStep - startStep).toNat).map
          (fun (j : Nat) => (startStep + (j : Int), true))) ∧
      (startStep ≠ s.m_maxTimeStep → endStep < startStep → visitOrder st.visits =
        (List.range (s.m_maxTimeStep - startStep + 1).toNat).map
          (fun (j : Nat) => (startStep + (j : Int), true)) ++
        (List.range (s.m_maxTimeStep - 1 - endStep).toNat).map
          (fun (j : Nat) => (s.m_maxTimeStep - 1 - (j : Int), false))) := by
  have hstart := controlInv_start s startStep
  have hloop := fun fuel => CumulativeMemory_eq_loop s BufferSize fuel startStep endStep haM heM
  have hi0 : (cumulativeMemoryStart s startStep).i = startStep := rfl
  have hv0 : visitOrder (cumulativeMemoryStart s startStep).visits = [] := rfl
  by_cases hmax : startStep = s.m_maxTimeStep
  · -- backward from the last time-step
    have hm0 : (cumulativeMemoryStart s startStep).forwardMode = false := by
      simp [cumulativeMemoryStart, hmax]
    have hk : (((s.m_maxTimeStep - endStep).toNat : Nat) : Int) = s.m_maxTimeStep - endStep :=
      Int.toNat_of_nonneg (by omega)
    obtain ⟨st, hrun, hinv, _, hi, hv⟩ := loop_backward_run s BufferSize endStep hidx hvalid
      (s.m_maxTimeStep - endStep).toNat (cumulativeMemoryStart s startStep) hstart hm0
      (by rw [hi0]; exact haM) (by rw [hi0, hk]; omega)
      (fun j hj => by
        have hj' : (j : Int) < s.m_maxTimeStep - endStep := by rw [← hk]; exact_mod_cast hj
        rw [hi0]; omega)
    rw [hi0, hk] at hi
    rw [hi0, hv0, List.nil_append, hmax] at hv
    have hlen : st.visits.length = (s.m_maxTimeStep - endStep).toNat := by
      rw [← visitOrder_length, hv]; simp
    refine ⟨st, ?_, hinv, by rw [hi]; omega, ?_, fun _ => hv, fun h => absurd hmax h,
      fun h => absurd hmax h⟩
    · intro fuel
      rw [hloop, hlen, hrun fuel]
      exact cumulativeMemoryLoop_exit _ _ _ _ (by rw [hi]; omega)
    · rw [hlen]; omega
  · have hm0 : (cumulativeMemoryStart s startStep).forwardMode = true := by
      simp [cumulativeMemoryStart, hmax]
    by_cases hle : startStep ≤ endStep
    · -- forward up to the end step
      have hk : (((endStep - startStep).toNat : Nat) : Int) = endStep - startStep :=
        Int.toNat_of_nonneg (by omega)
      obtain ⟨st, hrun, hinv, _, hi, hv⟩ := loop_forward_run s BufferSize endStep hidx hvalid
        (endStep - startStep).toNat (cumulativeMemoryStart s startStep) hstart hm0
        (by rw [hi0]; exact ha0) (by rw [hi0, hk]; omega)
        (fun j hj => by
          have hj' : (j : Int) < endStep - startStep := by rw [← hk]; exact_mod_cast hj
          rw [hi0]; omega)
      rw [hi0, hk] at hi
      rw [hi0, hv0, List.nil_append] at hv
      have hlen : st.visits.length = (endStep - startStep).toNat := by
        rw [← visitOrder_length, hv]; simp
      refine ⟨st, ?_, hinv, by rw [hi]; omega, ?_, fun h => absurd h hmax, fun _ _ => hv,
        fun _ h => absurd hle (not_le.2 h)⟩
      · intro fuel
        rw [hloop, hlen, hrun fuel]
        exact cumulativeMemoryLoop_exit _ _ _ _ (by rw [hi]; omega)
      · rw [hlen]; omega
    · -- forward to the last time-step, one flip, then backward
      have hlt : endStep < startStep := not_le.1 hle
      have hk1 : (((s.m_maxTimeStep - startStep).toNat : Nat) : Int) =
          s.m_maxTimeStep - startStep := Int.toNat_of_nonneg (by omega)
      have hk2 : (((s.m_maxTimeStep - 1 - endStep).toNat : Nat) : Int) =
          s.m_maxTimeStep - 1 - endStep := Int.toNat_of_nonneg (by omega)
      obtain ⟨st1, hrun1, hinv1, hm1, hi1, hv1⟩ := loop_forward_run s BufferSize endStep hidx
        hvalid (s.m_maxTimeStep - startStep).toNat (cumulativeMemoryStart s startStep) hstart hm0
        (by rw [hi0]; exact ha0) (by rw [hi0, hk1]; omega)
        (fun j hj => by rw [hi0]; omega)
      rw [hi0, hk1] at hi1
      rw [hi0, hv0, List.nil_append] at hv1
      have hi1' : st1.i = s.m_maxTimeStep := by rw [hi1]; ring
      obtain ⟨st2, hb2, hinv2, hm2, hi2, hv2⟩ := control_step s BufferSize st1 hidx hvalid hinv1
        (by rw [hi1']; omega) (by rw [hi1'])
      simp only [hm1, hi1', lt_self_iff_false, decide_False, Bool.and_false,
        Bool.false_eq_true, if_false] at hm2 hi2
      obtain ⟨st, hrun3, hinv, _, hi, hv⟩ := loop_backward_run s BufferSize endStep hidx hvalid
        (s.m_maxTimeStep - 1 - endStep).toNat st2 hinv2 hm2
        (by rw [hi2]; omega) (by rw [hi2, hk2]; omega)
        (fun j hj => by
          have hj' : (j : Int) < s.m_maxTimeStep - 1 - endStep := by
            rw [← hk2]; exact_mod_cast hj
          rw [hi2]; omega)
      rw [hi2, hk2] at hi
      have hsucc : (s.m_maxTimeStep - startStep + 1).toNat =
          (s.m_maxTimeStep - startStep).toNat + 1 := by omega
      have hv' : visitOrder st.visits =
          (List.range (s.m_maxTimeStep - startStep + 1).toNat).map
            (fun (j : Nat) => (startStep + (j : Int), true)) ++
          (List.range (s.m_maxTimeStep - 1 - endStep).toNat).map
            (fun (j : Nat) => (s.m_maxTimeStep - 1 - (j : Int), false)) := by
        rw [hv, hv2, hv1, hm1, hi1', hi2, hsucc, List.range_succ, List.map_append]
        simp only [List.map_cons, List.map_nil, hk1]
        congr 3
        rw [add_sub_cancel]
      have hlen : st.visits.length = (s.m_maxTimeStep - startStep).toNat + 1 +
          (s.m_maxTimeStep - 1 - endStep).toNat := by
        rw [← visitOrder_length, hv', hsucc]; simp
      refine ⟨st, ?_, hinv, by rw [hi]; omega, ?_, fun h => absurd h hmax,
        fun _ h => absurd h hle, fun _ _ => hv'⟩
      · intro fuel
        have hfuel : fuel + st.visits.length =
            (fuel + (s.m_maxTimeStep - 1 - endStep).toNat + 1) +
              (s.m_maxTimeStep - startStep).toNat := by rw [hlen]; omega
        rw [hloop, hfuel, hrun1,
          cumulativeMemoryLoop_step BufferSize endStep _ st1 st2 (by rw [hi1']; omega) hb2,
          hrun3 fuel]
        exact cumulativeMemoryLoop_exit _ _ _ _ (by rw [hi]; omega)
      · rw [hlen]; omega

theorem lastValue_eq_none_iff (vs : List Visit) (i : Int) :
    lastValue vs i = none ↔ ∀ v ∈ vs, v.timeStep ≠ i := by
  unfold lastValue
  rw [Option.map_eq_none', List.getLast?_eq_none_iff, List.filter_eq_nil_iff]
  simp

/-- The visits of a call that returns never include `endStep`: an iteration is only made
while `i` differs from `endStep`. -/
theorem CumulativeMemory_never_visits_end {s : SwapManager} {BufferSize : Buffer → Nat}
    {fuel : Nat} {startStep endStep : Int} {st : CumulativeMemoryLoop}
    (h : s.CumulativeMemory BufferSize fuel startStep endStep = some (Except.ok st)) :
    ∀ v ∈ st.visits, v.timeStep ≠ endStep := by
  obtain ⟨_, _, hloop⟩ := CumulativeMemory_ok h
  refine (cumulativeMemoryLoop_induct BufferSize endStep
    (fun st => ∀ v ∈ st.visits, v.timeStep ≠ endStep) ?_ fuel _ st ?_ hloop).1
  · intro st st1 hst hi hb v hv
    have hvis : st1.visits = st.visits ++ [Visit.mk st.i st.forwardMode
        (st1.s.m_freeMemoryBase + st1.swapInSize - st1.swapOutSize - st1.freedSize)] := by
      rcases cumulativeMemoryBody_ok_cases BufferSize st st1 hb with ⟨_, h1⟩ | ⟨_, h1⟩ <;>
        · rw [h1]; rfl
    rw [hvis] at hv
    rcases List.mem_append.1 hv with hv | hv
    · exact hst v hv
    · simp only [List.mem_singleton] at hv
      subst hv
      exact hi
  · intro v hv
    cases hv

/-- The keys of the returned mapping are the visited time-steps, and `endStep` is not among
them. -/
theorem CumulativeMemory_keys {s : SwapManager} {BufferSize : Buffer → Nat}
    {fuel : Nat} {startStep endStep : Int} {st : CumulativeMemoryLoop}
    (h : s.CumulativeMemory BufferSize fuel startStep endStep = some (Except.ok st)) :
    (∀ i, i ∈ keys st.step2CumulativeMemory ↔ ∃ v ∈ st.visits, v.timeStep = i) ∧
    endStep ∉ keys st.step2CumulativeMemory := by
  obtain ⟨⟨_, _, _, _, _, hmap⟩, _⟩ := CumulativeMemory_accumulation h
  have hkeys : ∀ i, i ∈ keys st.step2CumulativeMemory ↔ ∃ v ∈ st.visits, v.timeStep = i := by
    intro i
    have := lookup?_eq_none_iff st.step2CumulativeMemory i
    rw [hmap i, lastValue_eq_none_iff] at this
    constructor
    · intro hi
      by_contra hc
      push_neg at hc
      exact (this.1 hc) hi
    · rintro ⟨v, hv, hvi⟩
      by_contra hc
      exact (this.2 hc) v hv hvi
  refine ⟨hkeys, ?_⟩
  intro hc
  obtain ⟨v, hv, hve⟩ := (hkeys endStep).1 hc
  exact CumulativeMemory_never_visits_end h v hv hve

/-- Every public call keeps the action pointers of the per-step lists valid. -/
theorem call_run_actionsValid {s s1 : SwapManager} {tr : List Event} (c : Call)
    (hs : ActionsValid s) (h : c.run s = Except.ok (s1, tr)) : ActionsValid s1 := by
  cases c with
  | InitializeSwapping fwd bwd free idx => exact InitializeSwapping_actionsValid h
  | BeginSynchronizeState node isForward isTraining =>
    simp only [Call.run, Except.ok.injEq] at h
    have hsame := BeginSynchronizeState_sameUpTo s node isForward isTraining
    rw [h] at hsame
    obtain ⟨_, _, _, _, hheap, _, _, _, hf, hb, _⟩ := hsame
    constructor
    · intro n a ha
      rw [hheap]
      exact hs.1 n a (hf n ▸ ha)
    · intro n a ha
      rw [hheap]
      exact hs.2 n a (hb n ▸ ha)
  | EndSynchronizeState node isForward isTraining =>
    simp only [Call.run, Except.ok.injEq] at h
    have hsame := EndSynchronizeState_sameUpTo s node isForward isTraining
    rw [h] at hsame
    obtain ⟨_, _, _, _, hheap, _, _, _, hf, hb, _⟩ := hsame
    constructor
    · intro n a ha
      rw [hheap]
      exact hs.1 n a (hf n ▸ ha)
    · intro n a ha
      rw [hheap]
      exact hs.2 n a (hb n ▸ ha)
  | ClearActionsAndTheirMemory =>
    simp only [Call.run, Except.ok.injEq, ClearActionsAndTheirMemory, Prod.mk.injEq] at h
    rw [← h.1]
    constructor
    · intro n a ha
      cases ha
    · intro n a ha
      cases ha

/-- In every state reached by public calls from a new scheduler the action pointers of the
per-step lists are valid. -/
theorem runCalls_actionsValid {s s1 : SwapManager} {tr : List Event} (calls : List Call)
    (hs : ActionsValid s) (h : runCalls s calls = Except.ok (s1, tr)) : ActionsValid s1 := by
  induction calls generalizing s tr with
  | nil =>
    simp only [runCalls, Except.ok.injEq, Prod.mk.injEq] at h
    rw [← h.1]; exact hs
  | cons c cs ih =>
    obtain ⟨s', tr1, tr2, h1, h2, _⟩ := runCalls_cons_ok h
    exact ih (call_run_actionsValid c hs h1) h2

theorem actionsValid_exampleSchedule : ActionsValid exampleSchedule :=
  InitializeSwapping_actionsValid
    (show (SwapManager.new true 0 0 0 []).InitializeSwapping
      [(1, [10, 11, 10]), (2, [11])] [(2, [10]), (1, [11])] [(1, [12])] [(1, 0), (2, 1)] =
        Except.ok (exampleSchedule, []) from rfl)

theorem indexIsRange_exampleSchedule : IndexIsRange exampleSchedule := by
  intro i
  simp only [exampleSchedule, keys, List.map_cons, List.map_nil, List.mem_cons,
    List.mem_singleton, List.not_mem_nil, or_false]
  omega

theorem addActionSizes_ok_valid (BufferSize : Buffer → Nat) (heap : List ActionObj) (size r : ℚ)
    (l : List ActionPtr) (h : addActionSizes BufferSize heap size l = Except.ok r) :
    ∀ a ∈ l, ∃ obj, deref heap a = some obj := by
  induction l generalizing size with
  | nil => intro a ha; cases ha
  | cons b l ih =>
    unfold addActionSizes GetGPUMatrix at h
    cases hd : deref heap b with
    | none => rw [hd] at h; cases h
    | some obj =>
      rw [hd] at h
      intro a ha
      rcases List.mem_cons.1 ha with rfl | ha
      · exact ⟨obj, hd⟩
      · exact ih _ h a ha

/-- A successful pass through the loop body has read only valid action pointers. -/
theorem cumulativeMemoryBody_ok_valid (BufferSize : Buffer → Nat)
    (st st1 : CumulativeMemoryLoop) (h : cumulativeMemoryBody BufferSize st = Except.ok st1) :
    (st.forwardMode = true →
      ∀ a ∈ lookupD st.s.m_node2ForwardSwapOut (nodeOfTimeStep st.s st.i),
        ∃ obj, deref st.s.heap a = some obj) ∧
    (st.forwardMode = false →
      ∀ a ∈ lookupD st.s.m_node2BackwardSwapin (nodeOfTimeStep st.s st.i),
        ∃ obj, deref st.s.heap a = some obj) := by
  constructor
  · intro hm
    cases ha : addActionSizes BufferSize st.s.heap st.swapOutSize
        (lookupD st.s.m_node2ForwardSwapOut (nodeOfTimeStep st.s st.i)) with
    | error e =>
      rw [cumulativeMemoryBody_forward_error BufferSize st e hm ha] at h
      cases h
    | ok r => exact addActionSizes_ok_valid _ _ _ _ _ ha
  · intro hm
    cases ha : addActionSizes BufferSize st.s.heap st.swapInSize
        (lookupD st.s.m_node2BackwardSwapin (nodeOfTimeStep st.s st.i)) with
    | error e =>
      rw [cumulativeMemoryBody_backward_error BufferSize st e hm ha] at h
      cases h
    | ok r => exact addActionSizes_ok_valid _ _ _ _ _ ha

theorem cumulativeMemoryBody_visits (BufferSize : Buffer → Nat)
    (st st1 : CumulativeMemoryLoop) (h : cumulativeMemoryBody BufferSize st = Except.ok st1) :
    ∃ x, st1.visits = st.visits ++ [Visit.mk st.i st.forwardMode x] := by
  rcases cumulativeMemoryBody_ok_cases BufferSize st st1 h with ⟨_, h1⟩ | ⟨_, h1⟩ <;>
    · rw [h1]; exact ⟨_, rfl⟩

theorem cumulativeMemoryBody_readsLike (s : SwapManager) (BufferSize : Buffer → Nat)
    (st st1 : CumulativeMemoryLoop) (hr : ReadsLike s st.s)
    (h : cumulativeMemoryBody BufferSize st = Except.ok st1) : ReadsLike s st1.s := by
  rcases cumulativeMemoryBody_ok_cases BufferSize st st1 h with ⟨_, h1⟩ | ⟨_, h1⟩
  · rw [h1]; exact readsLike_forwardVisit hr st.i
  · rw [h1]; exact readsLike_backwardVisit hr st.i

/-- In a call that returns, every visit has read only valid action pointers. -/
theorem CumulativeMemory_reads_objects {s : SwapManager} {BufferSize : Buffer → Nat}
    {fuel : Nat} {startStep endStep : Int} {st : CumulativeMemoryLoop}
    (h : s.CumulativeMemory BufferSize fuel startStep endStep = some (Except.ok st)) :
    ∀ v ∈ st.visits, VisitReadsObjects s v := by
  obtain ⟨_, _, hloop⟩ := CumulativeMemory_ok h
  refine (cumulativeMemoryLoop_induct BufferSize endStep
    (fun st => ReadsLike s st.s ∧ ∀ v ∈ st.visits, VisitReadsObjects s v) ?_ fuel _ st ?_
    hloop).1.2
  · rintro st st1 ⟨hr, hst⟩ _ hb
    refine ⟨cumulativeMemoryBody_readsLike s BufferSize st st1 hr hb, ?_⟩
    obtain ⟨x, hx⟩ := cumulativeMemoryBody_visits BufferSize st st1 hb
    obtain ⟨hf, hbk⟩ := cumulativeMemoryBody_ok_valid BufferSize st st1 hb
    have hnode : nodeOfTimeStep st.s st.i = nodeOfTimeStep s st.i := hr.2.2.1 st.i
    rw [hnode, hr.1, hr.2.2.2.1] at hf
    rw [hnode, hr.1, hr.2.2.2.2.1] at hbk
    intro v hv
    rw [hx] at hv
    rcases List.mem_append.1 hv with hv | hv
    · exact hst v hv
    · simp only [List.mem_singleton] at hv
      subst hv
      exact ⟨hf, hbk⟩
  · exact ⟨readsLike_refl s, fun v hv => by cases hv⟩

/-- C17: on a scheduler whose time-step index is exactly `0, …, m_maxTimeStep` (and whose
lists hold valid action pointers), for `startStep` and `endStep` in that range the call returns
and its visits are, in order: when `startStep = m_maxTimeStep`, the steps `m_maxTimeStep`,
`m_maxTimeStep - 1`, …, `endStep + 1` in backward mode; otherwise, when `startStep < endStep`,
the steps `startStep`, …, `endStep - 1` in forward mode; and when `endStep < startStep`, the
steps `startStep`, …, `m_maxTimeStep` in forward mode followed by `m_maxTimeStep - 1`, …,
`endStep + 1` in backward mode.  The keys of the returned mapping are exactly the visited
time-steps, and `endStep` is not a key. -/
theorem C17_direction_inference (s : SwapManager) (BufferSize : Buffer → Nat)
    (startStep endStep : Int) (hidx : IndexIsRange s) (hvalid : ActionsValid s)
    (ha0 : 0 ≤ startStep) (haM : startStep ≤ s.m_maxTimeStep)
    (he0 : 0 ≤ endStep) (heM : endStep ≤ s.m_maxTimeStep) :
    ∃ st, (∀ fuel, 2 * (s.m_maxTimeStep + 1).toNat ≤ fuel →
        s.CumulativeMemory BufferSize fuel startStep endStep = some (Except.ok st)) ∧
      (startStep = s.m_maxTimeStep → visitOrder st.visits =
        (List.range (s.m_maxTimeStep - endStep).toNat).map
          (fun (j : Nat) => (s.m_maxTimeStep - (j : Int), false))) ∧
      (startStep ≠ s.m_maxTimeStep → startStep < endStep → visitOrder st.visits =
        (List.range (endStep - startStep).toNat).map
          (fun (j : Nat) => (startStep + (j : Int), true))) ∧
      (startStep ≠ s.m_maxTimeStep → endStep < startStep → visitOrder st.visits =
        (List.range (s.m_maxTimeStep - startStep + 1).toNat).map
          (fun (j : Nat) => (startStep + (j : Int), true)) ++
        (List.range (s.m_maxTimeStep - 1 - endStep).toNat).map
          (fun (j : Nat) => (s.m_maxTimeStep - 1 - (j : Int), false))) ∧
      (∀ i, i ∈ keys st.step2CumulativeMemory ↔ ∃ v ∈ st.visits, v.timeStep = i) ∧
      endStep ∉ keys st.step2CumulativeMemory := by
  obtain ⟨st, hrun, _, _, hlen, h1, h2, h3⟩ :=
    cumulativeMemory_control s BufferSize startStep endStep hidx hvalid ha0 haM he0 heM
  obtain ⟨hk1, hk2⟩ := CumulativeMemory_keys (hrun 0)
  refine ⟨st, ?_, h1, fun hne hlt => h2 hne (le_of_lt hlt), h3, hk1, hk2⟩
  intro fuel hfuel
  have := hrun (fuel - st.visits.length)
  rwa [Nat.sub_add_cancel (le_trans hlen hfuel)] at this

/-- Witness for C17: on the example schedule, whose index is `0, 1`, the call
`CumulativeMemory(1, 0)` starts at the last time-step and visits it in backward mode. -/
theorem C17_direction_inference_witness :
    IndexIsRange exampleSchedule ∧ ActionsValid exampleSchedule ∧
    ∃ st, (∀ fuel, 2 * (exampleSchedule.m_maxTimeStep + 1).toNat ≤ fuel →
        exampleSchedule.CumulativeMemory (fun _ => 1024) fuel 1 0 = some (Except.ok st)) ∧
      visitOrder st.visits = [(1, false)] := by
  refine ⟨indexIsRange_exampleSchedule, actionsValid_exampleSchedule, ?_⟩
  obtain ⟨st, h1, h2, _⟩ := C17_direction_inference exampleSchedule (fun _ => 1024) 1 0
    indexIsRange_exampleSchedule actionsValid_exampleSchedule (by decide) (by decide)
    (by decide) (by decide)
  exact ⟨st, h1, h2 rfl⟩

/-- C20: on a scheduler whose time-step index is exactly `0, …, m_maxTimeStep` (and whose
lists hold valid action pointers), for `startStep` and `endStep` in that range the loop
`while (i != endStep)` ends: the call returns when allowed as many iterations as it makes
visits, and these are at most `2 * (m_maxTimeStep + 1)`; every visited `i` lies in
`[0, m_maxTimeStep]`, the final `i` is `endStep`, and the time-step index is the same after the
call, so no lookup `m_timeStep2Node[i]` has inserted an entry. -/
theorem C20_loop_terminates (s : SwapManager) (BufferSize : Buffer → Nat)
    (startStep endStep : Int) (hidx : IndexIsRange s) (hvalid : ActionsValid s)
    (ha0 : 0 ≤ startStep) (haM : startStep ≤ s.m_maxTimeStep)
    (he0 : 0 ≤ endStep) (heM : endStep ≤ s.m_maxTimeStep) :
    ∃ st, (∀ fuel, 2 * (s.m_maxTimeStep + 1).toNat ≤ fuel →
        s.CumulativeMemory BufferSize fuel startStep endStep = some (Except.ok st)) ∧
      s.CumulativeMemory BufferSize st.visits.length startStep endStep = some (Except.ok st) ∧
      st.visits.length ≤ 2 * (s.m_maxTimeStep + 1).toNat ∧
      (∀ v ∈ st.visits, 0 ≤ v.timeStep ∧ v.timeStep ≤ s.m_maxTimeStep) ∧
      st.i = endStep ∧ 0 ≤ st.i ∧ st.i ≤ s.m_maxTimeStep ∧
      st.s.m_timeStep2Node = s.m_timeStep2Node := by
  obtain ⟨st, hrun, ⟨hts, _, hvis⟩, hi, hlen, _⟩ :=
    cumulativeMemory_control s BufferSize startStep endStep hidx hvalid ha0 haM he0 heM
  refine ⟨st, ?_, ?_, hlen, hvis, hi, by rw [hi]; exact he0, by rw [hi]; exact heM, hts⟩
  · intro fuel hfuel
    have := hrun (fuel - st.visits.length)
    rwa [Nat.sub_add_cancel (le_trans hlen hfuel)] at this
  · have := hrun 0
    rwa [Nat.zero_add] at this

/-- Witness for C20: the call `CumulativeMemory(0, 1)` on the example schedule. -/
theorem C20_loop_terminates_witness :
    IndexIsRange exampleSchedule ∧ ActionsValid exampleSchedule ∧
    ∃ st, (∀ fuel, 2 * (exampleSchedule.m_maxTimeStep + 1).toNat ≤ fuel →
        exampleSchedule.CumulativeMemory (fun _ => 1024) fuel 0 1 = some (Except.ok st)) ∧
      st.visits.length ≤ 2 * (exampleSchedule.m_maxTimeStep + 1).toNat := by
  refine ⟨indexIsRange_exampleSchedule, actionsValid_exampleSchedule, ?_⟩
  obtain ⟨st, h1, _, h3, _⟩ := C20_loop_terminates exampleSchedule (fun _ => 1024) 0 1
    indexIsRange_exampleSchedule actionsValid_exampleSchedule (by decide) (by decide)
    (by decide) (by decide)
  exact ⟨st, h1, h3⟩

theorem mem_assign {K V : Type} [DecidableEq K] (m : UMap K V) (k : K) (v : V) (p : K × V)
    (h : p ∈ assign m k v) : p ∈ m ∨ p = (k, v) := by
  induction m with
  | nil =>
    simp only [assign, List.mem_singleton] at h
    exact Or.inr h
  | cons q m ih =>
    obtain ⟨k', v'⟩ := q
    by_cases hk : k' = k
    · simp only [assign, hk, if_true, List.mem_cons] at h
      rcases h with h | h
      · exact Or.inr h
      · exact Or.inl (List.mem_cons_of_mem _ h)
    · simp only [assign, hk, if_false, List.mem_cons] at h
      rcases h with h | h
      · exact Or.inl (h ▸ List.mem_cons_self _ _)
      · rcases ih h with h | h
        · exact Or.inl (List.mem_cons_of_mem _ h)
        · exact Or.inr h

/-- On a scheduler with empty per-step tables the loop body accumulates nothing and stores the
baseline. -/
theorem baselineInv_body (s : SwapManager) (BufferSize : Buffer → Nat)
    (hf : s.m_node2ForwardSwapOut = []) (hb : s.m_node2BackwardSwapin = [])
    (hfr : s.m_node2BackwardFree = []) (st st1 : CumulativeMemoryLoop)
    (hinv : BaselineInv s st) (h : cumulativeMemoryBody BufferSize st = Except.ok st1) :
    BaselineInv s st1 := by
  obtain ⟨hr, hin, hout, hfreed, hmap⟩ := hinv
  have hlf : ∀ n, lookupD st.s.m_node2ForwardSwapOut n = [] := by
    intro n; rw [hr.2.2.2.1, hf]; rfl
  have hlb : ∀ n, lookupD st.s.m_node2BackwardSwapin n = [] := by
    intro n; rw [hr.2.2.2.2.1, hb]; rfl
  have hlfr : ∀ n, lookupD st.s.m_node2BackwardFree n = [] := by
    intro n; rw [hr.2.2.2.2.2, hfr]; rfl
  have hr1 := cumulativeMemoryBody_readsLike s BufferSize st st1 hr h
  have hz : sizeOfActions BufferSize st.s.heap [] = 0 := rfl
  have hzb : sizeOfBuffers BufferSize [] = 0 := rfl
  rcases cumulativeMemoryBody_ok_cases BufferSize st st1 h with ⟨_, h1⟩ | ⟨_, h1⟩
  · rw [hlf, hz, add_zero] at h1
    have e2 : st1.swapInSize = st.swapInSize := by rw [h1]; rfl
    have e3 : st1.swapOutSize = st.swapOutSize := by rw [h1]; rfl
    have e4 : st1.freedSize = st.freedSize := by rw [h1]; rfl
    have e5 : st1.step2CumulativeMemory = assign st.step2CumulativeMemory st.i
        (st1.s.m_freeMemoryBase + st.swapInSize - st.swapOutSize - st.freedSize) := by
      rw [h1]; rfl
    refine ⟨hr1, e2.trans hin, e3.trans hout, e4.trans hfreed, ?_⟩
    intro p hp
    rw [e5] at hp
    rcases mem_assign _ _ _ _ hp with hp | hp
    · exact hmap p hp
    · rw [hp, hin, hout, hfreed, hr1.2.1]
      simp
  · rw [hlb, hlfr, hz, hzb, add_zero, add_zero] at h1
    have e2 : st1.swapInSize = st.swapInSize := by rw [h1]; rfl
    have e3 : st1.swapOutSize = st.swapOutSize := by rw [h1]; rfl
    have e4 : st1.freedSize = st.freedSize := by rw [h1]; rfl
    have e5 : st1.step2CumulativeMemory = assign st.step2CumulativeMemory st.i
        (st1.s.m_freeMemoryBase + st.swapInSize - st.swapOutSize - st.freedSize) := by
      rw [h1]; rfl
    refine ⟨hr1, e2.trans hin, e3.trans hout, e4.trans hfreed, ?_⟩
    intro p hp
    rw [e5] at hp
    rcases mem_assign _ _ _ _ hp with hp | hp
    · exact hmap p hp
    · rw [hp, hin, hout, hfreed, hr1.2.1]
      simp

/-- On a scheduler with empty per-step tables every value of a returned mapping is the
baseline. -/
theorem CumulativeMemory_baseline (s : SwapManager) {BufferSize : Buffer → Nat} {fuel : Nat}
    {startStep endStep : Int} {st : CumulativeMemoryLoop}
    (hf : s.m_node2ForwardSwapOut = []) (hb : s.m_node2BackwardSwapin = [])
    (hfr : s.m_node2BackwardFree = [])
    (h : s.CumulativeMemory BufferSize fuel startStep endStep = some (Except.ok st)) :
    ∀ p ∈ st.step2CumulativeMemory, p.2 = s.m_freeMemoryBase := by
  obtain ⟨_, _, hloop⟩ := CumulativeMemory_ok h
  refine (cumulativeMemoryLoop_induct BufferSize endStep (BaselineInv s)
    (fun st st1 hst _ => baselineInv_body s BufferSize hf hb hfr st st1 hst) fuel _ st ?_
    hloop).1.2.2.2.2
  exact ⟨readsLike_refl s, rfl, rfl, rfl, fun p hp => by cases hp⟩

/-- C14: after ClearActionsAndTheirMemory on any scheduler, every value of a mapping returned
by `CumulativeMemory` is the baseline `m_freeMemoryBase`, for all steps; and when the time-step
index is exactly `0, …, m_maxTimeStep` and both steps lie in that range, the call does return
such a mapping. -/
theorem C14_estimate_after_clear_is_baseline (s : SwapManager) (BufferSize : Buffer → Nat)
    (startStep endStep : Int) :
    (∀ fuel st, s.ClearActionsAndTheirMemory.1.CumulativeMemory BufferSize fuel startStep
        endStep = some (Except.ok st) →
      ∀ p ∈ st.step2CumulativeMemory, p.2 = s.m_freeMemoryBase) ∧
    (IndexIsRange s → 0 ≤ startStep → startStep ≤ s.m_maxTimeStep → 0 ≤ endStep →
      endStep ≤ s.m_maxTimeStep →
      ∃ st, (∀ fuel, 2 * (s.m_maxTimeStep + 1).toNat ≤ fuel →
          s.ClearActionsAndTheirMemory.1.CumulativeMemory BufferSize fuel startStep endStep =
            some (Except.ok st)) ∧
        (∀ i, i ∈ keys st.step2CumulativeMemory ↔ ∃ v ∈ st.visits, v.timeStep = i) ∧
        ∀ p ∈ st.step2CumulativeMemory, p.2 = s.m_freeMemoryBase) := by
  have hbase : ∀ fuel st, s.ClearActionsAndTheirMemory.1.CumulativeMemory BufferSize fuel
      startStep endStep = some (Except.ok st) →
      ∀ p ∈ st.step2CumulativeMemory, p.2 = s.m_freeMemoryBase :=
    fun fuel st h => CumulativeMemory_baseline s.ClearActionsAndTheirMemory.1 rfl rfl rfl h
  refine ⟨hbase, ?_⟩
  intro hidx ha0 haM he0 heM
  have hvalid : ActionsValid s.ClearActionsAndTheirMemory.1 := by
    constructor
    · intro n a ha
      cases ha
    · intro n a ha
      cases ha
  obtain ⟨st, hrun, _, _, hlen, _⟩ := cumulativeMemory_control s.ClearActionsAndTheirMemory.1
    BufferSize startStep endStep hidx hvalid ha0 haM he0 heM
  refine ⟨st, ?_, (CumulativeMemory_keys (hrun 0)).1, hbase _ st (hrun 0)⟩
  intro fuel hfuel
  have hlen' : st.visits.length ≤ 2 * (s.m_maxTimeStep + 1).toNat := hlen
  have := hrun (fuel - st.visits.length)
  rwa [Nat.sub_add_cancel (le_trans hlen' hfuel)] at this

/-- Witness for C14: the example schedule after a clear, estimated from its last time-step
down to time-step 0. -/
theorem C14_estimate_after_clear_is_baseline_witness :
    IndexIsRange exampleSchedule ∧
    ∃ st, (∀ fuel, 2 * (exampleSchedule.m_maxTimeStep + 1).toNat ≤ fuel →
        exampleSchedule.ClearActionsAndTheirMemory.1.CumulativeMemory (fun _ => 1024) fuel 1 0 =
          some (Except.ok st)) ∧
      ∀ p ∈ st.step2CumulativeMemory, p.2 = exampleSchedule.m_freeMemoryBase := by
  refine ⟨indexIsRange_exampleSchedule, ?_⟩
  obtain ⟨st, h1, _, h3⟩ := (C14_estimate_after_clear_is_baseline exampleSchedule
    (fun _ => 1024) 1 0).2 indexIsRange_exampleSchedule (by decide) (by decide) (by decide)
    (by decide)
  exact ⟨st, h1, h3⟩

/-- C15 (as stated) fails: the scenario scheduler is what InitializeSwapping builds from the
tables of the scenario, and on it `CumulativeMemory(0, 0)` returns the empty mapping, which has
no entry for time-step 0: the loop ends at once because `i` equals `endStep`. -/
theorem C15_counterexample :
    (SwapManager.new true (8 * 1024 * 1024 * 1024) (8 * 1024 * 1024 * 1024) 0
        []).InitializeSwapping [(1, [10])] [(1, [])] [(1, [12])] [(1, 0), (2, 1)] =
      Except.ok (scenarioSchedule, []) ∧
    scenarioSchedule.m_maxTimeStep = 1 ∧
    Option.map (Except.map (fun st => st.step2CumulativeMemory))
      (scenarioSchedule.CumulativeMemory scenarioBufferSize 10 0 0) = some (Except.ok []) ∧
    lookup? ([] : UMap Int ℚ) 0 = none :=
  ⟨rfl, rfl, rfl, rfl⟩

/-- C15 (amended): in the scenario (baseline 8 GB, buffer 10 of 2 GB swapped out at the forward
visit of time-step 0, buffer 12 of 1 GB freed at its backward visit, `m_maxTimeStep = 1`) the
call `CumulativeMemory(0, 1)` returns, for any positive number of allowed iterations, the
mapping whose only entry is time-step 0 with the forward-phase value `8 - 2 = 6`, and
`CumulativeMemory(0, 0)` returns the empty mapping. -/
theorem C15_scenario_forward_value (fuel : Nat) :
    scenarioSchedule.m_freeMemoryBase = 8 ∧
    Bytes2GB (scenarioBufferSize 10) = 2 ∧ Bytes2GB (scenarioBufferSize 12) = 1 ∧
    Option.map (Except.map (fun st => st.step2CumulativeMemory))
      (scenarioSchedule.CumulativeMemory scenarioBufferSize (fuel + 1) 0 1) =
        some (Except.ok [(0, 6)]) ∧
    Option.map (Except.map (fun st => st.step2CumulativeMemory))
      (scenarioSchedule.CumulativeMemory scenarioBufferSize fuel 0 0) = some (Except.ok []) := by
  have hbase : scenarioSchedule.m_freeMemoryBase = 8 := by
    norm_num [scenarioSchedule, Bytes2GB]
  have h10 : Bytes2GB (scenarioBufferSize 10) = 2 := by
    norm_num [scenarioBufferSize, Bytes2GB]
  have h12 : Bytes2GB (scenarioBufferSize 12) = 1 := by
    norm_num [scenarioBufferSize, Bytes2GB]
  refine ⟨hbase, h10, h12, ?_, ?_⟩
  · have hadd : addActionSizes scenarioBufferSize
        (cumulativeMemoryStart scenarioSchedule 0).s.heap
        (cumulativeMemoryStart scenarioSchedule 0).swapOutSize
        (lookupD (cumulativeMemoryStart scenarioSchedule 0).s.m_node2ForwardSwapOut
          (nodeOfTimeStep (cumulativeMemoryStart scenarioSchedule 0).s
            (cumulativeMemoryStart scenarioSchedule 0).i)) =
        Except.ok (0 + Bytes2GB (scenarioBufferSize 10)) := rfl
    have hbody := cumulativeMemoryBody_forward_ok scenarioBufferSize
      (cumulativeMemoryStart scenarioSchedule 0) _ rfl hadd
    have hexit : cumulativeMemoryLoop scenarioBufferSize 1 fuel
        (cumulativeMemoryAdvance (cumulativeMemoryStart scenarioSchedule 0)
          (stateAfterForwardVisit (cumulativeMemoryStart scenarioSchedule 0).s
            (cumulativeMemoryStart scenarioSchedule 0).i)
          (cumulativeMemoryStart scenarioSchedule 0).swapInSize
          (0 + Bytes2GB (scenarioBufferSize 10))
          (cumulativeMemoryStart scenarioSchedule 0).freedSize) = some (Except.ok _) :=
      cumulativeMemoryLoop_exit _ _ _ _ rfl
    rw [CumulativeMemory_eq_loop _ _ _ _ _ (by decide) (by decide),
      cumulativeMemoryLoop_step scenarioBufferSize 1 fuel _ _ (by decide) hbody, hexit]
    simp only [Option.map_some', Except.map]
    show some (Except.ok [((0 : Int), scenarioSchedule.m_freeMemoryBase + 0
      - (0 + Bytes2GB (scenarioBufferSize 10)) - 0)]) = _
    rw [hbase, h10]
    norm_num
  · have hexit : cumulativeMemoryLoop scenarioBufferSize 0 fuel
        (cumulativeMemoryStart scenarioSchedule 0) = some (Except.ok _) :=
      cumulativeMemoryLoop_exit _ _ _ _ rfl
    rw [CumulativeMemory_eq_loop _ _ _ _ _ (by decide) (by decide), hexit]
    rfl

/-- Induction over the iterations observed by `cumulativeMemoryIterate`. -/
theorem cumulativeMemoryIterate_induct (BufferSize : Buffer → Nat) (endStep : Int)
    (P : CumulativeMemoryLoop → Prop)
    (hP : ∀ st st1, P st → st.i ≠ endStep →
      cumulativeMemoryBody BufferSize st = Except.ok st1 → P st1)
    (n : Nat) (st st1 : CumulativeMemoryLoop) (h0 : P st)
    (h : cumulativeMemoryIterate BufferSize endStep n st = Except.ok st1) : P st1 := by
  induction n generalizing st with
  | zero =>
    simp only [cumulativeMemoryIterate, Except.ok.injEq] at h
    subst h
    exact h0
  | succ n ih =>
    unfold cumulativeMemoryIterate at h
    by_cases hi : st.i = endStep
    · simp only [hi, if_true, Except.ok.injEq] at h
      subst h
      exact h0
    · simp only [hi, if_false] at h
      cases hb : cumulativeMemoryBody BufferSize st with
      | error e => rw [hb] at h; cases h
      | ok st2 =>
        rw [hb] at h
        exact ih st2 (hP st st2 h0 hi hb) h

/-- What the loop returns within `fuel` iterations is what is observed after `fuel`
iterations. -/
theorem cumulativeMemoryIterate_of_loop (BufferSize : Buffer → Nat) (endStep : Int)
    (fuel : Nat) (st : CumulativeMemoryLoop) (r : Except Failure CumulativeMemoryLoop)
    (h : cumulativeMemoryLoop BufferSize endStep fuel st = some r) :
    cumulativeMemoryIterate BufferSize endStep fuel st = r := by
  induction fuel generalizing st with
  | zero =>
    unfold cumulativeMemoryLoop at h
    by_cases hi : st.i = endStep
    · simp only [hi, if_true, Option.some.injEq] at h
      rw [← h]; rfl
    · simp [hi] at h
  | succ fuel ih =>
    unfold cumulativeMemoryLoop at h
    unfold cumulativeMemoryIterate
    by_cases hi : st.i = endStep
    · simp only [hi, if_true, Option.some.injEq] at h
      simp only [hi, if_true]
      exact h
    · simp only [hi, if_false] at h ⊢
      cases hb : cumulativeMemoryBody BufferSize st with
      | error e =>
        rw [hb] at h
        simp only [Option.some.injEq] at h
        exact h
      | ok st2 =>
        rw [hb] at h
        exact ih st2 h

/-- When the loop has not ended within `n` iterations, exactly `n` iterations have been made
without failure and `i` still differs from `endStep`. -/
theorem cumulativeMemoryIterate_of_loop_none (BufferSize : Buffer → Nat) (endStep : Int)
    (n : Nat) (st : CumulativeMemoryLoop)
    (h : cumulativeMemoryLoop BufferSize endStep n st = none) :
    ∃ st1, cumulativeMemoryIterate BufferSize endStep n st = Except.ok st1 ∧
      st1.i ≠ endStep ∧ st1.visits.length = st.visits.length + n := by
  induction n generalizing st with
  | zero =>
    unfold cumulativeMemoryLoop at h
    by_cases hi : st.i = endStep
    · simp [hi] at h
    · exact ⟨st, rfl, hi, rfl⟩
  | succ n ih =>
    unfold cumulativeMemoryLoop at h
    by_cases hi : st.i = endStep
    · simp [hi] at h
    · simp only [hi, if_false] at h
      cases hb : cumulativeMemoryBody BufferSize st with
      | error e => rw [hb] at h; cases h
      | ok st2 =>
        rw [hb] at h
        obtain ⟨st1, h1, h2, h3⟩ := ih st2 h
        obtain ⟨x, hx⟩ := cumulativeMemoryBody_visits BufferSize st st2 hb
        refine ⟨st1, ?_, h2, ?_⟩
        · unfold cumulativeMemoryIterate
          simp only [hi, if_false, hb]
          exact h1
        · rw [h3, hx, List.length_append, List.length_singleton]
          omega

/-- The loop body does not fail on a scheduler that reads like one with valid action
pointers. -/
theorem cumulativeMemoryBody_ok_of_valid (s : SwapManager) (BufferSize : Buffer → Nat)
    (st : CumulativeMemoryLoop) (hvalid : ActionsValid s) (hr : ReadsLike s st.s) :
    ∃ st1, cumulativeMemoryBody BufferSize st = Except.ok st1 := by
  have hnode : nodeOfTimeStep st.s st.i = nodeOfTimeStep s st.i := hr.2.2.1 st.i
  cases hm : st.forwardMode with
  | true =>
    have hv : ∀ a ∈ lookupD st.s.m_node2ForwardSwapOut (nodeOfTimeStep st.s st.i),
        ∃ obj, deref st.s.heap a = some obj := by
      intro a ha
      rw [hnode, hr.2.2.2.1] at ha
      obtain ⟨b, hb⟩ := hvalid.1 _ a ha
      exact ⟨_, by rw [hr.1]; exact hb⟩
    obtain ⟨r, hr1⟩ := addActionSizes_of_valid BufferSize st.s.heap st.swapOutSize _ hv
    exact ⟨_, cumulativeMemoryBody_forward_ok BufferSize st r hm hr1⟩
  | false =>
    have hv : ∀ a ∈ lookupD st.s.m_node2BackwardSwapin (nodeOfTimeStep st.s st.i),
        ∃ obj, deref st.s.heap a = some obj := by
      intro a ha
      rw [hnode, hr.2.2.2.2.1] at ha
      obtain ⟨o, b, hb⟩ := hvalid.2 _ a ha
      exact ⟨_, by rw [hr.1]; exact hb⟩
    obtain ⟨r, hr1⟩ := addActionSizes_of_valid BufferSize st.s.heap st.swapInSize _ hv
    exact ⟨_, cumulativeMemoryBody_backward_ok BufferSize st r hm hr1⟩

/-- With valid action pointers the loop can be observed after any number of iterations: no
iteration fails, and fewer than `n` visits are made only when the loop has ended. -/
theorem cumulativeMemoryIterate_total (s : SwapManager) (BufferSize : Buffer → Nat)
    (endStep : Int) (hvalid : ActionsValid s) (n : Nat) (st : CumulativeMemoryLoop)
    (hr : ReadsLike s st.s) :
    ∃ st1, cumulativeMemoryIterate BufferSize endStep n st = Except.ok st1 ∧
      st1.visits.length ≤ st.visits.length + n ∧
      (st1.visits.length < st.visits.length + n → st1.i = endStep) := by
  induction n generalizing st with
  | zero => exact ⟨st, rfl, le_refl _, fun h => absurd h (lt_irrefl _)⟩
  | succ n ih =>
    by_cases hi : st.i = endStep
    · refine ⟨st, ?_, by omega, fun _ => hi⟩
      unfold cumulativeMemoryIterate
      simp only [hi, if_true]
    · obtain ⟨st2, hb⟩ := cumulativeMemoryBody_ok_of_valid s BufferSize st hvalid hr
      obtain ⟨st1, h1, h2, h3⟩ := ih st2 (cumulativeMemoryBody_readsLike s BufferSize st st2 hr hb)
      obtain ⟨x, hx⟩ := cumulativeMemoryBody_visits BufferSize st st2 hb
      have hlen : st2.visits.length = st.visits.length + 1 := by
        rw [hx, List.length_append, List.length_singleton]
      refine ⟨st1, ?_, by omega, fun h => h3 (by omega)⟩
      unfold cumulativeMemoryIterate
      simp only [hi, if_false, hb]
      exact h1

/-- The loop body preserves: the scheduler reads like `s` and every visit has read only valid
action pointers. -/
theorem readsObjects_body (s : SwapManager) (BufferSize : Buffer → Nat)
    (st st1 : CumulativeMemoryLoop)
    (hinv : ReadsLike s st.s ∧ ∀ v ∈ st.visits, VisitReadsObjects s v)
    (hb : cumulativeMemoryBody BufferSize st = Except.ok st1) :
    ReadsLike s st1.s ∧ ∀ v ∈ st1.visits, VisitReadsObjects s v := by
  obtain ⟨hr, hst⟩ := hinv
  refine ⟨cumulativeMemoryBody_readsLike s BufferSize st st1 hr hb, ?_⟩
  obtain ⟨x, hx⟩ := cumulativeMemoryBody_visits BufferSize st st1 hb
  obtain ⟨hf, hbk⟩ := cumulativeMemoryBody_ok_valid BufferSize st st1 hb
  have hnode : nodeOfTimeStep st.s st.i = nodeOfTimeStep s st.i := hr.2.2.1 st.i
  rw [hnode, hr.1, hr.2.2.2.1] at hf
  rw [hnode, hr.1, hr.2.2.2.2.1] at hbk
  intro v hv
  rw [hx] at hv
  rcases List.mem_append.1 hv with hv | hv
  · exact hst v hv
  · simp only [List.mem_singleton] at hv
    subst hv
    exact ⟨hf, hbk⟩

/-- The accumulation rule holds for the loop observed after any number of iterations. -/
theorem accumulationRule_of_iterate (s : SwapManager) (BufferSize : Buffer → Nat)
    (startStep endStep : Int) (n : Nat) (st : CumulativeMemoryLoop)
    (h : cumulativeMemoryIterate BufferSize endStep n (cumulativeMemoryStart s startStep) =
      Except.ok st) : AccumulationRule s BufferSize st := by
  have hacc : AccumulationInv s BufferSize st := by
    refine cumulativeMemoryIterate_induct BufferSize endStep (AccumulationInv s BufferSize)
      (fun st st1 hst _ => accumulationInv_body s BufferSize st st1 hst) n _ st ?_ h
    refine ⟨readsLike_refl s, rfl, rfl, rfl, ?_, fun i => rfl⟩
    intro pre v post hv
    have hnil : ([] : List Visit) = pre ++ v :: post := hv
    simp at hnil
  have hobj := cumulativeMemoryIterate_induct BufferSize endStep
    (fun st => ReadsLike s st.s ∧ ∀ v ∈ st.visits, VisitReadsObjects s v)
    (fun st st1 hst _ => readsObjects_body s BufferSize st st1 hst) n _ st
    ⟨readsLike_refl s, fun v hv => by cases hv⟩ h
  exact ⟨hacc.2.2.2.2.1, hacc.2.2.2.2.2, hobj.2⟩

/-- A call that returns, or that has not returned within `n` iterations, in terms of the
loop. -/
theorem CumulativeMemory_loop_cases (s : SwapManager) (BufferSize : Buffer → Nat) (n : Nat)
    (startStep endStep : Int) :
    (∀ st, s.CumulativeMemory BufferSize n startStep endStep = some (Except.ok st) →
      cumulativeMemoryLoop BufferSize endStep n (cumulativeMemoryStart s startStep) =
        some (Except.ok st)) ∧
    (s.CumulativeMemory BufferSize n startStep endStep = none →
      cumulativeMemoryLoop BufferSize endStep n (cumulativeMemoryStart s startStep) = none) := by
  constructor
  · intro st h
    exact (CumulativeMemory_ok h).2.2
  · intro h
    unfold CumulativeMemory at h
    by_cases he : endStep ≤ s.m_maxTimeStep
    · by_cases hs : startStep ≤ s.m_maxTimeStep
      · simp only [he, hs, not_true_eq_false, if_false] at h
        exact h
      · simp [he, hs] at h
    · simp [he] at h

theorem exists_of_map_eq_ok {α β : Type} (f : α → β) (x : Option (Except Failure α)) (y : β)
    (h : Option.map (Except.map f) x = some (Except.ok y)) :
    ∃ a, x = some (Except.ok a) ∧ f a = y := by
  cases x with
  | none => simp at h
  | some r =>
    cases r with
    | error e => simp [Except.map] at h
    | ok a =>
      simp only [Option.map_some', Except.map, Option.some.injEq, Except.ok.injEq] at h
      exact ⟨a, rfl, h⟩

/-- C18: with sizes and baseline as exact rationals, at every point of every call of
`CumulativeMemory` the accumulation rule holds: the value stored at a visit is the baseline
plus the swapped-in total minus the swapped-out total minus the freed total of the visits made
so far including that visit, where a forward-mode visit adds only the sizes of the buffers of
its step's forward-swap-out list (to the swapped-out total) and a backward-mode visit adds only
the sizes of its step's swap-in list and free list (to the swapped-in and freed totals); and
the mapping holds for every time-step the value of its last visit.  This is shown (1) for the
loop observed after any number `n` of iterations; (2) with valid action pointers no iteration
fails, so the loop can be observed after every `n`, with `n` visits made unless it has ended;
(3) for a call that has not returned within `n` iterations, which has then made exactly `n`
visits; (4) for the result of every call that returns; and (5) where the time-step index is
exactly `0, …, m_maxTimeStep` and both steps lie in that range, the call does return, with a
result that obeys the rule. -/
theorem C18_accumulation_rule (s : SwapManager) (BufferSize : Buffer → Nat)
    (startStep endStep : Int) :
    (∀ n st, cumulativeMemoryIterate BufferSize endStep n (cumulativeMemoryStart s startStep) =
        Except.ok st → AccumulationRule s BufferSize st) ∧
    (ActionsValid s → ∀ n, ∃ st,
      cumulativeMemoryIterate BufferSize endStep n (cumulativeMemoryStart s startStep) =
        Except.ok st ∧
      st.visits.length ≤ n ∧ (st.visits.length < n → st.i = endStep) ∧
      AccumulationRule s BufferSize st) ∧
    (∀ n, s.CumulativeMemory BufferSize n startStep endStep = none →
      ∃ st, cumulativeMemoryIterate BufferSize endStep n (cumulativeMemoryStart s startStep) =
          Except.ok st ∧
        st.i ≠ endStep ∧ st.visits.length = n ∧ AccumulationRule s BufferSize st) ∧
    (∀ fuel st, s.CumulativeMemory BufferSize fuel startStep endStep = some (Except.ok st) →
      cumulativeMemoryIterate BufferSize endStep fuel (cumulativeMemoryStart s startStep) =
          Except.ok st ∧
        AccumulationRule s BufferSize st) ∧
    (IndexIsRange s → ActionsValid s → 0 ≤ startStep → startStep ≤ s.m_maxTimeStep →
      0 ≤ endStep → endStep ≤ s.m_maxTimeStep →
      ∃ st, (∀ fuel, 2 * (s.m_maxTimeStep + 1).toNat ≤ fuel →
          s.CumulativeMemory BufferSize fuel startStep endStep = some (Except.ok st)) ∧
        AccumulationRule s BufferSize st) := by
  have h1 : ∀ n st, cumulativeMemoryIterate BufferSize endStep n
      (cumulativeMemoryStart s startStep) = Except.ok st → AccumulationRule s BufferSize st :=
    fun n st h => accumulationRule_of_iterate s BufferSize startStep endStep n st h
  have h4 : ∀ fuel st, s.CumulativeMemory BufferSize fuel startStep endStep =
      some (Except.ok st) →
      cumulativeMemoryIterate BufferSize endStep fuel (cumulativeMemoryStart s startStep) =
          Except.ok st ∧ AccumulationRule s BufferSize st := by
    intro fuel st h
    have hloop := (CumulativeMemory_loop_cases s BufferSize fuel startStep endStep).1 st h
    have hit := cumulativeMemoryIterate_of_loop BufferSize endStep fuel _ _ hloop
    exact ⟨hit, h1 fuel st hit⟩
  refine ⟨h1, ?_, ?_, h4, ?_⟩
  · intro hvalid n
    obtain ⟨st, hst, hle, hlt⟩ := cumulativeMemoryIterate_total s BufferSize endStep hvalid n
      (cumulativeMemoryStart s startStep) (readsLike_refl s)
    have hz : (cumulativeMemoryStart s startStep).visits.length = 0 := rfl
    rw [hz, Nat.zero_add] at hle hlt
    exact ⟨st, hst, hle, hlt, h1 n st hst⟩
  · intro n h
    have hloop := (CumulativeMemory_loop_cases s BufferSize n startStep endStep).2 h
    obtain ⟨st, hst, hne, hlen⟩ := cumulativeMemoryIterate_of_loop_none BufferSize endStep n _
      hloop
    have hz : (cumulativeMemoryStart s startStep).visits.length = 0 := rfl
    rw [hz, Nat.zero_add] at hlen
    exact ⟨st, hst, hne, hlen, h1 n st hst⟩
  · intro hidx hvalid ha0 haM he0 heM
    obtain ⟨st, hrun, _, _, hlen, _⟩ :=
      cumulativeMemory_control s BufferSize startStep endStep hidx hvalid ha0 haM he0 heM
    refine ⟨st, ?_, (h4 _ st (hrun 0)).2⟩
    intro fuel hfuel
    have := hrun (fuel - st.visits.length)
    rwa [Nat.sub_add_cancel (le_trans hlen hfuel)] at this

theorem actionsValid_scenarioSchedule : ActionsValid scenarioSchedule :=
  InitializeSwapping_actionsValid
    (show (SwapManager.new true (8 * 1024 * 1024 * 1024) (8 * 1024 * 1024 * 1024) 0
        []).InitializeSwapping [(1, [10])] [(1, [])] [(1, [12])] [(1, 0), (2, 1)] =
      Except.ok (scenarioSchedule, []) from rfl)

theorem indexIsRange_scenarioSchedule : IndexIsRange scenarioSchedule := by
  intro i
  simp only [scenarioSchedule, keys, List.map_cons, List.map_nil, List.mem_cons,
    List.mem_singleton, List.not_mem_nil, or_false]
  omega

/-- The call `CumulativeMemory(0, -1)` in the scenario: the forward visits of the time-steps 0
and 1 and the backward visit of time-step 0, with the values stored. -/
theorem scenario_round_trip :
    Option.map (Except.map (fun st =>
        (visitOrder st.visits, st.visits.map Visit.value, st.step2CumulativeMemory)))
      (scenarioSchedule.CumulativeMemory scenarioBufferSize 5 0 (-1)) =
      some (Except.ok ([(0, true), (1, true), (0, false)], [6, 6, 5], [(0, 5), (1, 6)])) := by
  simp [CumulativeMemory, scenarioSchedule, cumulativeMemoryLoop, cumulativeMemoryBody,
    subscript, lookup?, addActionSizes, GetGPUMatrix, deref, cumulativeMemoryAdvance, countKey,
    assign, ActionObj.buffer, scenarioBufferSize, Bytes2GB, addBufferSizes, Except.map,
    visitOrder]
  norm_num

/-- The totals of three visits in the scenario whose order is forward 0, forward 1,
backward 0: nothing swapped in, 2 GB swapped out, 1 GB freed. -/
theorem scenario_totals (vs : List Visit)
    (h : visitOrder vs = [(0, true), (1, true), (0, false)]) :
    cumulativeSwapIn scenarioSchedule scenarioBufferSize vs = 0 ∧
    cumulativeSwapOut scenarioSchedule scenarioBufferSize vs = 2 ∧
    cumulativeFreed scenarioSchedule scenarioBufferSize vs = 1 := by
  rcases vs with _ | ⟨v1, _ | ⟨v2, _ | ⟨v3, _ | ⟨v4, tl⟩⟩⟩⟩ <;>
    simp only [visitOrder, List.map_cons, List.map_nil, List.cons.injEq, Prod.mk.injEq,
      and_true, reduceCtorEq, and_false, false_and] at h
  obtain ⟨⟨t1, m1⟩, ⟨t2, m2⟩, t3, m3⟩ := h
  have hd : (default : List Nat) = [] := rfl
  refine ⟨?_, ?_, ?_⟩
  · simp [cumulativeSwapIn, swapInOfVisit, t1, m1, t2, m2, t3, m3, nodeOfTimeStep, lookupD,
      lookup?, scenarioSchedule, sizeOfActions, hd]
  · simp [cumulativeSwapOut, swapOutOfVisit, t1, m1, t2, m2, t3, m3, nodeOfTimeStep, lookupD,
      lookup?, scenarioSchedule, sizeOfActions, deref, ActionObj.buffer, scenarioBufferSize,
      Bytes2GB, hd]
    norm_num
  · simp [cumulativeFreed, freedOfVisit, t1, m1, t2, m2, t3, m3, nodeOfTimeStep, lookupD,
      lookup?, scenarioSchedule, sizeOfBuffers, scenarioBufferSize, Bytes2GB, hd]
    norm_num

/-- Witness for C18.  In the scenario the call `CumulativeMemory(0, -1)` returns after the
visits forward 0, forward 1, backward 0 with the stored values 6, 6, 5; the totals at the end
are 0 swapped in, 2 swapped out, 1 freed, so the last value is `8 + 0 - 2 - 1 = 5`, and the
mapping holds 5 for time-step 0, the value of its later visit.  On the schedule with the
gapped index `0, 1, 3` the call `CumulativeMemory(0, 3)` has not returned after 6 iterations,
and the 6 visits made obey the rule.  In the scenario the call `CumulativeMemory(0, 1)`
returns. -/
theorem C18_accumulation_rule_witness :
    (∃ st, scenarioSchedule.CumulativeMemory scenarioBufferSize 5 0 (-1) =
        some (Except.ok st) ∧
      visitOrder st.visits = [(0, true), (1, true), (0, false)] ∧
      st.visits.map Visit.value = [6, 6, 5] ∧
      st.step2CumulativeMemory = [(0, 5), (1, 6)] ∧
      scenarioSchedule.m_freeMemoryBase = 8 ∧
      cumulativeSwapIn scenarioSchedule scenarioBufferSize st.visits = 0 ∧
      cumulativeSwapOut scenarioSchedule scenarioBufferSize st.visits = 2 ∧
      cumulativeFreed scenarioSchedule scenarioBufferSize st.visits = 1 ∧
      AccumulationRule scenarioSchedule scenarioBufferSize st) ∧
    ((SwapManager.new true 0 0 0 []).InitializeSwapping
        [(1, [10, 11, 10]), (2, [11])] [(2, [10]), (1, [11])] [(1, [12])]
        [(1, 0), (2, 1), (3, 3)] = Except.ok (gappedSchedule, []) ∧
      gappedSchedule.CumulativeMemory (fun _ => 1024) 6 0 3 = none ∧
      ∃ st, cumulativeMemoryIterate (fun _ => 1024) 3 6 (cumulativeMemoryStart gappedSchedule 0) =
          Except.ok st ∧
        st.i ≠ 3 ∧ st.visits.length = 6 ∧ AccumulationRule gappedSchedule (fun _ => 1024) st) ∧
    (IndexIsRange scenarioSchedule ∧ ActionsValid scenarioSchedule ∧
      ∃ st, (∀ fuel, 2 * (scenarioSchedule.m_maxTimeStep + 1).toNat ≤ fuel →
          scenarioSchedule.CumulativeMemory scenarioBufferSize fuel 0 1 = some (Except.ok st)) ∧
        AccumulationRule scenarioSchedule scenarioBufferSize st) := by
  refine ⟨?_, ⟨rfl, rfl, ?_⟩, indexIsRange_scenarioSchedule, actionsValid_scenarioSchedule, ?_⟩
  · obtain ⟨st, hst, hproj⟩ := exists_of_map_eq_ok _ _ _ scenario_round_trip
    simp only [Prod.mk.injEq] at hproj
    obtain ⟨hvo, hval, hmap⟩ := hproj
    obtain ⟨t1, t2, t3⟩ := scenario_totals st.visits hvo
    exact ⟨st, hst, hvo, hval, hmap, by norm_num [scenarioSchedule, Bytes2GB], t1, t2, t3,
      ((C18_accumulation_rule scenarioSchedule scenarioBufferSize 0 (-1)).2.2.2.1 5 st hst).2⟩
  · exact (C18_accumulation_rule gappedSchedule (fun _ => 1024) 0 3).2.2.1 6 rfl
  · exact (C18_accumulation_rule scenarioSchedule scenarioBufferSize 0 1).2.2.2.2
      indexIsRange_scenarioSchedule actionsValid_scenarioSchedule (by decide) (by decide)
      (by decide) (by decide)

end CNTK
